import Mathlib

/-!
# Fleet: purchase recording (feriwala / kabadiwala add-purchase)

A shallow embedding of the two `router.post("/add")` handlers of
`backend/routes/feriwala.js` and `backend/routes/kabadiwala.js`.

Modelling conventions.

* The PostgreSQL store is a record of tables, each table a list of rows.
* A pooled connection (`client`) carries the committed store together with the
  working copy of its open transaction, if any.  `BEGIN` inside an open
  transaction and `COMMIT`/`ROLLBACK` outside one are no-ops, as in PostgreSQL;
  `client.release()` hands the connection back to the pool as it is.
* Every `client.query` may throw: the environment decides, through `Env.fault`,
  whether the k-th statement sent on the connection throws and with which message.
* JavaScript numbers and SQL numerics are modelled as integers with exact
  arithmetic (amounts in the smallest unit).  The handlers compute
  `rate * weight` and `totalAmount += amount` on binary64 Numbers, which gives
  the exact result as long as every product and partial sum is an integer of
  absolute value at most 2^53; rounding of binary floating point is outside
  this model.
* Identifiers are strings; an absent JSON field is `none`.
-/

namespace Fleet

/-! ## Tables -/

/-- Row of `vendors`. -/
structure Vendor where
  id : String
  name : String
deriving DecidableEq

/-- Row of `vendor_rates`. -/
structure VendorRate where
  vendor_id : String
  scrap_type_id : String
  vendor_rate : Int
deriving DecidableEq

/-- Row of `scrap_types`. -/
structure ScrapType where
  id : String
  material_type : String
deriving DecidableEq

/-- Row of `feriwala_records`. -/
structure FeriwalaRecord where
  id : String
  company_id : String
  godown_id : String
  vendor_id : String
  date : String
  total_amount : Int
  created_at : String
deriving DecidableEq

/-- Row of `feriwala_scraps`. -/
structure FeriwalaScrap where
  id : String
  feriwala_id : String
  material : String
  weight : Int
  rate : Int
  amount : Int
deriving DecidableEq

/-- Row of `kabadiwala_records`. -/
structure KabadiwalaRecord where
  id : String
  company_id : String
  godown_id : String
  vendor_id : String
  kabadiwala_name : String
  date : String
  total_amount : Int
  payment_mode : String
  payment_status : String
  created_at : String
deriving DecidableEq

/-- Row of `kabadiwala_scraps`. -/
structure KabadiwalaScrap where
  id : String
  kabadiwala_id : String
  scrap_type_id : String
  material : String
  weight : Int
  rate : Int
  amount : Int
deriving DecidableEq

/-- Row of `kabadiwala_payments`. -/
structure KabadiwalaPayment where
  id : String
  kabadiwala_id : String
  amount : Int
  mode : String
  note : String
  date : String
  created_at : String
deriving DecidableEq

/-- Row of `account_transactions` (the ledger).  `metadata` is `none` where the
statement does not set the column. -/
structure AccountTransaction where
  id : String
  company_id : String
  godown_id : String
  account_id : String
  type : String
  amount : Int
  category : String
  reference : String
  metadata : Option String
  created_at : String
deriving DecidableEq

/-- Row of `accounts`. -/
structure Account where
  id : String
  balance : Int
deriving DecidableEq

/-- The tables read or written by the two add-purchase handlers. -/
structure Store where
  vendors : List Vendor
  vendor_rates : List VendorRate
  scrap_types : List ScrapType
  feriwala_records : List FeriwalaRecord
  feriwala_scraps : List FeriwalaScrap
  kabadiwala_records : List KabadiwalaRecord
  kabadiwala_scraps : List KabadiwalaScrap
  kabadiwala_payments : List KabadiwalaPayment
  account_transactions : List AccountTransaction
  accounts : List Account
deriving DecidableEq

/-! ## Connection, environment, outcomes -/

/-- Transaction-control commands and the release of the connection, in the
order in which a handler issues them. -/
inductive Ev where
  | BEGIN
  | COMMIT
  | ROLLBACK
  | release
deriving DecidableEq

/-- A pooled connection: the committed store, the working copy of the open
transaction (`none` when no transaction is open), the number of statements sent
so far, the number of uuids generated so far, and the control commands issued. -/
structure Client where
  committed : Store
  tx : Option Store
  stmts : Nat
  uuids : Nat
  trace : List Ev
deriving DecidableEq

/-- What lies outside the handler: which statement throws (and the error
message), the values of `uuid_generate_v4()`, the JavaScript date
`new Date().toISOString().split("T")[0]`, and SQL `CURRENT_DATE` and `NOW()`. -/
structure Env where
  fault : Nat → Option String
  uuid : Nat → String
  today : String
  current_date : String
  sql_now : String

/-- Body of a JSON response. -/
inductive Body where
  | error (error : String)
  | feriwalaAdded (feriwala_id : String) (totalAmount : Int) (vendor : String)
      (message : String)
  | kabadiwalaAdded (kabadi_id : String) (message : String)
deriving DecidableEq

/-- An HTTP response: `res.status(n).json(body)`; `res.json(body)` has status 200. -/
structure Response where
  status : Nat
  body : Body
deriving DecidableEq

/-- How a piece of the `try` block ends: it falls through with a value, it
executes `return res...`, or a statement throws. -/
inductive Outcome (α : Type) where
  | ok (a : α) (c : Client)
  | ret (r : Response) (c : Client)
  | thrown (e : String) (c : Client)

/-- Handler code: a function of the connection state. -/
def M (α : Type) : Type := Client → Outcome α

/-- Sequencing of handler code. -/
def M.bind {α β : Type} (x : M α) (f : α → M β) : M β := fun c =>
  match x c with
  | .ok a c1 => f a c1
  | .ret r c1 => .ret r c1
  | .thrown e c1 => .thrown e c1

instance : Monad M where
  pure a := fun c => .ok a c
  bind := M.bind

/-- The statement `return res.status(status).json(body)`. -/
def ret {α : Type} (r : Response) : M α := fun c => .ret r c

/-- The store a statement on this connection sees. -/
def Client.view (c : Client) : Store := c.tx.getD c.committed

/-- Writes go to the open transaction, or straight to the committed store when
no transaction is open (autocommit). -/
def Client.write (c : Client) (s : Store) : Client :=
  match c.tx with
  | some _ => { c with tx := some s }
  | none => { c with committed := s }

/-- A data statement `client.query(sql, params)`: `f` maps the next value of
`uuid_generate_v4()` and the visible store to the result and the store after the
statement; `n` is the number of uuids the statement generates (0 or 1). -/
def query {α : Type} (env : Env) (n : Nat) (f : String → Store → α × Store) : M α :=
  fun c =>
  match env.fault c.stmts with
  | some e => .thrown e { c with stmts := c.stmts + 1 }
  | none =>
    let r := f (env.uuid c.uuids) c.view
    .ok r.1 { (c.write r.2) with stmts := c.stmts + 1, uuids := c.uuids + n }

/-- The statement `client.query("BEGIN")`. -/
def queryBEGIN (env : Env) : M Unit := fun c =>
  match env.fault c.stmts with
  | some e => .thrown e { c with stmts := c.stmts + 1, trace := c.trace ++ [Ev.BEGIN] }
  | none =>
    .ok () { c with
      tx := some c.view, stmts := c.stmts + 1, trace := c.trace ++ [Ev.BEGIN] }

/-- The statement `client.query("COMMIT")`. -/
def queryCOMMIT (env : Env) : M Unit := fun c =>
  match env.fault c.stmts with
  | some e => .thrown e { c with stmts := c.stmts + 1, trace := c.trace ++ [Ev.COMMIT] }
  | none =>
    .ok () { c with
      committed := c.view, tx := none, stmts := c.stmts + 1,
      trace := c.trace ++ [Ev.COMMIT] }

/-- The statement `client.query("ROLLBACK")`. -/
def queryROLLBACK (env : Env) : M Unit := fun c =>
  match env.fault c.stmts with
  | some e =>
    .thrown e { c with stmts := c.stmts + 1, trace := c.trace ++ [Ev.ROLLBACK] }
  | none =>
    .ok () { c with tx := none, stmts := c.stmts + 1, trace := c.trace ++ [Ev.ROLLBACK] }

/-- The call `client.release()`: the connection returns to the pool as it is. -/
def Client.release (c : Client) : Client := { c with trace := c.trace ++ [Ev.release] }

/-- JavaScript truthiness of an identifier field: absent and empty are falsy. -/
def truthy (x : Option String) : Bool :=
  match x with
  | some s => s != ""
  | none => false

/-- The value bound to a SQL parameter for a field known to be present. -/
def param (x : Option String) : String := x.getD ""

/-! ## Requests -/

/-- One element of `scraps` in a request body. -/
structure ScrapInput where
  scrap_type_id : String
  weight : Int
deriving DecidableEq

/-- Body of `POST /feriwala/add`. -/
structure FeriwalaReq where
  company_id : Option String
  godown_id : Option String
  vendor_id : Option String
  scraps : Option (List ScrapInput)
  account_id : Option String
deriving DecidableEq

/-- Body of `POST /kabadiwala/add`. -/
structure KabadiwalaReq where
  company_id : Option String
  godown_id : Option String
  vendor_id : Option String
  scraps : Option (List ScrapInput)
  payment_amount : Option Int
  payment_mode : Option String
  account_id : Option String
  note : Option String
  date : Option String
deriving DecidableEq

/-- The test `scraps?.length` (truthy iff the list is present and non-empty). -/
def hasLength (scraps : Option (List ScrapInput)) : Bool :=
  match scraps with
  | some (_ :: _) => true
  | _ => false

/-! ## SQL statements -/

/-- `SELECT name FROM vendors WHERE id = $1`. -/
def selectVendorName (vendor_id : String) (_uuid : String) (s : Store) :
    List String × Store :=
  ((s.vendors.filter (fun v => v.id == vendor_id)).map (fun v => v.name), s)

/-- Rows of `SELECT vr.vendor_rate, st.material_type FROM vendor_rates vr
JOIN scrap_types st ON st.id = vr.scrap_type_id
WHERE vr.vendor_id = $1 AND vr.scrap_type_id = $2`. -/
def rateRows (s : Store) (vendor_id scrap_type_id : String) : List (Int × String) :=
  (s.vendor_rates.filter
      (fun vr => vr.vendor_id == vendor_id && vr.scrap_type_id == scrap_type_id)).flatMap
    (fun vr =>
      (s.scrap_types.filter (fun st => st.id == vr.scrap_type_id)).map
        (fun st => (vr.vendor_rate, st.material_type)))

/-- The rate lookup as a statement. -/
def selectRate (vendor_id scrap_type_id : String) (_uuid : String) (s : Store) :
    List (Int × String) × Store :=
  (rateRows s vendor_id scrap_type_id, s)

/-- `INSERT INTO feriwala_records (...) VALUES (uuid_generate_v4(), $1, $2, $3,
CURRENT_DATE, 0, NOW()) RETURNING id`. -/
def insertFeriwalaRecord (env : Env) (company_id godown_id vendor_id : String)
    (uuid : String) (s : Store) : String × Store :=
  (uuid, { s with feriwala_records := s.feriwala_records ++
    [{ id := uuid, company_id := company_id, godown_id := godown_id,
       vendor_id := vendor_id, date := env.current_date, total_amount := 0,
       created_at := env.sql_now }] })

/-- `INSERT INTO feriwala_scraps (id, feriwala_id, material, weight, rate, amount)
VALUES (uuid_generate_v4(), $1, $2, $3, $4, $5)`. -/
def insertFeriwalaScrap (feriwala_id material : String) (weight rate amount : Int)
    (uuid : String) (s : Store) : Unit × Store :=
  ((), { s with feriwala_scraps := s.feriwala_scraps ++
    [{ id := uuid, feriwala_id := feriwala_id, material := material,
       weight := weight, rate := rate, amount := amount }] })

/-- `UPDATE feriwala_records SET total_amount = $1 WHERE id = $2`. -/
def updateFeriwalaTotal (totalAmount : Int) (feriwala_id : String) (_uuid : String)
    (s : Store) : Unit × Store :=
  ((), { s with
    feriwala_records :=
      s.feriwala_records.map (fun r =>
        if r.id == feriwala_id then { r with total_amount := totalAmount } else r) })

/-- `INSERT INTO account_transactions (...) VALUES (uuid_generate_v4(), $1, $2, $3,
'debit', $4, category, $5, metadata, NOW())`. -/
def insertAccountTransaction (env : Env) (company_id godown_id account_id : String)
    (amount : Int) (category reference : String) (metadata : Option String)
    (uuid : String) (s : Store) : Unit × Store :=
  ((), { s with account_transactions := s.account_transactions ++
    [{ id := uuid, company_id := company_id, godown_id := godown_id,
       account_id := account_id, type := "debit", amount := amount,
       category := category, reference := reference, metadata := metadata,
       created_at := env.sql_now }] })

/-- `UPDATE accounts SET balance = balance - $1 WHERE id = $2`. -/
def updateAccountBalance (amount : Int) (account_id : String) (_uuid : String)
    (s : Store) : Unit × Store :=
  ((), { s with
    accounts :=
      s.accounts.map (fun a =>
        if a.id == account_id then { a with balance := a.balance - amount } else a) })

/-- `INSERT INTO kabadiwala_records (...) VALUES (uuid_generate_v4(), $1, $2, $3,
$4, $5, 0, $6, 'pending', NOW()) RETURNING id`. -/
def insertKabadiwalaRecord (env : Env)
    (company_id godown_id vendor_id kabadiwala_name date payment_mode : String)
    (uuid : String) (s : Store) : String × Store :=
  (uuid, { s with kabadiwala_records := s.kabadiwala_records ++
    [{ id := uuid, company_id := company_id, godown_id := godown_id,
       vendor_id := vendor_id, kabadiwala_name := kabadiwala_name, date := date,
       total_amount := 0, payment_mode := payment_mode, payment_status := "pending",
       created_at := env.sql_now }] })

/-- `INSERT INTO kabadiwala_scraps (id, kabadiwala_id, scrap_type_id, material,
weight, rate, amount) VALUES (uuid_generate_v4(), $1, $2, $3, $4, $5, $6)`. -/
def insertKabadiwalaScrap (kabadi_id scrap_type_id material : String)
    (weight rate amount : Int) (uuid : String) (s : Store) : Unit × Store :=
  ((), { s with kabadiwala_scraps := s.kabadiwala_scraps ++
    [{ id := uuid, kabadiwala_id := kabadi_id, scrap_type_id := scrap_type_id,
       material := material, weight := weight, rate := rate, amount := amount }] })

/-- `UPDATE kabadiwala_records SET total_amount=$1 WHERE id=$2`. -/
def updateKabadiwalaTotal (totalAmount : Int) (kabadi_id : String) (_uuid : String)
    (s : Store) : Unit × Store :=
  ((), { s with
    kabadiwala_records :=
      s.kabadiwala_records.map (fun r =>
        if r.id == kabadi_id then { r with total_amount := totalAmount } else r) })

/-- `UPDATE kabadiwala_records SET payment_status=$1 WHERE id=$2`. -/
def updateKabadiwalaStatus (payment_status : String) (kabadi_id : String)
    (_uuid : String) (s : Store) : Unit × Store :=
  ((), { s with
    kabadiwala_records :=
      s.kabadiwala_records.map (fun r =>
        if r.id == kabadi_id then { r with payment_status := payment_status } else r) })

/-- `INSERT INTO kabadiwala_payments (id, kabadiwala_id, amount, mode, note, date,
created_at) VALUES (uuid_generate_v4(), $1, $2, $3, $4, $5, NOW())`. -/
def insertKabadiwalaPayment (env : Env) (kabadi_id : String) (amount : Int)
    (mode note date : String) (uuid : String) (s : Store) : Unit × Store :=
  ((), { s with kabadiwala_payments := s.kabadiwala_payments ++
    [{ id := uuid, kabadiwala_id := kabadi_id, amount := amount, mode := mode,
       note := note, date := date, created_at := env.sql_now }] })

/-! ## `feriwala.js`: `router.post("/add")` -/

/-- The loop `for (const s of scraps)` of feriwala.js, lines 58-92, threading
`totalAmount`. -/
def feriwalaScraps (env : Env) (vendor_id feriwala_id : String) :
    List ScrapInput → Int → M Int
  | [], totalAmount => pure totalAmount
  | s :: rest, totalAmount => do
    let rateQuery ← query env 0 (selectRate vendor_id s.scrap_type_id)
    match rateQuery with
    | [] => do
      queryROLLBACK env
      ret ⟨400, .error
        ("Vendor does not have rate for this scrap_type_id: " ++ s.scrap_type_id)⟩
    | row :: _ => do
      let vendor_rate := row.1
      let material := row.2
      let weight := s.weight
      let amount := vendor_rate * weight
      query env 1 (insertFeriwalaScrap feriwala_id material weight vendor_rate amount)
      feriwalaScraps env vendor_id feriwala_id rest (totalAmount + amount)

/-- The `try` block of the feriwala add handler, lines 14-128. -/
def feriwalaTry (env : Env) (req : FeriwalaReq) : M Response := do
  if !truthy req.company_id || !truthy req.godown_id || !truthy req.vendor_id
      || !hasLength req.scraps then
    ret ⟨400, .error "Missing required fields"⟩
  if !truthy req.account_id then
    ret ⟨400, .error "Account ID is required"⟩
  queryBEGIN env
  let vendorRes ← query env 0 (selectVendorName (param req.vendor_id))
  match vendorRes with
  | [] => ret ⟨404, .error "Vendor not found"⟩
  | vendor_name :: _ => do
    let feriwala_id ← query env 1
      (insertFeriwalaRecord env (param req.company_id) (param req.godown_id)
        (param req.vendor_id))
    let totalAmount ←
      feriwalaScraps env (param req.vendor_id) feriwala_id (req.scraps.getD []) 0
    query env 0 (updateFeriwalaTotal totalAmount feriwala_id)
    query env 1
      (insertAccountTransaction env (param req.company_id) (param req.godown_id)
        (param req.account_id) totalAmount "feriwala purchase"
        ("Purchase from " ++ vendor_name) (some "\x7b\x7d"))
    query env 0 (updateAccountBalance totalAmount (param req.account_id))
    queryCOMMIT env
    pure ⟨200, .feriwalaAdded feriwala_id totalAmount vendor_name
      "Feriwala purchase added successfully (Auto-rate applied)"⟩

/-- The feriwala add handler: `try` block, `catch` (ROLLBACK and a 500 response)
and `finally` (release).  The response is `none` when the ROLLBACK of the `catch`
block itself throws, so that no response is sent. -/
def feriwalaAdd (env : Env) (req : FeriwalaReq) (c : Client) : Option Response × Client :=
  match feriwalaTry env req c with
  | .ok r c1 => (some r, c1.release)
  | .ret r c1 => (some r, c1.release)
  | .thrown _ c1 =>
    match queryROLLBACK env c1 with
    | .ok _ c2 => (some ⟨500, .error "Internal server error"⟩, c2.release)
    | .ret r c2 => (some r, c2.release)
    | .thrown _ c2 => (none, c2.release)

/-! ## `kabadiwala.js`: `router.post("/add")` -/

/-- The payment classification of kabadiwala.js, lines 101-105. -/
def payment_status (paid totalAmount : Int) : String :=
  if paid ≥ totalAmount then "paid"
  else if paid > 0 then "partial"
  else "pending"

/-- The loop `for (const s of scraps)` of kabadiwala.js, lines 62-92. -/
def kabadiwalaScraps (env : Env) (vendor_id kabadi_id : String) :
    List ScrapInput → Int → M Int
  | [], totalAmount => pure totalAmount
  | s :: rest, totalAmount => do
    let rateRes ← query env 0 (selectRate vendor_id s.scrap_type_id)
    match rateRes with
    | [] =>
      ret ⟨400, .error
        ("Vendor does not have rate for scrap_type_id " ++ s.scrap_type_id)⟩
    | row :: _ => do
      let rate := row.1
      let material := row.2
      let weight := s.weight
      let amount := rate * weight
      query env 1
        (insertKabadiwalaScrap kabadi_id s.scrap_type_id material weight rate amount)
      kabadiwalaScraps env vendor_id kabadi_id rest (totalAmount + amount)

/-- The `try` block of the kabadiwala add handler, lines 14-147. -/
def kabadiwalaTry (env : Env) (req : KabadiwalaReq) : M Response := do
  let payment_amount := req.payment_amount.getD 0
  let payment_mode := req.payment_mode.getD "cash"
  let note := req.note.getD ""
  let date := req.date.getD env.today
  if !truthy req.company_id || !truthy req.godown_id || !truthy req.vendor_id then
    ret ⟨400, .error "Missing required fields"⟩
  if !hasLength req.scraps then
    ret ⟨400, .error "Scrap items required"⟩
  queryBEGIN env
  let vRes ← query env 0 (selectVendorName (param req.vendor_id))
  match vRes with
  | [] => ret ⟨404, .error "Vendor not found"⟩
  | kabadiwala_name :: _ => do
    let kabadi_id ← query env 1
      (insertKabadiwalaRecord env (param req.company_id) (param req.godown_id)
        (param req.vendor_id) kabadiwala_name date payment_mode)
    let totalAmount ←
      kabadiwalaScraps env (param req.vendor_id) kabadi_id (req.scraps.getD []) 0
    query env 0 (updateKabadiwalaTotal totalAmount kabadi_id)
    let paid := payment_amount
    query env 0 (updateKabadiwalaStatus (payment_status paid totalAmount) kabadi_id)
    if paid > 0 then do
      query env 1 (insertKabadiwalaPayment env kabadi_id paid payment_mode note date)
      if truthy req.account_id then do
        query env 1
          (insertAccountTransaction env (param req.company_id) (param req.godown_id)
            (param req.account_id) paid "kabadiwala payment"
            ("Payment to " ++ kabadiwala_name) none)
        query env 0 (updateAccountBalance paid (param req.account_id))
    queryCOMMIT env
    pure ⟨200, .kabadiwalaAdded kabadi_id "Kabadiwala purchase recorded successfully"⟩

/-- The kabadiwala add handler: `try` block, `catch` (ROLLBACK and a 500 response
carrying `err.message`) and `finally` (release). -/
def kabadiwalaAdd (env : Env) (req : KabadiwalaReq) (c : Client) :
    Option Response × Client :=
  match kabadiwalaTry env req c with
  | .ok r c1 => (some r, c1.release)
  | .ret r c1 => (some r, c1.release)
  | .thrown err c1 =>
    match queryROLLBACK env c1 with
    | .ok _ c2 => (some ⟨500, .error err⟩, c2.release)
    | .ret r c2 => (some r, c2.release)
    | .thrown _ c2 => (none, c2.release)



/-! ## Specification vocabulary -/

/-- No statement throws. -/
def NoFault (env : Env) : Prop := ∀ k, env.fault k = none

/-- The environment in which no statement throws and all else is as in `env`. -/
def Env.clear (env : Env) : Env := { env with fault := fun _ => none }

/-- Postconditions for the three ways in which handler code ends. -/
def Outcome.sat {α : Type} (o : Outcome α) (Q : α → Client → Prop)
    (R : Response → Client → Prop) (T : String → Client → Prop) : Prop :=
  match o with
  | .ok a c => Q a c
  | .ret r c => R r c
  | .thrown e c => T e c

/-- Handler code `x` either throws or does what `y` does. -/
def Sim {α : Type} (x y : M α) : Prop :=
  ∀ c, (∃ e c1, x c = .thrown e c1) ∨ x c = y c

/-- Code run inside an open transaction whose committed store is `s` leaves the
committed store as it is, and leaves the transaction open when it falls through. -/
def Keeps {α : Type} (s : Store) (x : M α) : Prop :=
  ∀ c, c.committed = s → c.tx.isSome = true →
    (x c).sat (fun _ c1 => c1.committed = s ∧ c1.tx.isSome = true)
      (fun _ c1 => c1.committed = s) (fun _ c1 => c1.committed = s)

/-- Code run inside an open transaction whose committed store is `s` leaves the
committed store as it is unless it falls through. -/
def Ends {α : Type} (s : Store) (x : M α) : Prop :=
  ∀ c, c.committed = s → c.tx.isSome = true →
    (x c).sat (fun _ _ => True) (fun _ c1 => c1.committed = s)
      (fun _ c1 => c1.committed = s)

/-- The validation of the feriwala handler passes (lines 16-22). -/
def FeriwalaReq.valid (req : FeriwalaReq) : Bool :=
  truthy req.company_id && truthy req.godown_id && truthy req.vendor_id &&
    hasLength req.scraps && truthy req.account_id

/-- The validation of the kabadiwala handler passes (lines 26-30). -/
def KabadiwalaReq.valid (req : KabadiwalaReq) : Bool :=
  truthy req.company_id && truthy req.godown_id && truthy req.vendor_id &&
    hasLength req.scraps

/-- Names of the vendors with the given id, as the vendor lookup returns them. -/
def vendorNames (s : Store) (vendor_id : String) : List String :=
  (s.vendors.filter (fun v => v.id == vendor_id)).map (fun v => v.name)

/-- The first line, in input order, for which the rate lookup returns no row. -/
def firstUnrated (s : Store) (vendor_id : String) : List ScrapInput → Option ScrapInput
  | [] => none
  | x :: rest =>
    match rateRows s vendor_id x.scrap_type_id with
    | [] => some x
    | _ :: _ => firstUnrated s vendor_id rest

/-- The `feriwala_scraps` rows written for the lines that precede the first line
without a rate; `u` is the index of the next uuid. -/
def feriwalaLines (env : Env) (s : Store) (vendor_id feriwala_id : String) :
    Nat → List ScrapInput → List FeriwalaScrap
  | _, [] => []
  | u, x :: rest =>
    match rateRows s vendor_id x.scrap_type_id with
    | [] => []
    | row :: _ =>
      { id := env.uuid u, feriwala_id := feriwala_id, material := row.2,
        weight := x.weight, rate := row.1, amount := row.1 * x.weight } ::
        feriwalaLines env s vendor_id feriwala_id (u + 1) rest

/-- The `kabadiwala_scraps` rows written for the lines that precede the first line
without a rate; `u` is the index of the next uuid. -/
def kabadiwalaLines (env : Env) (s : Store) (vendor_id kabadi_id : String) :
    Nat → List ScrapInput → List KabadiwalaScrap
  | _, [] => []
  | u, x :: rest =>
    match rateRows s vendor_id x.scrap_type_id with
    | [] => []
    | row :: _ =>
      { id := env.uuid u, kabadiwala_id := kabadi_id, scrap_type_id := x.scrap_type_id,
        material := row.2, weight := x.weight, rate := row.1,
        amount := row.1 * x.weight } ::
        kabadiwalaLines env s vendor_id kabadi_id (u + 1) rest

/-- The header id a handler obtains when invoked on connection `c`. -/
def newId (env : Env) (c : Client) : String := env.uuid c.uuids

/-- The line rows a feriwala add writes when invoked on connection `c`. -/
def feriwalaNewLines (env : Env) (req : FeriwalaReq) (c : Client) : List FeriwalaScrap :=
  feriwalaLines env c.view (param req.vendor_id) (newId env c) (c.uuids + 1)
    (req.scraps.getD [])

/-- The total a feriwala add accumulates when invoked on connection `c`. -/
def feriwalaTotal (env : Env) (req : FeriwalaReq) (c : Client) : Int :=
  ((feriwalaNewLines env req c).map (fun x => x.amount)).sum

/-- The ledger entry a feriwala add writes. -/
def feriwalaEntry (env : Env) (req : FeriwalaReq) (c : Client) (vendor_name : String) :
    AccountTransaction :=
  { id := env.uuid (c.uuids + 1 + (req.scraps.getD []).length),
    company_id := param req.company_id, godown_id := param req.godown_id,
    account_id := param req.account_id, type := "debit",
    amount := feriwalaTotal env req c, category := "feriwala purchase",
    reference := "Purchase from " ++ vendor_name, metadata := some "\x7b\x7d",
    created_at := env.sql_now }

/-- The store a feriwala add commits when the vendor is found and every line has
a rate: the visible store with the header (total set), the lines, the ledger
entry and the balance adjustment. -/
def feriwalaAfter (env : Env) (req : FeriwalaReq) (c : Client) (vendor_name : String) :
    Store :=
  { c.view with
    feriwala_records :=
      (c.view.feriwala_records ++
        [({ id := newId env c, company_id := param req.company_id,
            godown_id := param req.godown_id, vendor_id := param req.vendor_id,
            date := env.current_date, total_amount := 0, created_at := env.sql_now } :
          FeriwalaRecord)]).map
        (fun (r : FeriwalaRecord) =>
          if r.id == newId env c then
            { r with total_amount := feriwalaTotal env req c }
          else r)
    feriwala_scraps := c.view.feriwala_scraps ++ feriwalaNewLines env req c
    account_transactions :=
      c.view.account_transactions ++ [feriwalaEntry env req c vendor_name]
    accounts :=
      c.view.accounts.map (fun a =>
        if a.id == param req.account_id then
          { a with balance := a.balance - feriwalaTotal env req c }
        else a) }

/-- The line rows a kabadiwala add writes when invoked on connection `c`. -/
def kabadiwalaNewLines (env : Env) (req : KabadiwalaReq) (c : Client) :
    List KabadiwalaScrap :=
  kabadiwalaLines env c.view (param req.vendor_id) (newId env c) (c.uuids + 1)
    (req.scraps.getD [])

/-- The total a kabadiwala add accumulates when invoked on connection `c`. -/
def kabadiwalaTotal (env : Env) (req : KabadiwalaReq) (c : Client) : Int :=
  ((kabadiwalaNewLines env req c).map (fun x => x.amount)).sum

/-- The amount paid with a kabadiwala request: `Number(payment_amount)`, 0 when
the field is omitted. -/
def kabadiwalaPaid (req : KabadiwalaReq) : Int := req.payment_amount.getD 0

/-- The header row a kabadiwala add inserts (total 0, status pending). -/
def kabadiwalaHeader (env : Env) (req : KabadiwalaReq) (c : Client)
    (kabadiwala_name : String) : KabadiwalaRecord :=
  { id := newId env c, company_id := param req.company_id,
    godown_id := param req.godown_id, vendor_id := param req.vendor_id,
    kabadiwala_name := kabadiwala_name, date := req.date.getD env.today,
    total_amount := 0, payment_mode := req.payment_mode.getD "cash",
    payment_status := "pending", created_at := env.sql_now }

/-- The payment row a kabadiwala add writes when the amount paid is positive. -/
def kabadiwalaPaymentRow (env : Env) (req : KabadiwalaReq) (c : Client) :
    KabadiwalaPayment :=
  { id := env.uuid (c.uuids + 1 + (req.scraps.getD []).length),
    kabadiwala_id := newId env c, amount := kabadiwalaPaid req,
    mode := req.payment_mode.getD "cash", note := req.note.getD "",
    date := req.date.getD env.today, created_at := env.sql_now }

/-- The ledger entry a kabadiwala add writes when the amount paid is positive and
an account is given. -/
def kabadiwalaEntry (env : Env) (req : KabadiwalaReq) (c : Client)
    (kabadiwala_name : String) : AccountTransaction :=
  { id := env.uuid (c.uuids + 2 + (req.scraps.getD []).length),
    company_id := param req.company_id, godown_id := param req.godown_id,
    account_id := param req.account_id, type := "debit",
    amount := kabadiwalaPaid req, category := "kabadiwala payment",
    reference := "Payment to " ++ kabadiwala_name, metadata := none,
    created_at := env.sql_now }

/-- Whether a kabadiwala add posts to the ledger: a positive payment and an
account id. -/
def kabadiwalaPosts (req : KabadiwalaReq) : Bool :=
  decide (kabadiwalaPaid req > 0) && truthy req.account_id

/-- The working store of a kabadiwala add when it returns on a line without a
rate: the header and the lines priced so far. -/
def kabadiwalaPending (env : Env) (req : KabadiwalaReq) (c : Client)
    (kabadiwala_name : String) : Store :=
  { c.view with
    kabadiwala_records :=
      c.view.kabadiwala_records ++ [kabadiwalaHeader env req c kabadiwala_name]
    kabadiwala_scraps := c.view.kabadiwala_scraps ++ kabadiwalaNewLines env req c }

/-- The store a kabadiwala add commits when the vendor is found and every line
has a rate. -/
def kabadiwalaAfter (env : Env) (req : KabadiwalaReq) (c : Client)
    (kabadiwala_name : String) : Store :=
  { c.view with
    kabadiwala_records :=
      ((c.view.kabadiwala_records ++ [kabadiwalaHeader env req c kabadiwala_name]).map
        (fun (r : KabadiwalaRecord) =>
          if r.id == newId env c then
            { r with total_amount := kabadiwalaTotal env req c }
          else r)).map
        (fun (r : KabadiwalaRecord) =>
          if r.id == newId env c then
            { r with payment_status :=
                payment_status (kabadiwalaPaid req) (kabadiwalaTotal env req c) }
          else r)
    kabadiwala_scraps := c.view.kabadiwala_scraps ++ kabadiwalaNewLines env req c
    kabadiwala_payments :=
      if kabadiwalaPaid req > 0 then
        c.view.kabadiwala_payments ++ [kabadiwalaPaymentRow env req c]
      else c.view.kabadiwala_payments
    account_transactions :=
      if kabadiwalaPosts req = true then
        c.view.account_transactions ++ [kabadiwalaEntry env req c kabadiwala_name]
      else c.view.account_transactions
    accounts :=
      if kabadiwalaPosts req = true then
        c.view.accounts.map (fun a =>
          if a.id == param req.account_id then
            { a with balance := a.balance - kabadiwalaPaid req }
          else a)
      else c.view.accounts }

/-- The total of a request at the rates on file: for each line, the rate of the
first row of the rate lookup times the weight. -/
def requestTotal (s : Store) (vendor_id : String) (l : List ScrapInput) : Int :=
  (l.map (fun x =>
    match rateRows s vendor_id x.scrap_type_id with
    | [] => 0
    | row :: _ => row.1 * x.weight)).sum

/-- The sum of the amounts of the ledger entries in `entries` posted against the
account `id`. -/
def posted (entries : List AccountTransaction) (id : String) : Int :=
  ((entries.filter (fun e => e.account_id == id)).map (fun e => e.amount)).sum



/-! ## Sample data -/

/-- An environment in which no statement throws. -/
def demoEnv : Env :=
  { fault := fun _ => none
    uuid := fun k => "uuid-" ++ toString k
    today := "2025-01-15"
    current_date := "2025-01-15"
    sql_now := "2025-01-15 10:00:00" }

/-- A store with one vendor, who has a rate of 10 per unit for iron and no rate
for copper, and one account with balance 1000. -/
def demoStore : Store :=
  { vendors := [⟨"V", "Ram"⟩]
    vendor_rates := [⟨"V", "M", 10⟩]
    scrap_types := [⟨"M", "Iron"⟩, ⟨"M2", "Copper"⟩]
    feriwala_records := []
    feriwala_scraps := []
    kabadiwala_records := []
    kabadiwala_scraps := []
    kabadiwala_payments := []
    account_transactions := []
    accounts := [⟨"A", 1000⟩] }

/-- A connection with no transaction open. -/
def demoClient : Client :=
  { committed := demoStore, tx := none, stmts := 0, uuids := 0, trace := [] }

/-- A feriwala request with the given lines, funded from account A. -/
def demoFeriwala (scraps : List ScrapInput) : FeriwalaReq :=
  { company_id := some "C", godown_id := some "G", vendor_id := some "V",
    scraps := some scraps, account_id := some "A" }

/-- A kabadiwala request with the given lines, payment amount and account. -/
def demoKabadiwala (scraps : List ScrapInput) (payment_amount : Option Int)
    (account_id : Option String) : KabadiwalaReq :=
  { company_id := some "C", godown_id := some "G", vendor_id := some "V",
    scraps := some scraps, payment_amount := payment_amount, payment_mode := none,
    account_id := account_id, note := none, date := none }



/-- The connection state in which a piece of handler code ends. -/
def Outcome.client {α : Type} : Outcome α → Client
  | .ok _ c => c
  | .ret _ c => c
  | .thrown _ c => c

/-- Handler code only appends transaction-control commands to the trace of the
connection, and never releases it. -/
def Logs {α : Type} (x : M α) : Prop :=
  ∀ c, ∃ evs, (x c).client.trace = c.trace ++ evs ∧ Ev.release ∉ evs

/-- One line row per input line, in order: same weight, and rate and material
taken from a row of the rate lookup for that line. -/
def PricedFrom (s : Store) (vendor_id : String) (weight : Int) (rate : Int)
    (material : String) (inp : ScrapInput) : Prop :=
  weight = inp.weight ∧ (rate, material) ∈ rateRows s vendor_id inp.scrap_type_id

/-- A piece of handler code throws only the errors of the storage layer: the
message of a thrown error is the message of some faulting statement. -/
def Rethrows {α : Type} (env : Env) (x : M α) : Prop :=
  ∀ c e c1, x c = .thrown e c1 → ∃ k, env.fault k = some e

/-- The sample environment, except that the statement number `k` sent on the
connection throws an error with message `msg`. -/
def demoFault (k : Nat) (msg : String) : Env :=
  { demoEnv with fault := fun i => if i = k then some msg else none }

/-- The sample environment, except that every statement from number `k` on throws
an error with message `msg`: the connection is lost. -/
def demoFaultFrom (k : Nat) (msg : String) : Env :=
  { demoEnv with fault := fun i => if k ≤ i then some msg else none }

/-- The environment `env` with other error messages: `g` gives the errors thrown. -/
def Env.withFault (env : Env) (g : Nat → Option String) : Env := { env with fault := g }

/-- The errors `g` are thrown by the same statements as those of `env`: only the
messages may differ. -/
def SameFaults (env : Env) (g : Nat → Option String) : Prop :=
  ∀ k, (g k).isSome = (env.fault k).isSome

/-- Two outcomes are the same apart from the message of the thrown error. -/
def Outcome.alike {α : Type} : Outcome α → Outcome α → Prop
  | .ok a c, .ok b d => a = b ∧ c = d
  | .ret r c, .ret s d => r = s ∧ c = d
  | .thrown _ c, .thrown _ d => c = d
  | _, _ => False

/-- Two pieces of handler code run in step: from every connection state they end
the same way, apart from the message of the thrown error. -/
def Alike {α : Type} (x y : M α) : Prop := ∀ c, (x c).alike (y c)



/-! ## Running handler code -/

theorem bind_apply {α β : Type} (x : M α) (f : α → M β) (c : Client) :
    (x >>= f) c = match x c with
      | .ok a c1 => f a c1
      | .ret r c1 => .ret r c1
      | .thrown e c1 => .thrown e c1 := rfl

theorem pure_apply {α : Type} (a : α) (c : Client) : (pure a : M α) c = .ok a c := rfl

theorem ret_apply {α : Type} (r : Response) (c : Client) : (ret r : M α) c = .ret r c := rfl

theorem query_open {α : Type} {env : Env} (hf : NoFault env) (n : Nat)
    (f : String → Store → α × Store) (cm w : Store) (k u : Nat) (tr : List Ev) :
    query env n f ⟨cm, some w, k, u, tr⟩ =
      .ok (f (env.uuid u) w).1 ⟨cm, some (f (env.uuid u) w).2, k + 1, u + n, tr⟩ := by
  simp [query, hf k, Client.view, Client.write]

theorem queryROLLBACK_noFault {env : Env} (hf : NoFault env) (c : Client) :
    queryROLLBACK env c =
      .ok () { c with tx := none, stmts := c.stmts + 1, trace := c.trace ++ [Ev.ROLLBACK] } := by
  simp [queryROLLBACK, hf c.stmts]

theorem queryCOMMIT_noFault {env : Env} (hf : NoFault env) (c : Client) :
    queryCOMMIT env c =
      .ok () { c with committed := c.view, tx := none, stmts := c.stmts + 1,
                      trace := c.trace ++ [Ev.COMMIT] } := by
  simp [queryCOMMIT, hf c.stmts]

theorem queryBEGIN_noFault {env : Env} (hf : NoFault env) (c : Client) :
    queryBEGIN env c =
      .ok () { c with tx := some c.view, stmts := c.stmts + 1,
                      trace := c.trace ++ [Ev.BEGIN] } := by
  simp [queryBEGIN, hf c.stmts]

/-! ## The rate lookup reads only `vendor_rates` and `scrap_types` -/

theorem rateRows_congr {s r : Store} (h1 : s.vendor_rates = r.vendor_rates)
    (h2 : s.scrap_types = r.scrap_types) (v t : String) :
    rateRows s v t = rateRows r v t := by
  simp [rateRows, h1, h2]

/-! ## The scrap loops when no statement throws -/

theorem feriwalaScraps_noFault {env : Env} (hf : NoFault env) (r : Store)
    (v fid : String) (l : List ScrapInput) :
    ∀ (t : Int) (cm w : Store) (k u : Nat) (tr : List Ev),
      w.vendor_rates = r.vendor_rates → w.scrap_types = r.scrap_types →
      feriwalaScraps env v fid l t ⟨cm, some w, k, u, tr⟩ =
        match firstUnrated r v l with
        | none =>
          .ok (t + ((feriwalaLines env r v fid u l).map (fun x => x.amount)).sum)
            ⟨cm, some { w with feriwala_scraps :=
                w.feriwala_scraps ++ feriwalaLines env r v fid u l },
              k + 2 * l.length, u + l.length, tr⟩
        | some x =>
          .ret ⟨400, .error
              ("Vendor does not have rate for this scrap_type_id: " ++ x.scrap_type_id)⟩
            ⟨cm, none, k + 2 * (feriwalaLines env r v fid u l).length + 2,
              u + (feriwalaLines env r v fid u l).length, tr ++ [Ev.ROLLBACK]⟩ := by
  induction l with
  | nil =>
    intro t cm w k u tr _ _
    simp [feriwalaScraps, firstUnrated, feriwalaLines, pure_apply]
  | cons x rest ih =>
    intro t cm w k u tr h1 h2
    simp only [feriwalaScraps, bind_apply, query_open hf, selectRate,
      rateRows_congr h1 h2]
    cases hrow : rateRows r v x.scrap_type_id with
    | nil =>
      simp [firstUnrated, feriwalaLines, hrow, bind_apply, queryROLLBACK_noFault hf,
        ret_apply]
    | cons row rows =>
      simp only [firstUnrated, feriwalaLines, hrow, bind_apply, query_open hf,
        insertFeriwalaScrap, Nat.add_zero]
      rw [ih]
      · cases firstUnrated r v rest with
        | none =>
          simp only [List.map_cons, List.sum_cons, List.length_cons, List.append_assoc,
            List.singleton_append]
          rw [show k + 1 + 1 + 2 * rest.length = k + 2 * (rest.length + 1) by omega,
            show u + 1 + rest.length = u + (rest.length + 1) by omega, add_assoc]
        | some y =>
          simp only [List.length_cons]
          rw [show k + 1 + 1 + 2 * (feriwalaLines env r v fid (u + 1) rest).length + 2 =
              k + 2 * ((feriwalaLines env r v fid (u + 1) rest).length + 1) + 2 by omega,
            show u + 1 + (feriwalaLines env r v fid (u + 1) rest).length =
              u + ((feriwalaLines env r v fid (u + 1) rest).length + 1) by omega]
      · exact h1
      · exact h2

theorem kabadiwalaScraps_noFault {env : Env} (hf : NoFault env) (r : Store)
    (v kid : String) (l : List ScrapInput) :
    ∀ (t : Int) (cm w : Store) (k u : Nat) (tr : List Ev),
      w.vendor_rates = r.vendor_rates → w.scrap_types = r.scrap_types →
      kabadiwalaScraps env v kid l t ⟨cm, some w, k, u, tr⟩ =
        match firstUnrated r v l with
        | none =>
          .ok (t + ((kabadiwalaLines env r v kid u l).map (fun x => x.amount)).sum)
            ⟨cm, some { w with kabadiwala_scraps :=
                w.kabadiwala_scraps ++ kabadiwalaLines env r v kid u l },
              k + 2 * l.length, u + l.length, tr⟩
        | some x =>
          .ret ⟨400, .error
              ("Vendor does not have rate for scrap_type_id " ++ x.scrap_type_id)⟩
            ⟨cm, some { w with kabadiwala_scraps :=
                w.kabadiwala_scraps ++ kabadiwalaLines env r v kid u l },
              k + 2 * (kabadiwalaLines env r v kid u l).length + 1,
              u + (kabadiwalaLines env r v kid u l).length, tr⟩ := by
  induction l with
  | nil =>
    intro t cm w k u tr _ _
    simp [kabadiwalaScraps, firstUnrated, kabadiwalaLines, pure_apply]
  | cons x rest ih =>
    intro t cm w k u tr h1 h2
    simp only [kabadiwalaScraps, bind_apply, query_open hf, selectRate,
      rateRows_congr h1 h2]
    cases hrow : rateRows r v x.scrap_type_id with
    | nil =>
      simp [firstUnrated, kabadiwalaLines, hrow, ret_apply]
    | cons row rows =>
      simp only [firstUnrated, kabadiwalaLines, hrow, bind_apply, query_open hf,
        insertKabadiwalaScrap, Nat.add_zero]
      rw [ih]
      · cases firstUnrated r v rest with
        | none =>
          simp only [List.map_cons, List.sum_cons, List.length_cons, List.append_assoc,
            List.singleton_append]
          rw [show k + 1 + 1 + 2 * rest.length = k + 2 * (rest.length + 1) by omega,
            show u + 1 + rest.length = u + (rest.length + 1) by omega, add_assoc]
        | some y =>
          simp only [List.length_cons, List.append_assoc, List.singleton_append]
          rw [show k + 1 + 1 + 2 * (kabadiwalaLines env r v kid (u + 1) rest).length + 1 =
              k + 2 * ((kabadiwalaLines env r v kid (u + 1) rest).length + 1) + 1 by omega,
            show u + 1 + (kabadiwalaLines env r v kid (u + 1) rest).length =
              u + ((kabadiwalaLines env r v kid (u + 1) rest).length + 1) by omega]
      · exact h1
      · exact h2

/-! ## The feriwala handler when no statement throws -/

theorem feriwalaTry_noFault {env : Env} (hf : NoFault env) (req : FeriwalaReq)
    (c : Client) (l : List ScrapInput)
    (hc : truthy req.company_id = true) (hg : truthy req.godown_id = true)
    (hv : truthy req.vendor_id = true) (ha : truthy req.account_id = true)
    (hs : req.scraps = some l) (hl : l ≠ []) :
    feriwalaTry env req c =
      match (c.view.vendors.filter (fun v => v.id == param req.vendor_id)).map
          (fun v => v.name) with
      | [] =>
        .ret ⟨404, .error "Vendor not found"⟩
          ⟨c.committed, some c.view, c.stmts + 2, c.uuids, c.trace ++ [Ev.BEGIN]⟩
      | vendor_name :: _ =>
        match firstUnrated c.view (param req.vendor_id) l with
        | some x =>
          .ret ⟨400, .error
              ("Vendor does not have rate for this scrap_type_id: " ++ x.scrap_type_id)⟩
            ⟨c.committed, none,
              c.stmts + 3 + 2 * (feriwalaNewLines env req c).length + 2,
              c.uuids + 1 + (feriwalaNewLines env req c).length,
              c.trace ++ [Ev.BEGIN, Ev.ROLLBACK]⟩
        | none =>
          .ok ⟨200, .feriwalaAdded (newId env c) (feriwalaTotal env req c) vendor_name
              "Feriwala purchase added successfully (Auto-rate applied)"⟩
            ⟨feriwalaAfter env req c vendor_name, none, c.stmts + 2 * l.length + 7,
              c.uuids + l.length + 2, c.trace ++ [Ev.BEGIN, Ev.COMMIT]⟩ := by
  have hlen : hasLength req.scraps = true := by
    cases l with
    | nil => exact absurd rfl hl
    | cons x rest => simp [hs, hasLength]
  simp only [feriwalaTry, hc, hg, hv, ha, hlen, Bool.not_true, Bool.or_self,
    Bool.false_eq_true, if_false, bind_apply, pure_apply, queryBEGIN_noFault hf,
    query_open hf, selectVendorName]
  cases hvend : (c.view.vendors.filter (fun v => v.id == param req.vendor_id)).map
      (fun v => v.name) with
  | nil => simp [ret_apply]
  | cons vendor_name others =>
    simp only [insertFeriwalaRecord, bind_apply, query_open hf]
    rw [feriwalaScraps_noFault hf c.view _ _ _ _ _ _ _ _ _ (by rfl) (by rfl)]
    simp only [hs, Option.getD_some]
    cases hfu : firstUnrated c.view (param req.vendor_id) l with
    | some x =>
      simp [feriwalaNewLines, hs, newId, Nat.add_assoc]
    | none =>
      simp only [bind_apply, query_open hf, queryCOMMIT_noFault hf, pure_apply,
        updateFeriwalaTotal, insertAccountTransaction, updateAccountBalance,
        Client.view, Option.getD_some]
      simp [feriwalaAfter, feriwalaTotal, feriwalaNewLines, feriwalaEntry, hs, newId,
        Client.view]
      omega

/-! ## The kabadiwala handler when no statement throws -/

theorem kabadiwalaTry_noFault {env : Env} (hf : NoFault env) (req : KabadiwalaReq)
    (c : Client) (l : List ScrapInput)
    (hc : truthy req.company_id = true) (hg : truthy req.godown_id = true)
    (hv : truthy req.vendor_id = true)
    (hs : req.scraps = some l) (hl : l ≠ []) :
    kabadiwalaTry env req c =
      match (c.view.vendors.filter (fun v => v.id == param req.vendor_id)).map
          (fun v => v.name) with
      | [] =>
        .ret ⟨404, .error "Vendor not found"⟩
          ⟨c.committed, some c.view, c.stmts + 2, c.uuids, c.trace ++ [Ev.BEGIN]⟩
      | kabadiwala_name :: _ =>
        match firstUnrated c.view (param req.vendor_id) l with
        | some x =>
          .ret ⟨400, .error
              ("Vendor does not have rate for scrap_type_id " ++ x.scrap_type_id)⟩
            ⟨c.committed, some (kabadiwalaPending env req c kabadiwala_name),
              c.stmts + 3 + 2 * (kabadiwalaNewLines env req c).length + 1,
              c.uuids + 1 + (kabadiwalaNewLines env req c).length,
              c.trace ++ [Ev.BEGIN]⟩
        | none =>
          .ok ⟨200, .kabadiwalaAdded (newId env c)
              "Kabadiwala purchase recorded successfully"⟩
            ⟨kabadiwalaAfter env req c kabadiwala_name, none,
              c.stmts + 2 * l.length + 6 +
                (if kabadiwalaPaid req > 0 then
                  (if truthy req.account_id = true then 3 else 1) else 0),
              c.uuids + l.length + 1 +
                (if kabadiwalaPaid req > 0 then
                  (if truthy req.account_id = true then 2 else 1) else 0),
              c.trace ++ [Ev.BEGIN, Ev.COMMIT]⟩ := by
  have hlen : hasLength req.scraps = true := by
    cases l with
    | nil => exact absurd rfl hl
    | cons x rest => simp [hs, hasLength]
  simp only [kabadiwalaTry, hc, hg, hv, hlen, Bool.not_true, Bool.or_self,
    Bool.false_eq_true, if_false, bind_apply, pure_apply, queryBEGIN_noFault hf,
    query_open hf, selectVendorName]
  cases hvend : (c.view.vendors.filter (fun v => v.id == param req.vendor_id)).map
      (fun v => v.name) with
  | nil => simp [ret_apply]
  | cons kabadiwala_name others =>
    simp only [insertKabadiwalaRecord, bind_apply, query_open hf]
    rw [kabadiwalaScraps_noFault hf c.view _ _ _ _ _ _ _ _ _ (by rfl) (by rfl)]
    simp only [hs, Option.getD_some]
    cases hfu : firstUnrated c.view (param req.vendor_id) l with
    | some x =>
      simp [kabadiwalaNewLines, kabadiwalaPending, kabadiwalaHeader, hs, newId,
        Nat.add_assoc]
    | none =>
      simp only [bind_apply, query_open hf, pure_apply,
        updateKabadiwalaTotal, updateKabadiwalaStatus, Option.getD_some]
      by_cases hp : kabadiwalaPaid req > 0
      · have hp2 : req.payment_amount.getD 0 > 0 := hp
        by_cases hacc : truthy req.account_id = true
        · simp only [hp2, hacc, if_true, bind_apply, query_open hf,
            queryCOMMIT_noFault hf, pure_apply, insertKabadiwalaPayment,
            insertAccountTransaction, updateAccountBalance, Client.view,
            Option.getD_some]
          simp [kabadiwalaAfter, kabadiwalaTotal, kabadiwalaNewLines, kabadiwalaEntry,
            kabadiwalaPaymentRow, kabadiwalaHeader, kabadiwalaPosts, kabadiwalaPaid,
            hs, newId, Client.view, hp2, hacc]
          refine ⟨?_, ?_, ?_⟩
          · congr 1
            omega
          · omega
          · omega
        · simp only [hp2, hacc, if_true, if_false, bind_apply, query_open hf,
            queryCOMMIT_noFault hf, pure_apply, insertKabadiwalaPayment,
            Client.view, Option.getD_some, Bool.false_eq_true]
          simp [kabadiwalaAfter, kabadiwalaTotal, kabadiwalaNewLines, kabadiwalaEntry,
            kabadiwalaPaymentRow, kabadiwalaHeader, kabadiwalaPosts, kabadiwalaPaid,
            hs, newId, Client.view, hp2, hacc]
          omega
      · have hp2 : ¬ req.payment_amount.getD 0 > 0 := hp
        simp only [hp2, if_false, bind_apply, query_open hf,
          queryCOMMIT_noFault hf, pure_apply, Client.view, Option.getD_some]
        simp [kabadiwalaAfter, kabadiwalaTotal, kabadiwalaNewLines,
          kabadiwalaHeader, kabadiwalaPosts, kabadiwalaPaid,
          hs, newId, Client.view, hp2]
        omega



/-! ## Statements that throw -/

theorem noFault_clear (env : Env) : NoFault env.clear := fun _ => rfl

theorem sim_refl {α : Type} (x : M α) : Sim x x := fun _ => Or.inr rfl

theorem sim_bind {α β : Type} {x y : M α} {f g : α → M β} (hx : Sim x y)
    (hf : ∀ a, Sim (f a) (g a)) : Sim (x >>= f) (y >>= g) := by
  intro c
  rcases hx c with ⟨e, c1, h⟩ | h
  · exact Or.inl ⟨e, c1, by simp [bind_apply, h]⟩
  · cases hxc : x c with
    | ok a c1 =>
      rcases hf a c1 with ⟨e, c2, h2⟩ | h2
      · exact Or.inl ⟨e, c2, by simp [bind_apply, hxc, h2]⟩
      · right
        rw [bind_apply, bind_apply, ← h, hxc]
        exact h2
    | ret r c1 =>
      right
      rw [bind_apply, bind_apply, ← h, hxc]
    | thrown e c1 => exact Or.inl ⟨e, c1, by simp [bind_apply, hxc]⟩

theorem sim_query {α : Type} (env : Env) (n : Nat) (f : String → Store → α × Store) :
    Sim (query env n f) (query env.clear n f) := by
  intro c
  cases h : env.fault c.stmts with
  | some e => exact Or.inl ⟨e, { c with stmts := c.stmts + 1 }, by simp [query, h]⟩
  | none => exact Or.inr (by simp [query, h, Env.clear])

theorem sim_BEGIN (env : Env) : Sim (queryBEGIN env) (queryBEGIN env.clear) := by
  intro c
  cases h : env.fault c.stmts with
  | some e =>
    exact Or.inl ⟨e, { c with stmts := c.stmts + 1, trace := c.trace ++ [Ev.BEGIN] },
      by simp [queryBEGIN, h]⟩
  | none => exact Or.inr (by simp [queryBEGIN, h, Env.clear])

theorem sim_COMMIT (env : Env) : Sim (queryCOMMIT env) (queryCOMMIT env.clear) := by
  intro c
  cases h : env.fault c.stmts with
  | some e =>
    exact Or.inl ⟨e, { c with stmts := c.stmts + 1, trace := c.trace ++ [Ev.COMMIT] },
      by simp [queryCOMMIT, h]⟩
  | none => exact Or.inr (by simp [queryCOMMIT, h, Env.clear])

theorem sim_ROLLBACK (env : Env) : Sim (queryROLLBACK env) (queryROLLBACK env.clear) := by
  intro c
  cases h : env.fault c.stmts with
  | some e =>
    exact Or.inl ⟨e, { c with stmts := c.stmts + 1, trace := c.trace ++ [Ev.ROLLBACK] },
      by simp [queryROLLBACK, h]⟩
  | none => exact Or.inr (by simp [queryROLLBACK, h, Env.clear])

theorem feriwalaScraps_sim (env : Env) (v fid : String) (l : List ScrapInput) :
    ∀ t, Sim (feriwalaScraps env v fid l t) (feriwalaScraps env.clear v fid l t) := by
  induction l with
  | nil => intro t; exact sim_refl _
  | cons x rest ih =>
    intro t
    simp only [feriwalaScraps]
    refine sim_bind (sim_query _ _ _) (fun rows => ?_)
    cases rows with
    | nil => exact sim_bind (sim_ROLLBACK env) (fun _ => sim_refl _)
    | cons row rows => exact sim_bind (sim_query _ _ _) (fun _ => ih _)

theorem kabadiwalaScraps_sim (env : Env) (v kid : String) (l : List ScrapInput) :
    ∀ t, Sim (kabadiwalaScraps env v kid l t) (kabadiwalaScraps env.clear v kid l t) := by
  induction l with
  | nil => intro t; exact sim_refl _
  | cons x rest ih =>
    intro t
    simp only [kabadiwalaScraps]
    refine sim_bind (sim_query _ _ _) (fun rows => ?_)
    cases rows with
    | nil => exact sim_refl _
    | cons row rows => exact sim_bind (sim_query _ _ _) (fun _ => ih _)

theorem feriwalaTry_sim (env : Env) (req : FeriwalaReq) :
    Sim (feriwalaTry env req) (feriwalaTry env.clear req) := by
  simp only [feriwalaTry]
  repeat' first
    | exact sim_query _ _ _
    | exact sim_BEGIN _
    | exact sim_COMMIT _
    | exact feriwalaScraps_sim _ _ _ _ _
    | refine sim_bind ?_ (fun _ => ?_)
    | exact sim_refl _
    | split

theorem kabadiwalaTry_sim (env : Env) (req : KabadiwalaReq) :
    Sim (kabadiwalaTry env req) (kabadiwalaTry env.clear req) := by
  simp only [kabadiwalaTry]
  repeat' first
    | exact sim_query _ _ _
    | exact sim_BEGIN _
    | exact sim_COMMIT _
    | exact kabadiwalaScraps_sim _ _ _ _ _
    | refine sim_bind ?_ (fun _ => ?_)
    | exact sim_refl _
    | split



/-! ## The committed store changes only at COMMIT -/

theorem keeps_pure {α : Type} (s : Store) (a : α) : Keeps s (pure a : M α) :=
  fun _ h1 h2 => ⟨h1, h2⟩

theorem keeps_ret {α : Type} (s : Store) (r : Response) : Keeps s (ret r : M α) :=
  fun _ h1 _ => h1

theorem keeps_bind {α β : Type} {s : Store} {x : M α} {f : α → M β} (hx : Keeps s x)
    (hf : ∀ a, Keeps s (f a)) : Keeps s (x >>= f) := by
  intro c h1 h2
  have h := hx c h1 h2
  rw [bind_apply]
  cases hxc : x c with
  | ok a c1 =>
    rw [hxc] at h
    exact hf a c1 h.1 h.2
  | ret r c1 =>
    rw [hxc] at h
    exact h
  | thrown e c1 =>
    rw [hxc] at h
    exact h

theorem keeps_query {α : Type} (s : Store) (env : Env) (n : Nat)
    (f : String → Store → α × Store) : Keeps s (query env n f) := by
  intro c h1 h2
  cases hw : c.tx with
  | none => simp [hw] at h2
  | some w =>
    cases h : env.fault c.stmts with
    | some e => simpa [query, h, Outcome.sat] using h1
    | none => simpa [query, h, Outcome.sat, Client.write, hw] using h1

theorem keeps_ROLLBACK_ret {α : Type} (s : Store) (env : Env) (r : Response) :
    Keeps s (queryROLLBACK env >>= fun _ => (ret r : M α)) := by
  intro c h1 _
  cases h : env.fault c.stmts with
  | some e => simpa [bind_apply, queryROLLBACK, h, Outcome.sat] using h1
  | none => simpa [bind_apply, queryROLLBACK, h, Outcome.sat, ret_apply] using h1

theorem ends_of_keeps {α : Type} {s : Store} {x : M α} (hx : Keeps s x) : Ends s x := by
  intro c h1 h2
  have h := hx c h1 h2
  cases hxc : x c with
  | ok a c1 => trivial
  | ret r c1 =>
    rw [hxc] at h
    exact h
  | thrown e c1 =>
    rw [hxc] at h
    exact h

theorem ends_bind {α β : Type} {s : Store} {x : M α} {f : α → M β} (hx : Keeps s x)
    (hf : ∀ a, Ends s (f a)) : Ends s (x >>= f) := by
  intro c h1 h2
  have h := hx c h1 h2
  rw [bind_apply]
  cases hxc : x c with
  | ok a c1 =>
    rw [hxc] at h
    exact hf a c1 h.1 h.2
  | ret r c1 =>
    rw [hxc] at h
    exact h
  | thrown e c1 =>
    rw [hxc] at h
    exact h

theorem ends_COMMIT_pure {α : Type} (s : Store) (env : Env) (a : α) :
    Ends s (queryCOMMIT env >>= fun _ => (pure a : M α)) := by
  intro c h1 _
  cases h : env.fault c.stmts with
  | some e => simpa [bind_apply, queryCOMMIT, h, Outcome.sat] using h1
  | none => simp [bind_apply, queryCOMMIT, h, Outcome.sat, pure_apply]

theorem feriwalaScraps_keeps (s : Store) (env : Env) (v fid : String)
    (l : List ScrapInput) : ∀ t, Keeps s (feriwalaScraps env v fid l t) := by
  induction l with
  | nil => intro t; exact keeps_pure _ _
  | cons x rest ih =>
    intro t
    simp only [feriwalaScraps]
    refine keeps_bind (keeps_query _ _ _ _) (fun rows => ?_)
    cases rows with
    | nil => exact keeps_ROLLBACK_ret _ _ _
    | cons row rows => exact keeps_bind (keeps_query _ _ _ _) (fun _ => ih _)

theorem kabadiwalaScraps_keeps (s : Store) (env : Env) (v kid : String)
    (l : List ScrapInput) : ∀ t, Keeps s (kabadiwalaScraps env v kid l t) := by
  induction l with
  | nil => intro t; exact keeps_pure _ _
  | cons x rest ih =>
    intro t
    simp only [kabadiwalaScraps]
    refine keeps_bind (keeps_query _ _ _ _) (fun rows => ?_)
    cases rows with
    | nil => exact keeps_ret _ _
    | cons row rows => exact keeps_bind (keeps_query _ _ _ _) (fun _ => ih _)

theorem starts_BEGIN {α : Type} (env : Env) {x : M α}
    (hx : ∀ s, Ends s x) (c : Client) :
    ((queryBEGIN env >>= fun _ => x) c).sat (fun _ _ => True)
      (fun _ c1 => c1.committed = c.committed) (fun _ c1 => c1.committed = c.committed) := by
  rw [bind_apply]
  cases h : env.fault c.stmts with
  | some e => simp [queryBEGIN, h, Outcome.sat]
  | none =>
    simp only [queryBEGIN, h]
    exact hx c.committed _ rfl rfl

theorem pure_bind_apply {α β : Type} (a : α) (f : α → M β) (c : Client) :
    ((pure a : M α) >>= f) c = f a c := rfl

theorem ret_bind_apply {α β : Type} (r : Response) (f : α → M β) (c : Client) :
    ((ret r : M α) >>= f) c = .ret r c := rfl

/-- Whatever the environment, the `try` block of the feriwala handler leaves the
committed store as it was unless it runs to its end. -/
theorem feriwalaTry_committed (env : Env) (req : FeriwalaReq) (c : Client) :
    (feriwalaTry env req c).sat (fun _ _ => True)
      (fun _ c1 => c1.committed = c.committed) (fun _ c1 => c1.committed = c.committed) := by
  simp only [feriwalaTry]
  split
  · simp [ret_bind_apply, Outcome.sat]
  · split
    · simp [pure_bind_apply, ret_bind_apply, Outcome.sat]
    · simp only [pure_bind_apply]
      refine starts_BEGIN env (fun s => ?_) c
      repeat' first
        | exact ends_COMMIT_pure _ _ _
        | exact keeps_query _ _ _ _
        | exact feriwalaScraps_keeps _ _ _ _ _ _
        | exact ends_of_keeps (keeps_ret _ _)
        | refine ends_bind ?_ (fun _ => ?_)
        | split

/-- Whatever the environment, the `try` block of the kabadiwala handler leaves the
committed store as it was unless it runs to its end. -/
theorem kabadiwalaTry_committed (env : Env) (req : KabadiwalaReq) (c : Client) :
    (kabadiwalaTry env req c).sat (fun _ _ => True)
      (fun _ c1 => c1.committed = c.committed) (fun _ c1 => c1.committed = c.committed) := by
  simp only [kabadiwalaTry]
  split
  · simp [ret_bind_apply, Outcome.sat]
  · split
    · simp [pure_bind_apply, ret_bind_apply, Outcome.sat]
    · simp only [pure_bind_apply]
      refine starts_BEGIN env (fun s => ?_) c
      repeat' first
        | exact ends_COMMIT_pure _ _ _
        | exact keeps_query _ _ _ _
        | exact keeps_pure _ _
        | exact kabadiwalaScraps_keeps _ _ _ _ _ _
        | exact ends_of_keeps (keeps_ret _ _)
        | refine ends_bind ?_ (fun _ => ?_)
        | split



/-! ## The handlers, case by case -/

theorem hasLength_iff (o : Option (List ScrapInput)) :
    hasLength o = true ↔ ∃ x rest, o = some (x :: rest) := by
  cases o with
  | none => simp [hasLength]
  | some l =>
    cases l with
    | nil => simp [hasLength]
    | cons x rest => simp [hasLength]

theorem feriwalaTry_invalid (env : Env) (req : FeriwalaReq) (c : Client)
    (h : req.valid = false) :
    ∃ msg, feriwalaTry env req c = .ret ⟨400, .error msg⟩ c := by
  simp only [feriwalaTry]
  split
  · exact ⟨_, rfl⟩
  · split
    · exact ⟨_, rfl⟩
    · rename_i h1 h2
      simp only [FeriwalaReq.valid] at h
      cases h3 : truthy req.company_id <;> cases h4 : truthy req.godown_id <;>
        cases h5 : truthy req.vendor_id <;> cases h6 : hasLength req.scraps <;>
        cases h7 : truthy req.account_id <;> simp_all

theorem kabadiwalaTry_invalid (env : Env) (req : KabadiwalaReq) (c : Client)
    (h : req.valid = false) :
    ∃ msg, kabadiwalaTry env req c = .ret ⟨400, .error msg⟩ c := by
  simp only [kabadiwalaTry]
  split
  · exact ⟨_, rfl⟩
  · split
    · exact ⟨_, rfl⟩
    · rename_i h1 h2
      simp only [KabadiwalaReq.valid] at h
      cases h3 : truthy req.company_id <;> cases h4 : truthy req.godown_id <;>
        cases h5 : truthy req.vendor_id <;> cases h6 : hasLength req.scraps <;>
        simp_all

/-- The feriwala `try` block on a valid request when no statement throws. -/
theorem feriwalaTry_valid {env : Env} (hf : NoFault env) (req : FeriwalaReq)
    (c : Client) (h : req.valid = true) :
    feriwalaTry env req c =
      match vendorNames c.view (param req.vendor_id) with
      | [] =>
        .ret ⟨404, .error "Vendor not found"⟩
          ⟨c.committed, some c.view, c.stmts + 2, c.uuids, c.trace ++ [Ev.BEGIN]⟩
      | vendor_name :: _ =>
        match firstUnrated c.view (param req.vendor_id) (req.scraps.getD []) with
        | some x =>
          .ret ⟨400, .error
              ("Vendor does not have rate for this scrap_type_id: " ++ x.scrap_type_id)⟩
            ⟨c.committed, none,
              c.stmts + 3 + 2 * (feriwalaNewLines env req c).length + 2,
              c.uuids + 1 + (feriwalaNewLines env req c).length,
              c.trace ++ [Ev.BEGIN, Ev.ROLLBACK]⟩
        | none =>
          .ok ⟨200, .feriwalaAdded (newId env c) (feriwalaTotal env req c) vendor_name
              "Feriwala purchase added successfully (Auto-rate applied)"⟩
            ⟨feriwalaAfter env req c vendor_name, none,
              c.stmts + 2 * (req.scraps.getD []).length + 7,
              c.uuids + (req.scraps.getD []).length + 2,
              c.trace ++ [Ev.BEGIN, Ev.COMMIT]⟩ := by
  simp only [FeriwalaReq.valid, Bool.and_eq_true] at h
  obtain ⟨⟨⟨⟨hc, hg⟩, hv⟩, hlen⟩, ha⟩ := h
  obtain ⟨x, rest, hs⟩ := (hasLength_iff _).1 hlen
  rw [feriwalaTry_noFault hf req c (x :: rest) hc hg hv ha hs (by simp)]
  simp [vendorNames, hs]

/-- The kabadiwala `try` block on a valid request when no statement throws. -/
theorem kabadiwalaTry_valid {env : Env} (hf : NoFault env) (req : KabadiwalaReq)
    (c : Client) (h : req.valid = true) :
    kabadiwalaTry env req c =
      match vendorNames c.view (param req.vendor_id) with
      | [] =>
        .ret ⟨404, .error "Vendor not found"⟩
          ⟨c.committed, some c.view, c.stmts + 2, c.uuids, c.trace ++ [Ev.BEGIN]⟩
      | kabadiwala_name :: _ =>
        match firstUnrated c.view (param req.vendor_id) (req.scraps.getD []) with
        | some x =>
          .ret ⟨400, .error
              ("Vendor does not have rate for scrap_type_id " ++ x.scrap_type_id)⟩
            ⟨c.committed, some (kabadiwalaPending env req c kabadiwala_name),
              c.stmts + 3 + 2 * (kabadiwalaNewLines env req c).length + 1,
              c.uuids + 1 + (kabadiwalaNewLines env req c).length,
              c.trace ++ [Ev.BEGIN]⟩
        | none =>
          .ok ⟨200, .kabadiwalaAdded (newId env c)
              "Kabadiwala purchase recorded successfully"⟩
            ⟨kabadiwalaAfter env req c kabadiwala_name, none,
              c.stmts + 2 * (req.scraps.getD []).length + 6 +
                (if kabadiwalaPaid req > 0 then
                  (if truthy req.account_id = true then 3 else 1) else 0),
              c.uuids + (req.scraps.getD []).length + 1 +
                (if kabadiwalaPaid req > 0 then
                  (if truthy req.account_id = true then 2 else 1) else 0),
              c.trace ++ [Ev.BEGIN, Ev.COMMIT]⟩ := by
  simp only [KabadiwalaReq.valid, Bool.and_eq_true] at h
  obtain ⟨⟨⟨hc, hg⟩, hv⟩, hlen⟩ := h
  obtain ⟨x, rest, hs⟩ := (hasLength_iff _).1 hlen
  rw [kabadiwalaTry_noFault hf req c (x :: rest) hc hg hv hs (by simp)]
  simp [vendorNames, hs]

theorem feriwalaLines_clear (env : Env) (s : Store) (v fid : String)
    (l : List ScrapInput) :
    ∀ u, feriwalaLines env.clear s v fid u l = feriwalaLines env s v fid u l := by
  induction l with
  | nil => intro u; rfl
  | cons x rest ih =>
    intro u
    simp only [feriwalaLines, ih]
    rfl

theorem kabadiwalaLines_clear (env : Env) (s : Store) (v kid : String)
    (l : List ScrapInput) :
    ∀ u, kabadiwalaLines env.clear s v kid u l = kabadiwalaLines env s v kid u l := by
  induction l with
  | nil => intro u; rfl
  | cons x rest ih =>
    intro u
    simp only [kabadiwalaLines, ih]
    rfl

theorem newId_clear (env : Env) (c : Client) : newId env.clear c = newId env c := rfl

theorem feriwalaNewLines_clear (env : Env) (req : FeriwalaReq) (c : Client) :
    feriwalaNewLines env.clear req c = feriwalaNewLines env req c := by
  simp [feriwalaNewLines, feriwalaLines_clear, newId_clear]

theorem feriwalaTotal_clear (env : Env) (req : FeriwalaReq) (c : Client) :
    feriwalaTotal env.clear req c = feriwalaTotal env req c := by
  simp [feriwalaTotal, feriwalaNewLines_clear]

theorem feriwalaAfter_clear (env : Env) (req : FeriwalaReq) (c : Client)
    (vendor_name : String) :
    feriwalaAfter env.clear req c vendor_name = feriwalaAfter env req c vendor_name := by
  simp only [feriwalaAfter, feriwalaEntry, feriwalaTotal_clear, feriwalaNewLines_clear,
    newId_clear]
  rfl

theorem kabadiwalaNewLines_clear (env : Env) (req : KabadiwalaReq) (c : Client) :
    kabadiwalaNewLines env.clear req c = kabadiwalaNewLines env req c := by
  simp [kabadiwalaNewLines, kabadiwalaLines_clear, newId_clear]

theorem kabadiwalaTotal_clear (env : Env) (req : KabadiwalaReq) (c : Client) :
    kabadiwalaTotal env.clear req c = kabadiwalaTotal env req c := by
  simp [kabadiwalaTotal, kabadiwalaNewLines_clear]

theorem kabadiwalaAfter_clear (env : Env) (req : KabadiwalaReq) (c : Client)
    (kabadiwala_name : String) :
    kabadiwalaAfter env.clear req c kabadiwala_name =
      kabadiwalaAfter env req c kabadiwala_name := by
  simp only [kabadiwalaAfter, kabadiwalaEntry, kabadiwalaPaymentRow, kabadiwalaHeader,
    kabadiwalaTotal_clear, kabadiwalaNewLines_clear, newId_clear]
  rfl

/-- A run of the `try` block that does not throw is the run without faults. -/
theorem sim_ok {α : Type} {x y : M α} (h : Sim x y) (c : Client)
    (hn : ∀ e c1, x c ≠ .thrown e c1) : x c = y c := by
  rcases h c with ⟨e, c1, h1⟩ | h1
  · exact absurd h1 (hn e c1)
  · exact h1

/-- Every invocation of the feriwala handler either commits, with the response
and the store spelled out, or answers otherwise and leaves the committed store
as it was. -/
theorem feriwalaAdd_cases (env : Env) (req : FeriwalaReq) (c : Client) :
    (∃ vendor_name others,
        req.valid = true ∧
        vendorNames c.view (param req.vendor_id) = vendor_name :: others ∧
        firstUnrated c.view (param req.vendor_id) (req.scraps.getD []) = none ∧
        (feriwalaAdd env req c).1 =
          some ⟨200, .feriwalaAdded (newId env c) (feriwalaTotal env req c) vendor_name
            "Feriwala purchase added successfully (Auto-rate applied)"⟩ ∧
        (feriwalaAdd env req c).2.committed = feriwalaAfter env req c vendor_name ∧
        (feriwalaAdd env req c).2.tx = none) ∨
      ((∀ r, (feriwalaAdd env req c).1 = some r → r.status ≠ 200) ∧
        (feriwalaAdd env req c).2.committed = c.committed) := by
  have hkeep := feriwalaTry_committed env req c
  cases htry : feriwalaTry env req c with
  | thrown e c1 =>
    right
    rw [htry] at hkeep
    simp only [Outcome.sat] at hkeep
    simp only [feriwalaAdd, htry]
    cases h : env.fault c1.stmts with
    | some e2 => simp [queryROLLBACK, h, Client.release, hkeep]
    | none => simp [queryROLLBACK, h, Client.release, hkeep]
  | ok r c1 =>
    have hclear : feriwalaTry env.clear req c = .ok r c1 := by
      rw [← sim_ok (feriwalaTry_sim env req) c (by simp [htry]), htry]
    cases hvalid : req.valid with
    | false =>
      obtain ⟨msg, hm⟩ := feriwalaTry_invalid env req c hvalid
      simp [htry] at hm
    | true =>
      rw [feriwalaTry_valid (noFault_clear env) req c hvalid] at hclear
      cases hvn : vendorNames c.view (param req.vendor_id) with
      | nil => simp [hvn] at hclear
      | cons vendor_name others =>
        cases hfu : firstUnrated c.view (param req.vendor_id) (req.scraps.getD []) with
        | some x => simp [hvn, hfu] at hclear
        | none =>
          left
          simp only [hvn, hfu, Outcome.ok.injEq] at hclear
          refine ⟨vendor_name, others, rfl, rfl, rfl, ?_, ?_, ?_⟩
          · simp only [feriwalaAdd, htry, ← hclear.1, newId_clear, feriwalaTotal_clear]
          · simp only [feriwalaAdd, htry, ← hclear.2, Client.release,
              feriwalaAfter_clear]
          · simp only [feriwalaAdd, htry, ← hclear.2, Client.release]
  | ret r c1 =>
    right
    rw [htry] at hkeep
    simp only [Outcome.sat] at hkeep
    have hclear : feriwalaTry env.clear req c = .ret r c1 := by
      rw [← sim_ok (feriwalaTry_sim env req) c (by simp [htry]), htry]
    refine ⟨?_, by simp [feriwalaAdd, htry, Client.release, hkeep]⟩
    intro r2 hr2
    simp only [feriwalaAdd, htry, Option.some.injEq] at hr2
    subst hr2
    cases hvalid : req.valid with
    | false =>
      obtain ⟨msg, hm⟩ := feriwalaTry_invalid env.clear req c hvalid
      rw [hm] at hclear
      simp only [Outcome.ret.injEq] at hclear
      rw [← hclear.1]
      simp
    | true =>
      rw [feriwalaTry_valid (noFault_clear env) req c hvalid] at hclear
      cases hvn : vendorNames c.view (param req.vendor_id) with
      | nil =>
        simp only [hvn, Outcome.ret.injEq] at hclear
        rw [← hclear.1]
        simp
      | cons vendor_name others =>
        cases hfu : firstUnrated c.view (param req.vendor_id) (req.scraps.getD []) with
        | some x =>
          simp only [hvn, hfu, Outcome.ret.injEq] at hclear
          rw [← hclear.1]
          simp
        | none => simp [hvn, hfu] at hclear

/-- Every invocation of the kabadiwala handler either commits, with the response
and the store spelled out, or answers otherwise and leaves the committed store
as it was. -/
theorem kabadiwalaAdd_cases (env : Env) (req : KabadiwalaReq) (c : Client) :
    (∃ vendor_name others,
        req.valid = true ∧
        vendorNames c.view (param req.vendor_id) = vendor_name :: others ∧
        firstUnrated c.view (param req.vendor_id) (req.scraps.getD []) = none ∧
        (kabadiwalaAdd env req c).1 =
          some ⟨200, .kabadiwalaAdded (newId env c)
            "Kabadiwala purchase recorded successfully"⟩ ∧
        (kabadiwalaAdd env req c).2.committed = kabadiwalaAfter env req c vendor_name ∧
        (kabadiwalaAdd env req c).2.tx = none) ∨
      ((∀ r, (kabadiwalaAdd env req c).1 = some r → r.status ≠ 200) ∧
        (kabadiwalaAdd env req c).2.committed = c.committed) := by
  have hkeep := kabadiwalaTry_committed env req c
  cases htry : kabadiwalaTry env req c with
  | thrown e c1 =>
    right
    rw [htry] at hkeep
    simp only [Outcome.sat] at hkeep
    simp only [kabadiwalaAdd, htry]
    cases h : env.fault c1.stmts with
    | some e2 => simp [queryROLLBACK, h, Client.release, hkeep]
    | none =>
      simp only [queryROLLBACK, h, Client.release]
      refine ⟨?_, hkeep⟩
      intro r hr
      simp only [Option.some.injEq] at hr
      rw [← hr]
      simp
  | ok r c1 =>
    have hclear : kabadiwalaTry env.clear req c = .ok r c1 := by
      rw [← sim_ok (kabadiwalaTry_sim env req) c (by simp [htry]), htry]
    cases hvalid : req.valid with
    | false =>
      obtain ⟨msg, hm⟩ := kabadiwalaTry_invalid env req c hvalid
      simp [htry] at hm
    | true =>
      rw [kabadiwalaTry_valid (noFault_clear env) req c hvalid] at hclear
      cases hvn : vendorNames c.view (param req.vendor_id) with
      | nil => simp [hvn] at hclear
      | cons vendor_name others =>
        cases hfu : firstUnrated c.view (param req.vendor_id) (req.scraps.getD []) with
        | some x => simp [hvn, hfu] at hclear
        | none =>
          left
          simp only [hvn, hfu, Outcome.ok.injEq] at hclear
          refine ⟨vendor_name, others, rfl, rfl, rfl, ?_, ?_, ?_⟩
          · simp only [kabadiwalaAdd, htry, ← hclear.1, newId_clear, kabadiwalaTotal_clear]
          · simp only [kabadiwalaAdd, htry, ← hclear.2, Client.release,
              kabadiwalaAfter_clear]
          · simp only [kabadiwalaAdd, htry, ← hclear.2, Client.release]
  | ret r c1 =>
    right
    rw [htry] at hkeep
    simp only [Outcome.sat] at hkeep
    have hclear : kabadiwalaTry env.clear req c = .ret r c1 := by
      rw [← sim_ok (kabadiwalaTry_sim env req) c (by simp [htry]), htry]
    refine ⟨?_, by simp [kabadiwalaAdd, htry, Client.release, hkeep]⟩
    intro r2 hr2
    simp only [kabadiwalaAdd, htry, Option.some.injEq] at hr2
    subst hr2
    cases hvalid : req.valid with
    | false =>
      obtain ⟨msg, hm⟩ := kabadiwalaTry_invalid env.clear req c hvalid
      rw [hm] at hclear
      simp only [Outcome.ret.injEq] at hclear
      rw [← hclear.1]
      simp
    | true =>
      rw [kabadiwalaTry_valid (noFault_clear env) req c hvalid] at hclear
      cases hvn : vendorNames c.view (param req.vendor_id) with
      | nil =>
        simp only [hvn, Outcome.ret.injEq] at hclear
        rw [← hclear.1]
        simp
      | cons vendor_name others =>
        cases hfu : firstUnrated c.view (param req.vendor_id) (req.scraps.getD []) with
        | some x =>
          simp only [hvn, hfu, Outcome.ret.injEq] at hclear
          rw [← hclear.1]
          simp
        | none => simp [hvn, hfu] at hclear

/-! ## Facts about the lookups -/

theorem firstUnrated_eq_none_iff (s : Store) (v : String) (l : List ScrapInput) :
    firstUnrated s v l = none ↔ ∀ x ∈ l, rateRows s v x.scrap_type_id ≠ [] := by
  induction l with
  | nil => simp [firstUnrated]
  | cons x rest ih =>
    cases h : rateRows s v x.scrap_type_id with
    | nil => simp [firstUnrated, h]
    | cons row rows => simp [firstUnrated, h, ih]

theorem firstUnrated_some_mem (s : Store) (v : String) (l : List ScrapInput)
    (y : ScrapInput) (h : firstUnrated s v l = some y) :
    y ∈ l ∧ rateRows s v y.scrap_type_id = [] := by
  induction l with
  | nil => simp [firstUnrated] at h
  | cons x rest ih =>
    cases hx : rateRows s v x.scrap_type_id with
    | nil =>
      simp only [firstUnrated, hx, Option.some.injEq] at h
      subst h
      exact ⟨List.mem_cons_self _ _, hx⟩
    | cons row rows =>
      simp only [firstUnrated, hx] at h
      exact ⟨List.mem_cons_of_mem _ (ih h).1, (ih h).2⟩

theorem rateRows_eq_nil (s : Store) (v t : String)
    (h : ∀ vr ∈ s.vendor_rates, ¬ (vr.vendor_id = v ∧ vr.scrap_type_id = t)) :
    rateRows s v t = [] := by
  have : s.vendor_rates.filter
      (fun vr => vr.vendor_id == v && vr.scrap_type_id == t) = [] := by
    rw [List.filter_eq_nil_iff]
    intro vr hvr
    simpa using h vr hvr
  simp [rateRows, this]

theorem vendorNames_ne_nil (s : Store) (vid : String)
    (h : ∃ v ∈ s.vendors, v.id = vid) : vendorNames s vid ≠ [] := by
  obtain ⟨v, hv, hid⟩ := h
  intro hnil
  have hmem : v.name ∈ vendorNames s vid := by
    simp only [vendorNames, List.mem_map, List.mem_filter]
    exact ⟨v, ⟨hv, by simp [hid]⟩, rfl⟩
  rw [hnil] at hmem
  simp at hmem



/-! ## The rows a purchase writes -/

theorem rateRows_mem (s : Store) (v t : String) (row : Int × String)
    (h : row ∈ rateRows s v t) :
    ∃ vr ∈ s.vendor_rates, ∃ st ∈ s.scrap_types,
      vr.vendor_id = v ∧ vr.scrap_type_id = t ∧ st.id = t ∧
        vr.vendor_rate = row.1 ∧ st.material_type = row.2 := by
  simp only [rateRows, List.mem_flatMap, List.mem_filter, List.mem_map,
    Bool.and_eq_true, beq_iff_eq] at h
  obtain ⟨vr, ⟨hvr, hv, ht⟩, st, ⟨hst, hid⟩, hrow⟩ := h
  refine ⟨vr, hvr, st, hst, hv, ht, by rw [hid, ht], ?_, ?_⟩
  · rw [← hrow]
  · rw [← hrow]

theorem feriwalaLines_spec (env : Env) (s : Store) (v fid : String)
    (l : List ScrapInput) :
    ∀ u, ∀ x ∈ feriwalaLines env s v fid u l,
      x.feriwala_id = fid ∧ x.amount = x.rate * x.weight ∧
        ∃ inp ∈ l, x.weight = inp.weight ∧
          (x.rate, x.material) ∈ rateRows s v inp.scrap_type_id := by
  induction l with
  | nil => intro u x hx; simp [feriwalaLines] at hx
  | cons y rest ih =>
    intro u x hx
    cases hrow : rateRows s v y.scrap_type_id with
    | nil => simp [feriwalaLines, hrow] at hx
    | cons row rows =>
      simp only [feriwalaLines, hrow, List.mem_cons] at hx
      rcases hx with hx | hx
      · subst hx
        exact ⟨rfl, rfl, y, List.mem_cons_self _ _, rfl, by simp [hrow]⟩
      · obtain ⟨h1, h2, inp, hinp, h3, h4⟩ := ih _ x hx
        exact ⟨h1, h2, inp, List.mem_cons_of_mem _ hinp, h3, h4⟩

theorem kabadiwalaLines_spec (env : Env) (s : Store) (v kid : String)
    (l : List ScrapInput) :
    ∀ u, ∀ x ∈ kabadiwalaLines env s v kid u l,
      x.kabadiwala_id = kid ∧ x.amount = x.rate * x.weight ∧
        ∃ inp ∈ l, x.weight = inp.weight ∧ x.scrap_type_id = inp.scrap_type_id ∧
          (x.rate, x.material) ∈ rateRows s v inp.scrap_type_id := by
  induction l with
  | nil => intro u x hx; simp [kabadiwalaLines] at hx
  | cons y rest ih =>
    intro u x hx
    cases hrow : rateRows s v y.scrap_type_id with
    | nil => simp [kabadiwalaLines, hrow] at hx
    | cons row rows =>
      simp only [kabadiwalaLines, hrow, List.mem_cons] at hx
      rcases hx with hx | hx
      · subst hx
        exact ⟨rfl, rfl, y, List.mem_cons_self _ _, rfl, rfl, by simp [hrow]⟩
      · obtain ⟨h1, h2, inp, hinp, h3, h4, h5⟩ := ih _ x hx
        exact ⟨h1, h2, inp, List.mem_cons_of_mem _ hinp, h3, h4, h5⟩

theorem feriwalaLines_total (env : Env) (s : Store) (v fid : String)
    (l : List ScrapInput) (h : firstUnrated s v l = none) :
    ∀ u, ((feriwalaLines env s v fid u l).map (fun x => x.amount)).sum =
      requestTotal s v l := by
  induction l with
  | nil => intro u; simp [feriwalaLines, requestTotal]
  | cons y rest ih =>
    intro u
    cases hrow : rateRows s v y.scrap_type_id with
    | nil => simp [firstUnrated, hrow] at h
    | cons row rows =>
      simp only [firstUnrated, hrow] at h
      have := ih h (u + 1)
      simp only [requestTotal] at this
      simp [feriwalaLines, requestTotal, hrow, this]

theorem kabadiwalaLines_total (env : Env) (s : Store) (v kid : String)
    (l : List ScrapInput) (h : firstUnrated s v l = none) :
    ∀ u, ((kabadiwalaLines env s v kid u l).map (fun x => x.amount)).sum =
      requestTotal s v l := by
  induction l with
  | nil => intro u; simp [kabadiwalaLines, requestTotal]
  | cons y rest ih =>
    intro u
    cases hrow : rateRows s v y.scrap_type_id with
    | nil => simp [firstUnrated, hrow] at h
    | cons row rows =>
      simp only [firstUnrated, hrow] at h
      have := ih h (u + 1)
      simp only [requestTotal] at this
      simp [kabadiwalaLines, requestTotal, hrow, this]



theorem feriwalaAfter_total (env : Env) (req : FeriwalaReq) (c : Client)
    (vendor_name : String) :
    ∀ h ∈ (feriwalaAfter env req c vendor_name).feriwala_records,
      h.id = newId env c → h.total_amount = feriwalaTotal env req c := by
  intro h hh hid
  simp only [feriwalaAfter, List.mem_map] at hh
  obtain ⟨r, _, hr⟩ := hh
  by_cases hrid : r.id = newId env c
  · simp only [beq_iff_eq, hrid, if_true] at hr
    rw [← hr]
  · simp only [beq_iff_eq, hrid, if_false] at hr
    rw [← hr] at hid
    exact absurd hid hrid

theorem feriwalaAfter_has_header (env : Env) (req : FeriwalaReq) (c : Client)
    (vendor_name : String) :
    ∃ h ∈ (feriwalaAfter env req c vendor_name).feriwala_records, h.id = newId env c := by
  refine ⟨{ id := newId env c, company_id := param req.company_id,
            godown_id := param req.godown_id, vendor_id := param req.vendor_id,
            date := env.current_date, total_amount := feriwalaTotal env req c,
            created_at := env.sql_now }, ?_, rfl⟩
  simp [feriwalaAfter]

theorem kabadiwalaAfter_total (env : Env) (req : KabadiwalaReq) (c : Client)
    (kabadiwala_name : String) :
    ∀ h ∈ (kabadiwalaAfter env req c kabadiwala_name).kabadiwala_records,
      h.id = newId env c →
        h.total_amount = kabadiwalaTotal env req c ∧
        h.payment_status =
          payment_status (kabadiwalaPaid req) (kabadiwalaTotal env req c) := by
  intro h hh hid
  simp only [kabadiwalaAfter, List.mem_map] at hh
  obtain ⟨z, ⟨r, _, hr⟩, hz⟩ := hh
  by_cases hrid : r.id = newId env c
  · simp only [beq_iff_eq, hrid, if_true] at hr
    subst hr
    simp only [beq_iff_eq, hrid, if_true] at hz
    rw [← hz]
    exact ⟨rfl, rfl⟩
  · simp only [beq_iff_eq, hrid, if_false] at hr
    subst hr
    simp only [beq_iff_eq, hrid, if_false] at hz
    rw [← hz] at hid
    exact absurd hid hrid

theorem kabadiwalaAfter_has_header (env : Env) (req : KabadiwalaReq) (c : Client)
    (kabadiwala_name : String) :
    ∃ h ∈ (kabadiwalaAfter env req c kabadiwala_name).kabadiwala_records,
      h.id = newId env c := by
  refine ⟨{ kabadiwalaHeader env req c kabadiwala_name with
            total_amount := kabadiwalaTotal env req c,
            payment_status :=
              payment_status (kabadiwalaPaid req) (kabadiwalaTotal env req c) }, ?_, rfl⟩
  simp [kabadiwalaAfter, kabadiwalaHeader]

theorem posted_nil (id : String) : posted [] id = 0 := rfl

theorem posted_singleton (e : AccountTransaction) (id : String) :
    posted [e] id = if e.account_id = id then e.amount else 0 := by
  by_cases h : e.account_id = id
  · simp [posted, h]
  · simp [posted, h]

theorem accounts_map_posted_nil (l : List Account) :
    l.map (fun a => { a with balance := a.balance - posted [] a.id }) = l := by
  simp [posted_nil]

theorem accounts_map_posted_singleton (l : List Account) (e : AccountTransaction) :
    l.map (fun a => { a with balance := a.balance - posted [e] a.id }) =
      l.map (fun a =>
        if a.id == e.account_id then { a with balance := a.balance - e.amount } else a) := by
  apply List.map_congr_left
  intro a _
  rw [posted_singleton]
  by_cases h : a.id = e.account_id
  · simp [h]
  · have h2 : ¬ e.account_id = a.id := fun h3 => h h3.symm
    simp [h, h2]

theorem view_of_tx_none (c : Client) (h : c.tx = none) : c.view = c.committed := by
  simp [Client.view, h]



/-! ## Claims -/

/-- C1. Feriwala add-purchase atomicity: on a request that passes validation, for
an existing vendor, in which some line references a (vendor, scrap type) pair with
no `vendor_rates` row, the committed store is left exactly as it was (no header, no
line, no ledger entry, no balance change), whatever the storage layer does; and
when no statement throws, the response is a 400 error and the transaction is
closed. -/
theorem feriwala_missing_rate_atomic (env : Env) (req : FeriwalaReq) (c : Client)
    (x : ScrapInput) (hvalid : req.valid = true)
    (hvendor : ∃ v ∈ c.view.vendors, v.id = param req.vendor_id)
    (hx : x ∈ req.scraps.getD [])
    (hrate : ∀ vr ∈ c.view.vendor_rates,
      ¬ (vr.vendor_id = param req.vendor_id ∧ vr.scrap_type_id = x.scrap_type_id)) :
    (feriwalaAdd env req c).2.committed = c.committed ∧
      (NoFault env →
        (∃ msg, (feriwalaAdd env req c).1 = some ⟨400, .error msg⟩) ∧
          (feriwalaAdd env req c).2.tx = none) := by
  have hun : firstUnrated c.view (param req.vendor_id) (req.scraps.getD []) ≠ none := by
    intro h
    exact (firstUnrated_eq_none_iff _ _ _).1 h x hx (rateRows_eq_nil _ _ _ hrate)
  constructor
  · rcases feriwalaAdd_cases env req c with ⟨_, _, _, _, h, _⟩ | ⟨_, h⟩
    · exact absurd h hun
    · exact h
  · intro hf
    have hv := vendorNames_ne_nil _ _ hvendor
    simp only [feriwalaAdd, feriwalaTry_valid hf req c hvalid]
    cases hvn : vendorNames c.view (param req.vendor_id) with
    | nil => exact absurd hvn hv
    | cons vendor_name others =>
      cases hfu : firstUnrated c.view (param req.vendor_id) (req.scraps.getD []) with
      | none => exact absurd hfu hun
      | some y => exact ⟨⟨_, rfl⟩, rfl⟩

/-- Witness for C1: a two-line request whose second line (copper) has no rate. -/
theorem feriwala_missing_rate_atomic_witness :
    (feriwalaAdd demoEnv (demoFeriwala [⟨"M", 5⟩, ⟨"M2", 1⟩]) demoClient).2.committed =
        demoStore ∧
      (∃ msg, (feriwalaAdd demoEnv (demoFeriwala [⟨"M", 5⟩, ⟨"M2", 1⟩]) demoClient).1 =
        some ⟨400, .error msg⟩) ∧
      (feriwalaAdd demoEnv (demoFeriwala [⟨"M", 5⟩, ⟨"M2", 1⟩]) demoClient).2.tx = none :=
  have h := feriwala_missing_rate_atomic demoEnv (demoFeriwala [⟨"M", 5⟩, ⟨"M2", 1⟩])
    demoClient ⟨"M2", 1⟩ (by decide) (by decide) (by decide) (by decide)
  ⟨h.1, h.2 (fun _ => rfl)⟩

/-- C2, at a failing input.  A kabadiwala request whose second line has no rate is
answered with the 400 rate error, but no ROLLBACK is issued: the connection is
released with the transaction still open, holding the header and the line priced
before the offending one; the next purchase committed on that connection (here a
feriwala purchase) makes both rows of the rejected request permanent. -/
theorem kabadiwala_missing_rate_leaves_rows_pending :
    (kabadiwalaAdd demoEnv (demoKabadiwala [⟨"M", 5⟩, ⟨"M2", 1⟩] none (some "A"))
        demoClient).1 =
      some ⟨400, .error "Vendor does not have rate for scrap_type_id M2"⟩ ∧
    (kabadiwalaAdd demoEnv (demoKabadiwala [⟨"M", 5⟩, ⟨"M2", 1⟩] none (some "A"))
        demoClient).2.trace = [Ev.BEGIN, Ev.release] ∧
    ((kabadiwalaAdd demoEnv (demoKabadiwala [⟨"M", 5⟩, ⟨"M2", 1⟩] none (some "A"))
        demoClient).2.tx.map (fun w =>
          (w.kabadiwala_records.map (fun r => (r.id, r.total_amount)),
            w.kabadiwala_scraps.map (fun r => (r.kabadiwala_id, r.material, r.amount))))) =
      some ([("uuid-0", 0)], [("uuid-0", "Iron", 50)]) ∧
    ((feriwalaAdd demoEnv (demoFeriwala [⟨"M", 5⟩])
        (kabadiwalaAdd demoEnv (demoKabadiwala [⟨"M", 5⟩, ⟨"M2", 1⟩] none (some "A"))
          demoClient).2).2.committed.kabadiwala_records.map
        (fun r => (r.id, r.total_amount))) = [("uuid-0", 0)] ∧
    ((feriwalaAdd demoEnv (demoFeriwala [⟨"M", 5⟩])
        (kabadiwalaAdd demoEnv (demoKabadiwala [⟨"M", 5⟩, ⟨"M2", 1⟩] none (some "A"))
          demoClient).2).2.committed.kabadiwala_scraps.map
        (fun r => (r.kabadiwala_id, r.material, r.amount))) = [("uuid-0", "Iron", 50)] := by
  decide

/-- C3 as stated fails: with nothing paid on a total of 0 the status is `paid`, not
`pending`, and a negative amount paid gives `pending` although it is not 0. -/
theorem payment_status_pending_counterexample :
    ¬ (payment_status 0 0 = "pending" ↔ (0 : Int) = 0) ∧
      ¬ (payment_status (-5) 100 = "pending" ↔ (-5 : Int) = 0) := by
  decide

/-- C3, amended.  The status is `paid` iff paid ≥ total, `partial` iff
0 < paid < total, and `pending` iff paid ≤ 0 and paid < total; for a positive total
and a non-negative amount paid, it is `pending` iff paid = 0. -/
theorem payment_status_spec (paid total : Int) :
    (payment_status paid total = "paid" ↔ paid ≥ total) ∧
      (payment_status paid total = "partial" ↔ 0 < paid ∧ paid < total) ∧
      (payment_status paid total = "pending" ↔ paid ≤ 0 ∧ paid < total) ∧
      (0 < total → 0 ≤ paid → (payment_status paid total = "pending" ↔ paid = 0)) := by
  unfold payment_status
  refine ⟨?_, ?_, ?_, ?_⟩
  · split_ifs <;> simp <;> omega
  · split_ifs <;> simp <;> omega
  · split_ifs <;> simp <;> omega
  · intro h1 h2
    split_ifs <;> simp <;> omega

/-- Witness for C3 amended: nothing paid on a total of 100 is `pending`. -/
theorem payment_status_spec_witness :
    (payment_status 0 100 = "pending" ↔ (0 : Int) = 0) :=
  (payment_status_spec 0 100).2.2.2 (by decide) (by decide)

/-- C4. The four classifications of the specification: 0 of 100 is pending, 40 of
100 is partial, 100 of 100 is paid, 150 of 100 is paid. -/
theorem payment_status_examples :
    payment_status 0 100 = "pending" ∧ payment_status 40 100 = "partial" ∧
      payment_status 100 100 = "paid" ∧ payment_status 150 100 = "paid" := by
  decide



/-- C7 as stated fails: a funding account id that no row of `accounts` carries is
accepted by both handlers.  The purchase commits and the ledger entry is created
against that id (50 for the feriwala purchase, the 30 paid for the kabadiwala one),
while no balance is decreased: the accounts are exactly as before. -/
theorem ledger_entry_without_balance_decrease :
    ((feriwalaAdd demoEnv { demoFeriwala [⟨"M", 5⟩] with account_id := some "Z" }
        demoClient).1 =
        some ⟨200, .feriwalaAdded "uuid-0" 50 "Ram"
          "Feriwala purchase added successfully (Auto-rate applied)"⟩ ∧
      ((feriwalaAdd demoEnv { demoFeriwala [⟨"M", 5⟩] with account_id := some "Z" }
        demoClient).2.committed.account_transactions.map
          (fun e => (e.account_id, e.amount))) = [("Z", 50)] ∧
      (feriwalaAdd demoEnv { demoFeriwala [⟨"M", 5⟩] with account_id := some "Z" }
        demoClient).2.committed.accounts = [⟨"A", 1000⟩]) ∧
    ((kabadiwalaAdd demoEnv (demoKabadiwala [⟨"M", 5⟩] (some 30) (some "Z"))
        demoClient).1 =
        some ⟨200, .kabadiwalaAdded "uuid-0" "Kabadiwala purchase recorded successfully"⟩ ∧
      ((kabadiwalaAdd demoEnv (demoKabadiwala [⟨"M", 5⟩] (some 30) (some "Z"))
        demoClient).2.committed.account_transactions.map
          (fun e => (e.account_id, e.amount))) = [("Z", 30)] ∧
      (kabadiwalaAdd demoEnv (demoKabadiwala [⟨"M", 5⟩] (some 30) (some "Z"))
        demoClient).2.committed.accounts = [⟨"A", 1000⟩]) := by
  decide

/-- C7, amended.  For every invocation of the feriwala or the kabadiwala
add-purchase on a connection with no transaction open, whatever the storage layer
does, the ledger afterwards is the ledger before followed by at most one new entry,
posted against the funding account id of the request, and the balance of every
account row is its balance before minus the sum of the amounts of the new entries
posted against its id.  So each new entry comes with a decrease, by exactly its
amount, of the balance of every account row that carries the entry's account id;
when no account row carries it, the entry is created all the same and the accounts
are as before; and the balance of an account row changes only by the amount of a
new entry posted against it. -/
theorem ledger_balance_pairing (env : Env) (c : Client) (htx : c.tx = none) :
    (∀ req : FeriwalaReq, ∃ entries,
      (feriwalaAdd env req c).2.committed.account_transactions =
        c.committed.account_transactions ++ entries ∧
      entries.length ≤ 1 ∧
      (∀ e ∈ entries, e.account_id = param req.account_id) ∧
      (feriwalaAdd env req c).2.committed.accounts =
        c.committed.accounts.map
          (fun a => { a with balance := a.balance - posted entries a.id }) ∧
      (∀ e ∈ entries, ∀ a ∈ c.committed.accounts, a.id = e.account_id →
        { a with balance := a.balance - e.amount } ∈
          (feriwalaAdd env req c).2.committed.accounts) ∧
      (∀ e ∈ entries, (∀ a ∈ c.committed.accounts, a.id ≠ e.account_id) →
        (feriwalaAdd env req c).2.committed.accounts = c.committed.accounts) ∧
      (∀ a ∈ c.committed.accounts, (∀ e ∈ entries, e.account_id ≠ a.id) →
        a ∈ (feriwalaAdd env req c).2.committed.accounts)) ∧
    (∀ req : KabadiwalaReq, ∃ entries,
      (kabadiwalaAdd env req c).2.committed.account_transactions =
        c.committed.account_transactions ++ entries ∧
      entries.length ≤ 1 ∧
      (∀ e ∈ entries, e.account_id = param req.account_id) ∧
      (kabadiwalaAdd env req c).2.committed.accounts =
        c.committed.accounts.map
          (fun a => { a with balance := a.balance - posted entries a.id }) ∧
      (∀ e ∈ entries, ∀ a ∈ c.committed.accounts, a.id = e.account_id →
        { a with balance := a.balance - e.amount } ∈
          (kabadiwalaAdd env req c).2.committed.accounts) ∧
      (∀ e ∈ entries, (∀ a ∈ c.committed.accounts, a.id ≠ e.account_id) →
        (kabadiwalaAdd env req c).2.committed.accounts = c.committed.accounts) ∧
      (∀ a ∈ c.committed.accounts, (∀ e ∈ entries, e.account_id ≠ a.id) →
        a ∈ (kabadiwalaAdd env req c).2.committed.accounts)) := by
  have hview := view_of_tx_none c htx
  have key : ∀ (after : Store) (entries : List AccountTransaction),
      entries.length ≤ 1 →
      after.accounts = c.committed.accounts.map
        (fun a => { a with balance := a.balance - posted entries a.id }) →
      (∀ e ∈ entries, ∀ a ∈ c.committed.accounts, a.id = e.account_id →
        { a with balance := a.balance - e.amount } ∈ after.accounts) ∧
      (∀ e ∈ entries, (∀ a ∈ c.committed.accounts, a.id ≠ e.account_id) →
        after.accounts = c.committed.accounts) ∧
      (∀ a ∈ c.committed.accounts, (∀ e ∈ entries, e.account_id ≠ a.id) →
        a ∈ after.accounts) := by
    intro after entries hlen hacc
    refine ⟨?_, ?_, ?_⟩
    · intro e he a ha hid
      have hent : entries = [e] := by
        cases entries with
        | nil => simp at he
        | cons x rest =>
          cases rest with
          | nil =>
            simp only [List.mem_singleton] at he
            rw [he]
          | cons y rest2 => simp at hlen
      rw [hacc, List.mem_map]
      refine ⟨a, ha, ?_⟩
      rw [hent, posted_singleton]
      simp [hid]
    · intro e he hnone
      have hent : entries = [e] := by
        cases entries with
        | nil => simp at he
        | cons x rest =>
          cases rest with
          | nil =>
            simp only [List.mem_singleton] at he
            rw [he]
          | cons y rest2 => simp at hlen
      rw [hacc, hent]
      conv_rhs => rw [← List.map_id c.committed.accounts]
      apply List.map_congr_left
      intro a ha
      rw [posted_singleton]
      have hne : e.account_id ≠ a.id := fun h => hnone a ha h.symm
      simp [hne]
    · intro a ha hno
      rw [hacc, List.mem_map]
      refine ⟨a, ha, ?_⟩
      have hz : posted entries a.id = 0 := by
        have hf : entries.filter (fun e => e.account_id == a.id) = [] := by
          rw [List.filter_eq_nil_iff]
          intro e he
          simpa using hno e he
        simp [posted, hf]
      simp [hz]
  constructor
  · intro req
    rcases feriwalaAdd_cases env req c with ⟨vn, others, _, _, _, _, hc, _⟩ | ⟨_, h⟩
    · have hacc : (feriwalaAdd env req c).2.committed.accounts =
          c.committed.accounts.map (fun a =>
            { a with balance := a.balance - posted [feriwalaEntry env req c vn] a.id }) := by
        rw [hc, accounts_map_posted_singleton, ← hview]; rfl
      obtain ⟨k1, k2, k3⟩ := key _ _ (by simp) hacc
      refine ⟨[feriwalaEntry env req c vn], ?_, by simp, ?_, hacc, k1, k2, k3⟩
      · rw [hc, ← hview]; rfl
      · intro e he
        simp only [List.mem_singleton] at he
        rw [he]; rfl
    · have hacc : (feriwalaAdd env req c).2.committed.accounts =
          c.committed.accounts.map (fun a =>
            { a with balance := a.balance - posted [] a.id }) := by
        rw [h, accounts_map_posted_nil]
      exact ⟨[], by simp [h], by simp, by simp, hacc, by simp, by simp,
        fun a ha _ => by rw [h]; exact ha⟩
  · intro req
    rcases kabadiwalaAdd_cases env req c with ⟨vn, others, _, _, _, _, hc, _⟩ | ⟨_, h⟩
    · by_cases hp : kabadiwalaPosts req = true
      · have hacc : (kabadiwalaAdd env req c).2.committed.accounts =
            c.committed.accounts.map (fun a =>
              { a with balance :=
                  a.balance - posted [kabadiwalaEntry env req c vn] a.id }) := by
          rw [hc, accounts_map_posted_singleton, ← hview]
          simp [kabadiwalaAfter, hp, kabadiwalaEntry]
        obtain ⟨k1, k2, k3⟩ := key _ _ (by simp) hacc
        refine ⟨[kabadiwalaEntry env req c vn], ?_, by simp, ?_, hacc, k1, k2, k3⟩
        · rw [hc, ← hview]; simp [kabadiwalaAfter, hp]
        · intro e he
          simp only [List.mem_singleton] at he
          rw [he]; rfl
      · have hacc : (kabadiwalaAdd env req c).2.committed.accounts =
            c.committed.accounts.map (fun a =>
              { a with balance := a.balance - posted [] a.id }) := by
          rw [hc, accounts_map_posted_nil, ← hview]; simp [kabadiwalaAfter, hp]
        obtain ⟨_, _, k3⟩ := key _ [] (by simp) hacc
        refine ⟨[], ?_, by simp, by simp, hacc, by simp, by simp, k3⟩
        rw [hc, ← hview]; simp [kabadiwalaAfter, hp]
    · have hacc : (kabadiwalaAdd env req c).2.committed.accounts =
          c.committed.accounts.map (fun a =>
            { a with balance := a.balance - posted [] a.id }) := by
        rw [h, accounts_map_posted_nil]
      exact ⟨[], by simp [h], by simp, by simp, hacc, by simp, by simp,
        fun a ha _ => by rw [h]; exact ha⟩

/-- Witness for C7 amended: a feriwala purchase of 50 and a kabadiwala purchase
paid 30 from account A, whose balance goes from 1000 to 950 and to 970; and a
kabadiwala purchase paid 30 against the id Z, which no account row carries: the
entry is created and the accounts are as before. -/
theorem ledger_balance_pairing_witness :
    (∃ entries,
      (feriwalaAdd demoEnv (demoFeriwala [⟨"M", 5⟩]) demoClient).2.committed.account_transactions =
        demoClient.committed.account_transactions ++ entries ∧
      entries.length ≤ 1 ∧
      (∀ e ∈ entries, e.account_id = param (demoFeriwala [⟨"M", 5⟩]).account_id) ∧
      (feriwalaAdd demoEnv (demoFeriwala [⟨"M", 5⟩]) demoClient).2.committed.accounts =
        demoClient.committed.accounts.map
          (fun a => { a with balance := a.balance - posted entries a.id }) ∧
      (∀ e ∈ entries, ∀ a ∈ demoClient.committed.accounts, a.id = e.account_id →
        { a with balance := a.balance - e.amount } ∈
          (feriwalaAdd demoEnv (demoFeriwala [⟨"M", 5⟩]) demoClient).2.committed.accounts) ∧
      (∀ e ∈ entries, (∀ a ∈ demoClient.committed.accounts, a.id ≠ e.account_id) →
        (feriwalaAdd demoEnv (demoFeriwala [⟨"M", 5⟩]) demoClient).2.committed.accounts =
          demoClient.committed.accounts) ∧
      (∀ a ∈ demoClient.committed.accounts, (∀ e ∈ entries, e.account_id ≠ a.id) →
        a ∈ (feriwalaAdd demoEnv (demoFeriwala [⟨"M", 5⟩]) demoClient).2.committed.accounts)) ∧
    (feriwalaAdd demoEnv (demoFeriwala [⟨"M", 5⟩]) demoClient).2.committed.accounts =
      [⟨"A", 950⟩] ∧
    (kabadiwalaAdd demoEnv (demoKabadiwala [⟨"M", 5⟩] (some 30) (some "A"))
      demoClient).2.committed.accounts = [⟨"A", 970⟩] ∧
    ((kabadiwalaAdd demoEnv (demoKabadiwala [⟨"M", 5⟩] (some 30) (some "Z"))
      demoClient).2.committed.account_transactions.map
        (fun e => (e.account_id, e.amount))) = [("Z", 30)] ∧
    (kabadiwalaAdd demoEnv (demoKabadiwala [⟨"M", 5⟩] (some 30) (some "Z"))
      demoClient).2.committed.accounts = demoClient.committed.accounts :=
  ⟨(ledger_balance_pairing demoEnv demoClient rfl).1 (demoFeriwala [⟨"M", 5⟩]),
    by decide, by decide, by decide, by decide⟩

/-- C8. Ledger amount: a feriwala add-purchase that commits adds exactly one ledger
entry, whose amount is the `total_amount` of the new header (the header exists, and
the response reports the same total); a kabadiwala add-purchase that commits adds
at most one ledger entry, whose amount is the amount paid with the request.  The
posted amount is never more than that. -/
theorem ledger_amount (env : Env) (c : Client) :
    (∀ (req : FeriwalaReq) (id : String) (total : Int) (vendor message : String),
      (feriwalaAdd env req c).1 = some ⟨200, .feriwalaAdded id total vendor message⟩ →
      ∃ e, (feriwalaAdd env req c).2.committed.account_transactions =
          c.view.account_transactions ++ [e] ∧
        e.amount = total ∧
        (∃ h ∈ (feriwalaAdd env req c).2.committed.feriwala_records, h.id = id) ∧
        (∀ h ∈ (feriwalaAdd env req c).2.committed.feriwala_records, h.id = id →
          e.amount = h.total_amount ∧ e.amount ≤ h.total_amount)) ∧
    (∀ (req : KabadiwalaReq) (r : Response),
      (kabadiwalaAdd env req c).1 = some r → r.status = 200 →
      ∃ entries, (kabadiwalaAdd env req c).2.committed.account_transactions =
          c.view.account_transactions ++ entries ∧
        entries.length ≤ 1 ∧
        ∀ e ∈ entries, e.amount = kabadiwalaPaid req ∧ e.amount ≤ kabadiwalaPaid req) := by
  constructor
  · intro req id total vendor message hresp
    rcases feriwalaAdd_cases env req c with ⟨vn, others, _, _, _, hr, hc, _⟩ | ⟨hno, _⟩
    · rw [hr] at hresp
      simp only [Option.some.injEq, Response.mk.injEq, Body.feriwalaAdded.injEq,
        true_and] at hresp
      obtain ⟨hid, htot, _, _⟩ := hresp
      subst hid
      refine ⟨feriwalaEntry env req c vn, by rw [hc]; rfl, htot, ?_, ?_⟩
      · rw [hc]; exact feriwalaAfter_has_header env req c vn
      · intro h hh hid
        rw [hc] at hh
        have := feriwalaAfter_total env req c vn h hh hid
        exact ⟨this.symm, le_of_eq this.symm⟩
    · exact absurd rfl (hno _ hresp)
  · intro req r hresp h200
    rcases kabadiwalaAdd_cases env req c with ⟨vn, others, _, _, _, _, hc, _⟩ | ⟨hno, _⟩
    · by_cases hp : kabadiwalaPosts req = true
      · refine ⟨[kabadiwalaEntry env req c vn], ?_, by simp, ?_⟩
        · rw [hc]; simp [kabadiwalaAfter, hp]
        · intro e he
          simp only [List.mem_singleton] at he
          rw [he]
          exact ⟨rfl, le_refl _⟩
      · refine ⟨[], ?_, by simp, by simp⟩
        rw [hc]; simp [kabadiwalaAfter, hp]
    · exact absurd h200 (hno r hresp)

/-- Witness for C8: a feriwala purchase of 50 posts 50, and a kabadiwala purchase
of 50 paid 150 posts 150. -/
theorem ledger_amount_witness :
    (∃ e, (feriwalaAdd demoEnv (demoFeriwala [⟨"M", 5⟩]) demoClient).2.committed.account_transactions =
        demoClient.view.account_transactions ++ [e] ∧
      e.amount = 50 ∧
      (∃ h ∈ (feriwalaAdd demoEnv (demoFeriwala [⟨"M", 5⟩]) demoClient).2.committed.feriwala_records,
        h.id = "uuid-0") ∧
      (∀ h ∈ (feriwalaAdd demoEnv (demoFeriwala [⟨"M", 5⟩]) demoClient).2.committed.feriwala_records,
        h.id = "uuid-0" → e.amount = h.total_amount ∧ e.amount ≤ h.total_amount)) ∧
    (∃ entries, (kabadiwalaAdd demoEnv (demoKabadiwala [⟨"M", 5⟩] (some 150) (some "A"))
          demoClient).2.committed.account_transactions =
        demoClient.view.account_transactions ++ entries ∧
      entries.length ≤ 1 ∧
      ∀ e ∈ entries, e.amount = 150 ∧ e.amount ≤ 150) ∧
    ((kabadiwalaAdd demoEnv (demoKabadiwala [⟨"M", 5⟩] (some 150) (some "A"))
      demoClient).2.committed.account_transactions.map (fun e => e.amount)) = [150] :=
  have h := ledger_amount demoEnv demoClient
  ⟨h.1 (demoFeriwala [⟨"M", 5⟩]) "uuid-0" 50 "Ram"
      "Feriwala purchase added successfully (Auto-rate applied)" (by decide),
    h.2 (demoKabadiwala [⟨"M", 5⟩] (some 150) (some "A")) _ rfl (by decide),
    by decide⟩



/-- C9 as stated fails: a feriwala purchase of one line of weight 0 commits with
total 0 and creates a ledger entry of amount 0. -/
theorem feriwala_posts_zero_amount :
    (feriwalaAdd demoEnv (demoFeriwala [⟨"M", 0⟩]) demoClient).1 =
        some ⟨200, .feriwalaAdded "uuid-0" 0 "Ram"
          "Feriwala purchase added successfully (Auto-rate applied)"⟩ ∧
      ((feriwalaAdd demoEnv (demoFeriwala [⟨"M", 0⟩]) demoClient).2.committed.account_transactions.map
        (fun e => (e.account_id, e.amount))) = [("A", 0)] := by
  decide

/-- C9, amended.  On a connection with no transaction open, every ledger entry a
kabadiwala add-purchase creates has amount > 0, and when the amount paid is 0 (or
less) it creates no ledger entry and leaves every balance as it was.  The feriwala
add-purchase has no such guard: whenever it commits it creates exactly one ledger
entry, of amount equal to the total whatever the total is, and subtracts that
amount from the balance of the funding account. -/
theorem ledger_posting_guard (env : Env) (c : Client) (htx : c.tx = none) :
    (∀ req : KabadiwalaReq, ∃ entries,
      (kabadiwalaAdd env req c).2.committed.account_transactions =
        c.committed.account_transactions ++ entries ∧
      (∀ e ∈ entries, e.amount > 0) ∧
      (kabadiwalaPaid req ≤ 0 →
        entries = [] ∧ (kabadiwalaAdd env req c).2.committed.accounts = c.committed.accounts)) ∧
    (∀ (req : FeriwalaReq) (id : String) (total : Int) (vendor message : String),
      (feriwalaAdd env req c).1 = some ⟨200, .feriwalaAdded id total vendor message⟩ →
      ∃ e, (feriwalaAdd env req c).2.committed.account_transactions =
          c.committed.account_transactions ++ [e] ∧
        e.amount = total ∧ e.account_id = param req.account_id ∧
        (feriwalaAdd env req c).2.committed.accounts =
          c.committed.accounts.map (fun a =>
            if a.id == param req.account_id then { a with balance := a.balance - total }
            else a)) := by
  have hview := view_of_tx_none c htx
  constructor
  · intro req
    rcases kabadiwalaAdd_cases env req c with ⟨vn, others, _, _, _, _, hc, _⟩ | ⟨_, h⟩
    · by_cases hp : kabadiwalaPosts req = true
      · have hpos : kabadiwalaPaid req > 0 := by
          simp only [kabadiwalaPosts, Bool.and_eq_true, decide_eq_true_eq] at hp
          exact hp.1
        refine ⟨[kabadiwalaEntry env req c vn], ?_, ?_, ?_⟩
        · rw [hc, ← hview]; simp [kabadiwalaAfter, hp]
        · intro e he
          simp only [List.mem_singleton] at he
          rw [he]
          exact hpos
        · intro hle
          omega
      · refine ⟨[], ?_, by simp, ?_⟩
        · rw [hc, ← hview]; simp [kabadiwalaAfter, hp]
        · intro _
          refine ⟨rfl, ?_⟩
          rw [hc, ← hview]; simp [kabadiwalaAfter, hp]
    · exact ⟨[], by simp [h], by simp, fun _ => ⟨rfl, by rw [h]⟩⟩
  · intro req id total vendor message hresp
    rcases feriwalaAdd_cases env req c with ⟨vn, others, _, _, _, hr, hc, _⟩ | ⟨hno, _⟩
    · rw [hr] at hresp
      simp only [Option.some.injEq, Response.mk.injEq, Body.feriwalaAdded.injEq,
        true_and] at hresp
      obtain ⟨_, htot, _, _⟩ := hresp
      refine ⟨feriwalaEntry env req c vn, ?_, htot, rfl, ?_⟩
      · rw [hc, ← hview]; rfl
      · rw [hc, ← hview, ← htot]; rfl
    · exact absurd rfl (hno _ hresp)

/-- Witness for C9 amended: a kabadiwala purchase without payment posts nothing,
and a feriwala purchase of total 0 posts one entry of amount 0. -/
theorem ledger_posting_guard_witness :
    (∃ entries,
      (kabadiwalaAdd demoEnv (demoKabadiwala [⟨"M", 5⟩] none (some "A"))
        demoClient).2.committed.account_transactions =
        demoClient.committed.account_transactions ++ entries ∧
      (∀ e ∈ entries, e.amount > 0) ∧
      (kabadiwalaPaid (demoKabadiwala [⟨"M", 5⟩] none (some "A")) ≤ 0 →
        entries = [] ∧
        (kabadiwalaAdd demoEnv (demoKabadiwala [⟨"M", 5⟩] none (some "A"))
          demoClient).2.committed.accounts = demoClient.committed.accounts)) ∧
    (∃ e, (feriwalaAdd demoEnv (demoFeriwala [⟨"M", 0⟩]) demoClient).2.committed.account_transactions =
        demoClient.committed.account_transactions ++ [e] ∧
      e.amount = 0 ∧ e.account_id = param (demoFeriwala [⟨"M", 0⟩]).account_id ∧
      (feriwalaAdd demoEnv (demoFeriwala [⟨"M", 0⟩]) demoClient).2.committed.accounts =
        demoClient.committed.accounts.map (fun a =>
          if a.id == param (demoFeriwala [⟨"M", 0⟩]).account_id then
            { a with balance := a.balance - 0 }
          else a)) :=
  have h := ledger_posting_guard demoEnv demoClient rfl
  ⟨h.1 (demoKabadiwala [⟨"M", 5⟩] none (some "A")),
    h.2 (demoFeriwala [⟨"M", 0⟩]) "uuid-0" 0 "Ram"
      "Feriwala purchase added successfully (Auto-rate applied)" (by decide)⟩



/-! ## The trace of control commands -/

theorem logs_pure {α : Type} (a : α) : Logs (pure a : M α) :=
  fun _ => ⟨[], by simp [pure_apply, Outcome.client], by simp⟩

theorem logs_ret {α : Type} (r : Response) : Logs (ret r : M α) :=
  fun _ => ⟨[], by simp [ret_apply, Outcome.client], by simp⟩

theorem logs_bind {α β : Type} {x : M α} {f : α → M β} (hx : Logs x)
    (hf : ∀ a, Logs (f a)) : Logs (x >>= f) := by
  intro c
  obtain ⟨evs, h1, h2⟩ := hx c
  rw [bind_apply]
  cases hxc : x c with
  | ok a c1 =>
    rw [hxc] at h1
    simp only [Outcome.client] at h1
    obtain ⟨evs2, h3, h4⟩ := hf a c1
    refine ⟨evs ++ evs2, ?_, ?_⟩
    · simp only [h3, h1, List.append_assoc]
    · simp [h2, h4]
  | ret r c1 =>
    rw [hxc] at h1
    exact ⟨evs, h1, h2⟩
  | thrown e c1 =>
    rw [hxc] at h1
    exact ⟨evs, h1, h2⟩

theorem logs_query {α : Type} (env : Env) (n : Nat) (f : String → Store → α × Store) :
    Logs (query env n f) := by
  intro c
  refine ⟨[], ?_, by simp⟩
  cases h : env.fault c.stmts with
  | some e => simp [query, h, Outcome.client]
  | none =>
    cases htx : c.tx <;> simp [query, h, Outcome.client, Client.write, htx]

theorem logs_BEGIN (env : Env) : Logs (queryBEGIN env) := by
  intro c
  refine ⟨[Ev.BEGIN], ?_, by simp⟩
  cases h : env.fault c.stmts <;> simp [queryBEGIN, h, Outcome.client]

theorem logs_COMMIT (env : Env) : Logs (queryCOMMIT env) := by
  intro c
  refine ⟨[Ev.COMMIT], ?_, by simp⟩
  cases h : env.fault c.stmts <;> simp [queryCOMMIT, h, Outcome.client]

theorem logs_ROLLBACK (env : Env) : Logs (queryROLLBACK env) := by
  intro c
  refine ⟨[Ev.ROLLBACK], ?_, by simp⟩
  cases h : env.fault c.stmts <;> simp [queryROLLBACK, h, Outcome.client]

theorem feriwalaScraps_logs (env : Env) (v fid : String) (l : List ScrapInput) :
    ∀ t, Logs (feriwalaScraps env v fid l t) := by
  induction l with
  | nil => intro t; exact logs_pure _
  | cons x rest ih =>
    intro t
    simp only [feriwalaScraps]
    refine logs_bind (logs_query _ _ _) (fun rows => ?_)
    cases rows with
    | nil => exact logs_bind (logs_ROLLBACK env) (fun _ => logs_ret _)
    | cons row rows => exact logs_bind (logs_query _ _ _) (fun _ => ih _)

theorem kabadiwalaScraps_logs (env : Env) (v kid : String) (l : List ScrapInput) :
    ∀ t, Logs (kabadiwalaScraps env v kid l t) := by
  induction l with
  | nil => intro t; exact logs_pure _
  | cons x rest ih =>
    intro t
    simp only [kabadiwalaScraps]
    refine logs_bind (logs_query _ _ _) (fun rows => ?_)
    cases rows with
    | nil => exact logs_ret _
    | cons row rows => exact logs_bind (logs_query _ _ _) (fun _ => ih _)

theorem feriwalaTry_logs (env : Env) (req : FeriwalaReq) : Logs (feriwalaTry env req) := by
  simp only [feriwalaTry]
  repeat' first
    | exact logs_query _ _ _
    | exact logs_BEGIN _
    | exact logs_COMMIT _
    | exact logs_pure _
    | exact logs_ret _
    | exact feriwalaScraps_logs _ _ _ _ _
    | refine logs_bind ?_ (fun _ => ?_)
    | split

theorem kabadiwalaTry_logs (env : Env) (req : KabadiwalaReq) :
    Logs (kabadiwalaTry env req) := by
  simp only [kabadiwalaTry]
  repeat' first
    | exact logs_query _ _ _
    | exact logs_BEGIN _
    | exact logs_COMMIT _
    | exact logs_pure _
    | exact logs_ret _
    | exact kabadiwalaScraps_logs _ _ _ _ _
    | refine logs_bind ?_ (fun _ => ?_)
    | split

/-- Every invocation of the feriwala handler releases the connection exactly once,
as its last action. -/
theorem feriwalaAdd_releases_once (env : Env) (req : FeriwalaReq) (c : Client) :
    ∃ evs, (feriwalaAdd env req c).2.trace = c.trace ++ evs ++ [Ev.release] ∧
      Ev.release ∉ evs := by
  obtain ⟨evs, h1, h2⟩ := feriwalaTry_logs env req c
  simp only [feriwalaAdd]
  cases htry : feriwalaTry env req c with
  | ok r c1 =>
    rw [htry] at h1
    exact ⟨evs, by simp [Client.release, ← h1, Outcome.client], h2⟩
  | ret r c1 =>
    rw [htry] at h1
    exact ⟨evs, by simp [Client.release, ← h1, Outcome.client], h2⟩
  | thrown e c1 =>
    rw [htry] at h1
    simp only [Outcome.client] at h1
    refine ⟨evs ++ [Ev.ROLLBACK], ?_, by simp [h2]⟩
    cases h : env.fault c1.stmts <;> simp [queryROLLBACK, h, Client.release, h1]

/-- Every invocation of the kabadiwala handler releases the connection exactly
once, as its last action. -/
theorem kabadiwalaAdd_releases_once (env : Env) (req : KabadiwalaReq) (c : Client) :
    ∃ evs, (kabadiwalaAdd env req c).2.trace = c.trace ++ evs ++ [Ev.release] ∧
      Ev.release ∉ evs := by
  obtain ⟨evs, h1, h2⟩ := kabadiwalaTry_logs env req c
  simp only [kabadiwalaAdd]
  cases htry : kabadiwalaTry env req c with
  | ok r c1 =>
    rw [htry] at h1
    exact ⟨evs, by simp [Client.release, ← h1, Outcome.client], h2⟩
  | ret r c1 =>
    rw [htry] at h1
    exact ⟨evs, by simp [Client.release, ← h1, Outcome.client], h2⟩
  | thrown e c1 =>
    rw [htry] at h1
    simp only [Outcome.client] at h1
    refine ⟨evs ++ [Ev.ROLLBACK], ?_, by simp [h2]⟩
    cases h : env.fault c1.stmts <;> simp [queryROLLBACK, h, Client.release, h1]



/-! ## Responses of runs that do not throw -/

/-- A response other than a 500 comes from a run of the feriwala `try` block that
does not throw, which is the run without faults. -/
theorem feriwalaAdd_not_thrown (env : Env) (req : FeriwalaReq) (c : Client)
    (r : Response) (h : (feriwalaAdd env req c).1 = some r) (h5 : r.status ≠ 500) :
    ∃ c1, (feriwalaTry env.clear req c = .ok r c1 ∨
        feriwalaTry env.clear req c = .ret r c1) ∧
      (feriwalaAdd env req c).2 = c1.release := by
  cases htry : feriwalaTry env req c with
  | thrown e c1 =>
    simp only [feriwalaAdd, htry] at h
    cases hfa : env.fault c1.stmts with
    | some e2 => simp [queryROLLBACK, hfa] at h
    | none =>
      simp only [queryROLLBACK, hfa, Option.some.injEq] at h
      rw [← h] at h5
      exact absurd rfl h5
  | ok r1 c1 =>
    have hclear : feriwalaTry env.clear req c = .ok r1 c1 := by
      rw [← sim_ok (feriwalaTry_sim env req) c (by simp [htry]), htry]
    simp only [feriwalaAdd, htry, Option.some.injEq] at h
    subst h
    exact ⟨c1, Or.inl hclear, by simp [feriwalaAdd, htry]⟩
  | ret r1 c1 =>
    have hclear : feriwalaTry env.clear req c = .ret r1 c1 := by
      rw [← sim_ok (feriwalaTry_sim env req) c (by simp [htry]), htry]
    simp only [feriwalaAdd, htry, Option.some.injEq] at h
    subst h
    exact ⟨c1, Or.inr hclear, by simp [feriwalaAdd, htry]⟩

/-- A response other than a 500 comes from a run of the kabadiwala `try` block
that does not throw, which is the run without faults. -/
theorem kabadiwalaAdd_not_thrown (env : Env) (req : KabadiwalaReq) (c : Client)
    (r : Response) (h : (kabadiwalaAdd env req c).1 = some r) (h5 : r.status ≠ 500) :
    ∃ c1, (kabadiwalaTry env.clear req c = .ok r c1 ∨
        kabadiwalaTry env.clear req c = .ret r c1) ∧
      (kabadiwalaAdd env req c).2 = c1.release := by
  cases htry : kabadiwalaTry env req c with
  | thrown e c1 =>
    simp only [kabadiwalaAdd, htry] at h
    cases hfa : env.fault c1.stmts with
    | some e2 => simp [queryROLLBACK, hfa] at h
    | none =>
      simp only [queryROLLBACK, hfa, Option.some.injEq] at h
      rw [← h] at h5
      exact absurd rfl h5
  | ok r1 c1 =>
    have hclear : kabadiwalaTry env.clear req c = .ok r1 c1 := by
      rw [← sim_ok (kabadiwalaTry_sim env req) c (by simp [htry]), htry]
    simp only [kabadiwalaAdd, htry, Option.some.injEq] at h
    subst h
    exact ⟨c1, Or.inl hclear, by simp [kabadiwalaAdd, htry]⟩
  | ret r1 c1 =>
    have hclear : kabadiwalaTry env.clear req c = .ret r1 c1 := by
      rw [← sim_ok (kabadiwalaTry_sim env req) c (by simp [htry]), htry]
    simp only [kabadiwalaAdd, htry, Option.some.injEq] at h
    subst h
    exact ⟨c1, Or.inr hclear, by simp [kabadiwalaAdd, htry]⟩

theorem vendorNames_eq_nil_iff (s : Store) (vid : String) :
    vendorNames s vid = [] ↔ ∀ v ∈ s.vendors, v.id ≠ vid := by
  simp [vendorNames, List.filter_eq_nil_iff]

theorem vendorNames_mem (s : Store) (vid name : String) (others : List String)
    (h : vendorNames s vid = name :: others) :
    ∃ v ∈ s.vendors, v.id = vid ∧ v.name = name := by
  have hmem : name ∈ vendorNames s vid := by rw [h]; exact List.mem_cons_self _ _
  simp only [vendorNames, List.mem_map, List.mem_filter, beq_iff_eq] at hmem
  obtain ⟨v, ⟨hv, hid⟩, hname⟩ := hmem
  exact ⟨v, hv, hid, hname⟩

/-! ## Lines before and after the first line without a rate -/

theorem firstUnrated_append (s : Store) (v : String) (pre post : List ScrapInput)
    (x : ScrapInput) (hpre : ∀ y ∈ pre, rateRows s v y.scrap_type_id ≠ [])
    (hx : rateRows s v x.scrap_type_id = []) :
    firstUnrated s v (pre ++ x :: post) = some x := by
  induction pre with
  | nil => simp [firstUnrated, hx]
  | cons y rest ih =>
    cases hy : rateRows s v y.scrap_type_id with
    | nil => exact absurd hy (hpre y (List.mem_cons_self _ _))
    | cons row rows =>
      simp only [List.cons_append, firstUnrated, hy]
      exact ih (fun z hz => hpre z (List.mem_cons_of_mem _ hz))

theorem feriwalaLines_length_append (env : Env) (s : Store) (v fid : String)
    (pre post : List ScrapInput) (x : ScrapInput)
    (hpre : ∀ y ∈ pre, rateRows s v y.scrap_type_id ≠ [])
    (hx : rateRows s v x.scrap_type_id = []) :
    ∀ u, (feriwalaLines env s v fid u (pre ++ x :: post)).length = pre.length := by
  induction pre with
  | nil => intro u; simp [feriwalaLines, hx]
  | cons y rest ih =>
    intro u
    cases hy : rateRows s v y.scrap_type_id with
    | nil => exact absurd hy (hpre y (List.mem_cons_self _ _))
    | cons row rows =>
      simp only [List.cons_append, feriwalaLines, hy, List.length_cons]
      exact congrArg (· + 1) (ih (fun z hz => hpre z (List.mem_cons_of_mem _ hz)) (u + 1))

theorem kabadiwalaLines_length_append (env : Env) (s : Store) (v kid : String)
    (pre post : List ScrapInput) (x : ScrapInput)
    (hpre : ∀ y ∈ pre, rateRows s v y.scrap_type_id ≠ [])
    (hx : rateRows s v x.scrap_type_id = []) :
    ∀ u, (kabadiwalaLines env s v kid u (pre ++ x :: post)).length = pre.length := by
  induction pre with
  | nil => intro u; simp [kabadiwalaLines, hx]
  | cons y rest ih =>
    intro u
    cases hy : rateRows s v y.scrap_type_id with
    | nil => exact absurd hy (hpre y (List.mem_cons_self _ _))
    | cons row rows =>
      simp only [List.cons_append, kabadiwalaLines, hy, List.length_cons]
      exact congrArg (· + 1) (ih (fun z hz => hpre z (List.mem_cons_of_mem _ hz)) (u + 1))

theorem feriwalaLines_forall₂ (env : Env) (s : Store) (v fid : String)
    (l : List ScrapInput) (h : firstUnrated s v l = none) :
    ∀ u, List.Forall₂
      (fun (x : FeriwalaScrap) inp =>
        x.feriwala_id = fid ∧ PricedFrom s v x.weight x.rate x.material inp)
      (feriwalaLines env s v fid u l) l := by
  induction l with
  | nil => intro u; simp [feriwalaLines]
  | cons y rest ih =>
    intro u
    cases hy : rateRows s v y.scrap_type_id with
    | nil => simp [firstUnrated, hy] at h
    | cons row rows =>
      simp only [firstUnrated, hy] at h
      simp only [feriwalaLines, hy]
      exact List.Forall₂.cons ⟨rfl, rfl, by simp [hy]⟩ (ih h _)

theorem kabadiwalaLines_forall₂ (env : Env) (s : Store) (v kid : String)
    (l : List ScrapInput) (h : firstUnrated s v l = none) :
    ∀ u, List.Forall₂
      (fun (x : KabadiwalaScrap) inp =>
        x.kabadiwala_id = kid ∧ x.scrap_type_id = inp.scrap_type_id ∧
          PricedFrom s v x.weight x.rate x.material inp)
      (kabadiwalaLines env s v kid u l) l := by
  induction l with
  | nil => intro u; simp [kabadiwalaLines]
  | cons y rest ih =>
    intro u
    cases hy : rateRows s v y.scrap_type_id with
    | nil => simp [firstUnrated, hy] at h
    | cons row rows =>
      simp only [firstUnrated, hy] at h
      simp only [kabadiwalaLines, hy]
      exact List.Forall₂.cons ⟨rfl, rfl, rfl, by simp [hy]⟩ (ih h _)



/-! ## Requests that pass validation begin a transaction -/

theorem logs_after_BEGIN {α : Type} (env : Env) {x : M α} (hx : Logs x) (c : Client) :
    ∃ evs, ((queryBEGIN env >>= fun _ => x) c).client.trace =
        c.trace ++ Ev.BEGIN :: evs ∧ Ev.release ∉ evs := by
  rw [bind_apply]
  cases h : env.fault c.stmts with
  | some e => exact ⟨[], by simp [queryBEGIN, h, Outcome.client], by simp⟩
  | none =>
    simp only [queryBEGIN, h]
    obtain ⟨evs, h1, h2⟩ := hx
      { c with tx := some c.view, stmts := c.stmts + 1, trace := c.trace ++ [Ev.BEGIN] }
    exact ⟨evs, by simp [h1], h2⟩

theorem feriwalaTry_begins (env : Env) (req : FeriwalaReq) (c : Client)
    (hvalid : req.valid = true) :
    ∃ evs, (feriwalaTry env req c).client.trace = c.trace ++ Ev.BEGIN :: evs ∧
      Ev.release ∉ evs := by
  simp only [FeriwalaReq.valid, Bool.and_eq_true] at hvalid
  obtain ⟨⟨⟨⟨hc, hg⟩, hv⟩, hlen⟩, ha⟩ := hvalid
  simp only [feriwalaTry]
  split
  · rename_i h
    simp [hc, hg, hv, hlen] at h
  · split
    · rename_i h
      simp [ha] at h
    · simp only [pure_bind_apply]
      refine logs_after_BEGIN env ?_ c
      repeat' first
        | exact logs_query _ _ _
        | exact logs_COMMIT _
        | exact logs_pure _
        | exact logs_ret _
        | exact feriwalaScraps_logs _ _ _ _ _
        | refine logs_bind ?_ (fun _ => ?_)
        | split

theorem kabadiwalaTry_begins (env : Env) (req : KabadiwalaReq) (c : Client)
    (hvalid : req.valid = true) :
    ∃ evs, (kabadiwalaTry env req c).client.trace = c.trace ++ Ev.BEGIN :: evs ∧
      Ev.release ∉ evs := by
  simp only [KabadiwalaReq.valid, Bool.and_eq_true] at hvalid
  obtain ⟨⟨⟨hc, hg⟩, hv⟩, hlen⟩ := hvalid
  simp only [kabadiwalaTry]
  split
  · rename_i h
    simp [hc, hg, hv] at h
  · split
    · rename_i h
      simp [hlen] at h
    · simp only [pure_bind_apply]
      refine logs_after_BEGIN env ?_ c
      repeat' first
        | exact logs_query _ _ _
        | exact logs_COMMIT _
        | exact logs_pure _
        | exact logs_ret _
        | exact kabadiwalaScraps_logs _ _ _ _ _
        | refine logs_bind ?_ (fun _ => ?_)
        | split

theorem kabadiwalaAdd_begins (env : Env) (req : KabadiwalaReq) (c : Client)
    (hvalid : req.valid = true) :
    ∃ evs, (kabadiwalaAdd env req c).2.trace = c.trace ++ Ev.BEGIN :: evs := by
  obtain ⟨evs, h1, _⟩ := kabadiwalaTry_begins env req c hvalid
  simp only [kabadiwalaAdd]
  cases htry : kabadiwalaTry env req c with
  | ok r c1 =>
    rw [htry] at h1
    simp only [Outcome.client] at h1
    exact ⟨evs ++ [Ev.release], by simp [Client.release, h1]⟩
  | ret r c1 =>
    rw [htry] at h1
    simp only [Outcome.client] at h1
    exact ⟨evs ++ [Ev.release], by simp [Client.release, h1]⟩
  | thrown e c1 =>
    rw [htry] at h1
    simp only [Outcome.client] at h1
    refine ⟨evs ++ [Ev.ROLLBACK, Ev.release], ?_⟩
    cases h : env.fault c1.stmts <;> simp [queryROLLBACK, h, Client.release, h1]

theorem feriwalaAdd_begins (env : Env) (req : FeriwalaReq) (c : Client)
    (hvalid : req.valid = true) :
    ∃ evs, (feriwalaAdd env req c).2.trace = c.trace ++ Ev.BEGIN :: evs := by
  obtain ⟨evs, h1, _⟩ := feriwalaTry_begins env req c hvalid
  simp only [feriwalaAdd]
  cases htry : feriwalaTry env req c with
  | ok r c1 =>
    rw [htry] at h1
    simp only [Outcome.client] at h1
    exact ⟨evs ++ [Ev.release], by simp [Client.release, h1]⟩
  | ret r c1 =>
    rw [htry] at h1
    simp only [Outcome.client] at h1
    exact ⟨evs ++ [Ev.release], by simp [Client.release, h1]⟩
  | thrown e c1 =>
    rw [htry] at h1
    simp only [Outcome.client] at h1
    refine ⟨evs ++ [Ev.ROLLBACK, Ev.release], ?_⟩
    cases h : env.fault c1.stmts <;> simp [queryROLLBACK, h, Client.release, h1]

theorem feriwalaAdd_invalid (env : Env) (req : FeriwalaReq) (c : Client)
    (h : req.valid = false) :
    ∃ msg, feriwalaAdd env req c = (some ⟨400, .error msg⟩, c.release) := by
  obtain ⟨msg, hm⟩ := feriwalaTry_invalid env req c h
  exact ⟨msg, by simp [feriwalaAdd, hm]⟩

theorem kabadiwalaAdd_invalid (env : Env) (req : KabadiwalaReq) (c : Client)
    (h : req.valid = false) :
    ∃ msg, kabadiwalaAdd env req c = (some ⟨400, .error msg⟩, c.release) := by
  obtain ⟨msg, hm⟩ := kabadiwalaTry_invalid env req c h
  exact ⟨msg, by simp [kabadiwalaAdd, hm]⟩



/-! ## Thrown errors come from the storage layer -/

theorem rethrows_pure {α : Type} (env : Env) (a : α) : Rethrows env (pure a : M α) := by
  intro c e c1 h
  simp [pure_apply] at h

theorem rethrows_ret {α : Type} (env : Env) (r : Response) :
    Rethrows env (ret r : M α) := by
  intro c e c1 h
  simp [ret_apply] at h

theorem rethrows_bind {α β : Type} {env : Env} {x : M α} {f : α → M β}
    (hx : Rethrows env x) (hf : ∀ a, Rethrows env (f a)) : Rethrows env (x >>= f) := by
  intro c e c1 h
  rw [bind_apply] at h
  cases hxc : x c with
  | ok a c2 =>
    rw [hxc] at h
    exact hf a c2 e c1 h
  | ret r c2 =>
    rw [hxc] at h
    simp at h
  | thrown e2 c2 =>
    rw [hxc] at h
    simp only [Outcome.thrown.injEq] at h
    rw [← h.1]
    exact hx c e2 c2 hxc

theorem rethrows_query {α : Type} (env : Env) (n : Nat)
    (f : String → Store → α × Store) : Rethrows env (query env n f) := by
  intro c e c1 h
  cases hfa : env.fault c.stmts with
  | none => simp [query, hfa] at h
  | some e2 =>
    simp only [query, hfa, Outcome.thrown.injEq] at h
    exact ⟨c.stmts, by rw [hfa, h.1]⟩

theorem rethrows_BEGIN (env : Env) : Rethrows env (queryBEGIN env) := by
  intro c e c1 h
  cases hfa : env.fault c.stmts with
  | none => simp [queryBEGIN, hfa] at h
  | some e2 =>
    simp only [queryBEGIN, hfa, Outcome.thrown.injEq] at h
    exact ⟨c.stmts, by rw [hfa, h.1]⟩

theorem rethrows_COMMIT (env : Env) : Rethrows env (queryCOMMIT env) := by
  intro c e c1 h
  cases hfa : env.fault c.stmts with
  | none => simp [queryCOMMIT, hfa] at h
  | some e2 =>
    simp only [queryCOMMIT, hfa, Outcome.thrown.injEq] at h
    exact ⟨c.stmts, by rw [hfa, h.1]⟩

theorem rethrows_ROLLBACK (env : Env) : Rethrows env (queryROLLBACK env) := by
  intro c e c1 h
  cases hfa : env.fault c.stmts with
  | none => simp [queryROLLBACK, hfa] at h
  | some e2 =>
    simp only [queryROLLBACK, hfa, Outcome.thrown.injEq] at h
    exact ⟨c.stmts, by rw [hfa, h.1]⟩

theorem feriwalaScraps_rethrows (env : Env) (v fid : String) (l : List ScrapInput) :
    ∀ t, Rethrows env (feriwalaScraps env v fid l t) := by
  induction l with
  | nil => intro t; exact rethrows_pure _ _
  | cons x rest ih =>
    intro t
    simp only [feriwalaScraps]
    refine rethrows_bind (rethrows_query _ _ _) (fun rows => ?_)
    cases rows with
    | nil => exact rethrows_bind (rethrows_ROLLBACK env) (fun _ => rethrows_ret _ _)
    | cons row rows => exact rethrows_bind (rethrows_query _ _ _) (fun _ => ih _)

theorem kabadiwalaScraps_rethrows (env : Env) (v kid : String) (l : List ScrapInput) :
    ∀ t, Rethrows env (kabadiwalaScraps env v kid l t) := by
  induction l with
  | nil => intro t; exact rethrows_pure _ _
  | cons x rest ih =>
    intro t
    simp only [kabadiwalaScraps]
    refine rethrows_bind (rethrows_query _ _ _) (fun rows => ?_)
    cases rows with
    | nil => exact rethrows_ret _ _
    | cons row rows => exact rethrows_bind (rethrows_query _ _ _) (fun _ => ih _)

theorem feriwalaTry_rethrows (env : Env) (req : FeriwalaReq) :
    Rethrows env (feriwalaTry env req) := by
  simp only [feriwalaTry]
  repeat' first
    | exact rethrows_query _ _ _
    | exact rethrows_BEGIN _
    | exact rethrows_COMMIT _
    | exact rethrows_pure _ _
    | exact rethrows_ret _ _
    | exact feriwalaScraps_rethrows _ _ _ _ _
    | refine rethrows_bind ?_ (fun _ => ?_)
    | split

theorem kabadiwalaTry_rethrows (env : Env) (req : KabadiwalaReq) :
    Rethrows env (kabadiwalaTry env req) := by
  simp only [kabadiwalaTry]
  repeat' first
    | exact rethrows_query _ _ _
    | exact rethrows_BEGIN _
    | exact rethrows_COMMIT _
    | exact rethrows_pure _ _
    | exact rethrows_ret _ _
    | exact kabadiwalaScraps_rethrows _ _ _ _ _
    | refine rethrows_bind ?_ (fun _ => ?_)
    | split



/-- C11. Unpaid deferred purchase: when no statement throws, a kabadiwala request
that passes validation, for an existing vendor, with a rate on file for every line
(the rate lookup returns a row), a total T > 0 at those rates and `payment_amount`
0 or omitted, with or without an account id, commits: the answer is the 200
success response, the transaction is closed, the header exists with `total_amount`
T and `payment_status` pending, and the payment records, the ledger and all account
balances are exactly as before. -/
theorem unpaid_purchase (env : Env) (req : KabadiwalaReq) (c : Client) (T : Int)
    (hf : NoFault env) (hvalid : req.valid = true)
    (hvendor : ∃ v ∈ c.view.vendors, v.id = param req.vendor_id)
    (hrates : ∀ x ∈ req.scraps.getD [],
      rateRows c.view (param req.vendor_id) x.scrap_type_id ≠ [])
    (hT : requestTotal c.view (param req.vendor_id) (req.scraps.getD []) = T)
    (hpos : 0 < T)
    (hpay : req.payment_amount = none ∨ req.payment_amount = some 0) :
    (kabadiwalaAdd env req c).1 =
        some ⟨200, .kabadiwalaAdded (newId env c)
          "Kabadiwala purchase recorded successfully"⟩ ∧
      (kabadiwalaAdd env req c).2.tx = none ∧
      (∃ h ∈ (kabadiwalaAdd env req c).2.committed.kabadiwala_records,
        h.id = newId env c) ∧
      (∀ h ∈ (kabadiwalaAdd env req c).2.committed.kabadiwala_records,
        h.id = newId env c → h.total_amount = T ∧ h.payment_status = "pending") ∧
      (kabadiwalaAdd env req c).2.committed.kabadiwala_payments =
        c.view.kabadiwala_payments ∧
      (kabadiwalaAdd env req c).2.committed.account_transactions =
        c.view.account_transactions ∧
      (kabadiwalaAdd env req c).2.committed.accounts = c.view.accounts := by
  have hv := vendorNames_ne_nil _ _ hvendor
  have hfu := (firstUnrated_eq_none_iff _ _ _).2 hrates
  have hpaid : kabadiwalaPaid req = 0 := by
    rcases hpay with h | h <;> simp [kabadiwalaPaid, h]
  have htotal : kabadiwalaTotal env req c = T := by
    rw [← hT]
    exact kabadiwalaLines_total env _ _ _ _ hfu _
  have hposts : kabadiwalaPosts req = false := by
    simp [kabadiwalaPosts, hpaid]
  have hstatus : payment_status 0 T = "pending" := by
    have h1 : ¬ (0 : Int) ≥ T := by omega
    simp [payment_status, h1]
  cases hvn : vendorNames c.view (param req.vendor_id) with
  | nil => exact absurd hvn hv
  | cons vn others =>
    have hrun : kabadiwalaAdd env req c =
        (some ⟨200, .kabadiwalaAdded (newId env c)
            "Kabadiwala purchase recorded successfully"⟩,
          Client.release ⟨kabadiwalaAfter env req c vn, none,
            c.stmts + 2 * (req.scraps.getD []).length + 6 +
              (if kabadiwalaPaid req > 0 then
                (if truthy req.account_id = true then 3 else 1) else 0),
            c.uuids + (req.scraps.getD []).length + 1 +
              (if kabadiwalaPaid req > 0 then
                (if truthy req.account_id = true then 2 else 1) else 0),
            c.trace ++ [Ev.BEGIN, Ev.COMMIT]⟩) := by
      simp only [kabadiwalaAdd, kabadiwalaTry_valid hf req c hvalid, hvn, hfu]
    refine ⟨by rw [hrun], by rw [hrun]; rfl, ?_, ?_, ?_, ?_, ?_⟩
    · rw [hrun]
      exact kabadiwalaAfter_has_header env req c vn
    · intro h hh hid
      rw [hrun] at hh
      have := kabadiwalaAfter_total env req c vn h hh hid
      rw [htotal, hpaid, hstatus] at this
      exact this
    · rw [hrun]
      simp [Client.release, kabadiwalaAfter, hpaid]
    · rw [hrun]
      simp [Client.release, kabadiwalaAfter, hposts]
    · rw [hrun]
      simp [Client.release, kabadiwalaAfter, hposts]

/-- Witness for C11 (Scenario D): 20 units at rate 10, total 200, nothing paid,
with account A supplied and with `payment_amount` 0 and no account. -/
theorem unpaid_purchase_witness :
    ((kabadiwalaAdd demoEnv (demoKabadiwala [⟨"M", 20⟩] none (some "A"))
        demoClient).2.committed.kabadiwala_records.map
          (fun h => (h.id, h.total_amount, h.payment_status))) =
        [("uuid-0", 200, "pending")] ∧
      (kabadiwalaAdd demoEnv (demoKabadiwala [⟨"M", 20⟩] none (some "A"))
        demoClient).2.committed.kabadiwala_payments = [] ∧
      (kabadiwalaAdd demoEnv (demoKabadiwala [⟨"M", 20⟩] none (some "A"))
        demoClient).2.committed.account_transactions = [] ∧
      (kabadiwalaAdd demoEnv (demoKabadiwala [⟨"M", 20⟩] none (some "A"))
        demoClient).2.committed.accounts = [⟨"A", 1000⟩] ∧
      (kabadiwalaAdd demoEnv (demoKabadiwala [⟨"M", 20⟩] (some 0) none)
        demoClient).2.committed.accounts = [⟨"A", 1000⟩] :=
  have h := unpaid_purchase demoEnv (demoKabadiwala [⟨"M", 20⟩] none (some "A"))
    demoClient 200 (fun _ => rfl) (by decide) (by decide) (by decide)
    (by decide) (by decide) (Or.inl rfl)
  have h2 := unpaid_purchase demoEnv (demoKabadiwala [⟨"M", 20⟩] (some 0) none)
    demoClient 200 (fun _ => rfl) (by decide) (by decide) (by decide)
    (by decide) (by decide) (Or.inr rfl)
  ⟨by decide, h.2.2.2.2.1, h.2.2.2.2.2.1, h.2.2.2.2.2.2, h2.2.2.2.2.2.2⟩

/-- C12. Row counts on success: a feriwala or a kabadiwala add-purchase that
commits adds one header row, carrying the new id, and exactly one line row per
input line, in input order, each owned by the new header, with the weight of its
input line and priced from the rate lookup for it (two input lines of the same
material give two rows).  A kabadiwala add adds one payment row, for the new header
and of exactly the amount paid, if the amount paid is > 0, and none otherwise; a
feriwala add leaves the payment records untouched. -/
theorem row_counts (env : Env) (c : Client) :
    (∀ (req : FeriwalaReq) (r : Response),
      (feriwalaAdd env req c).1 = some r → r.status = 200 →
      (feriwalaAdd env req c).2.committed.feriwala_records.length =
        c.view.feriwala_records.length + 1 ∧
      (∃ h ∈ (feriwalaAdd env req c).2.committed.feriwala_records,
        h.id = newId env c) ∧
      (∃ lines, (feriwalaAdd env req c).2.committed.feriwala_scraps =
          c.view.feriwala_scraps ++ lines ∧
        lines.length = (req.scraps.getD []).length ∧
        List.Forall₂
          (fun (x : FeriwalaScrap) inp =>
            x.feriwala_id = newId env c ∧
              PricedFrom c.view (param req.vendor_id) x.weight x.rate x.material inp)
          lines (req.scraps.getD [])) ∧
      (feriwalaAdd env req c).2.committed.kabadiwala_payments =
        c.view.kabadiwala_payments) ∧
    (∀ (req : KabadiwalaReq) (r : Response),
      (kabadiwalaAdd env req c).1 = some r → r.status = 200 →
      (kabadiwalaAdd env req c).2.committed.kabadiwala_records.length =
        c.view.kabadiwala_records.length + 1 ∧
      (∃ h ∈ (kabadiwalaAdd env req c).2.committed.kabadiwala_records,
        h.id = newId env c) ∧
      (∃ lines, (kabadiwalaAdd env req c).2.committed.kabadiwala_scraps =
          c.view.kabadiwala_scraps ++ lines ∧
        lines.length = (req.scraps.getD []).length ∧
        List.Forall₂
          (fun (x : KabadiwalaScrap) inp =>
            x.kabadiwala_id = newId env c ∧ x.scrap_type_id = inp.scrap_type_id ∧
              PricedFrom c.view (param req.vendor_id) x.weight x.rate x.material inp)
          lines (req.scraps.getD [])) ∧
      (∃ payments, (kabadiwalaAdd env req c).2.committed.kabadiwala_payments =
          c.view.kabadiwala_payments ++ payments ∧
        payments.length ≤ 1 ∧
        (payments ≠ [] ↔ kabadiwalaPaid req > 0) ∧
        ∀ p ∈ payments, p.amount = kabadiwalaPaid req ∧
          p.kabadiwala_id = newId env c)) := by
  constructor
  · intro req r hresp h200
    rcases feriwalaAdd_cases env req c with ⟨vn, others, _, _, hfu, _, hc, _⟩ | ⟨hno, _⟩
    · have hall := feriwalaLines_forall₂ env c.view (param req.vendor_id) (newId env c)
        (req.scraps.getD []) hfu (c.uuids + 1)
      refine ⟨?_, ?_, ⟨feriwalaNewLines env req c, ?_, ?_, hall⟩, ?_⟩
      · rw [hc]; simp [feriwalaAfter]
      · rw [hc]; exact feriwalaAfter_has_header env req c vn
      · rw [hc]; rfl
      · exact hall.length_eq
      · rw [hc]; rfl
    · exact absurd h200 (hno r hresp)
  · intro req r hresp h200
    rcases kabadiwalaAdd_cases env req c with ⟨vn, others, _, _, hfu, _, hc, _⟩ | ⟨hno, _⟩
    · have hall := kabadiwalaLines_forall₂ env c.view (param req.vendor_id)
        (newId env c) (req.scraps.getD []) hfu (c.uuids + 1)
      refine ⟨?_, ?_, ⟨kabadiwalaNewLines env req c, ?_, ?_, hall⟩, ?_⟩
      · rw [hc]; simp [kabadiwalaAfter]
      · rw [hc]; exact kabadiwalaAfter_has_header env req c vn
      · rw [hc]; rfl
      · exact hall.length_eq
      · by_cases hp : kabadiwalaPaid req > 0
        · refine ⟨[kabadiwalaPaymentRow env req c], ?_, by simp, by simp [hp], ?_⟩
          · rw [hc]; simp [kabadiwalaAfter, hp]
          · intro p hp2
            simp only [List.mem_singleton] at hp2
            rw [hp2]
            exact ⟨rfl, rfl⟩
        · refine ⟨[], ?_, by simp, by simp [hp], by simp⟩
          rw [hc]; simp [kabadiwalaAfter, hp]
    · exact absurd h200 (hno r hresp)

/-- Witness for C12: two input lines of the same material give two line rows, for
feriwala and for kabadiwala; the kabadiwala purchase paid 30 gets one payment row
of 30. -/
theorem row_counts_witness :
    ((feriwalaAdd demoEnv (demoFeriwala [⟨"M", 5⟩, ⟨"M", 5⟩]) demoClient).2.committed.feriwala_records.length =
        demoClient.view.feriwala_records.length + 1) ∧
      ((feriwalaAdd demoEnv (demoFeriwala [⟨"M", 5⟩, ⟨"M", 5⟩])
        demoClient).2.committed.feriwala_scraps.map
          (fun x => (x.feriwala_id, x.material, x.amount))) =
        [("uuid-0", "Iron", 50), ("uuid-0", "Iron", 50)] ∧
      (∃ payments,
        (kabadiwalaAdd demoEnv (demoKabadiwala [⟨"M", 5⟩, ⟨"M", 5⟩] (some 30) none)
          demoClient).2.committed.kabadiwala_payments =
          demoClient.view.kabadiwala_payments ++ payments ∧
        payments.length ≤ 1 ∧
        (payments ≠ [] ↔
          kabadiwalaPaid (demoKabadiwala [⟨"M", 5⟩, ⟨"M", 5⟩] (some 30) none) > 0) ∧
        ∀ p ∈ payments,
          p.amount = kabadiwalaPaid (demoKabadiwala [⟨"M", 5⟩, ⟨"M", 5⟩] (some 30) none) ∧
            p.kabadiwala_id = newId demoEnv demoClient) ∧
      ((kabadiwalaAdd demoEnv (demoKabadiwala [⟨"M", 5⟩, ⟨"M", 5⟩] (some 30) none)
        demoClient).2.committed.kabadiwala_payments.map
          (fun p => (p.kabadiwala_id, p.amount))) = [("uuid-0", 30)] :=
  have h := row_counts demoEnv demoClient
  ⟨(h.1 (demoFeriwala [⟨"M", 5⟩, ⟨"M", 5⟩]) _ rfl (by decide)).1,
    by decide,
    (h.2 (demoKabadiwala [⟨"M", 5⟩, ⟨"M", 5⟩] (some 30) none) _ rfl
      (by decide)).2.2.2,
    by decide⟩



/-- C13, at failing inputs.  A request for a vendor id that no vendor carries is
answered 404 after BEGIN, by the feriwala and by the kabadiwala handler, and the
connection is released with the transaction still open: neither COMMIT nor ROLLBACK
precedes the release.  The same holds for the kabadiwala handler on a line without
a rate. -/
theorem release_with_open_transaction :
    ((feriwalaAdd demoEnv { demoFeriwala [⟨"M", 5⟩] with vendor_id := some "X" }
        demoClient).1 = some ⟨404, .error "Vendor not found"⟩ ∧
      (feriwalaAdd demoEnv { demoFeriwala [⟨"M", 5⟩] with vendor_id := some "X" }
        demoClient).2.trace = [Ev.BEGIN, Ev.release] ∧
      (feriwalaAdd demoEnv { demoFeriwala [⟨"M", 5⟩] with vendor_id := some "X" }
        demoClient).2.tx = some demoStore) ∧
    ((kabadiwalaAdd demoEnv
        { demoKabadiwala [⟨"M", 5⟩] none none with vendor_id := some "X" }
        demoClient).1 = some ⟨404, .error "Vendor not found"⟩ ∧
      (kabadiwalaAdd demoEnv
        { demoKabadiwala [⟨"M", 5⟩] none none with vendor_id := some "X" }
        demoClient).2.trace = [Ev.BEGIN, Ev.release] ∧
      (kabadiwalaAdd demoEnv
        { demoKabadiwala [⟨"M", 5⟩] none none with vendor_id := some "X" }
        demoClient).2.tx = some demoStore) ∧
    ((kabadiwalaAdd demoEnv (demoKabadiwala [⟨"M2", 1⟩] none none) demoClient).1 =
        some ⟨400, .error "Vendor does not have rate for scrap_type_id M2"⟩ ∧
      (kabadiwalaAdd demoEnv (demoKabadiwala [⟨"M2", 1⟩] none none)
        demoClient).2.trace = [Ev.BEGIN, Ev.release] ∧
      ((kabadiwalaAdd demoEnv (demoKabadiwala [⟨"M2", 1⟩] none none)
        demoClient).2.tx.isSome = true)) := by
  decide

/-- C14 as stated fails for kabadiwala: two committed purchases, one of total 50
from vendor Ram and one of total 200 from vendor Shyam, get the same response,
which carries the header id and a fixed message, and neither the total nor the
vendor's name. -/
theorem kabadiwala_response_omits_total_and_vendor :
    (kabadiwalaAdd demoEnv (demoKabadiwala [⟨"M", 5⟩] none none) demoClient).1 =
        some ⟨200, .kabadiwalaAdded "uuid-0" "Kabadiwala purchase recorded successfully"⟩ ∧
      (kabadiwalaAdd demoEnv (demoKabadiwala [⟨"M", 20⟩] none none)
        { demoClient with
          committed := { demoStore with vendors := [⟨"V", "Shyam"⟩] } }).1 =
        (kabadiwalaAdd demoEnv (demoKabadiwala [⟨"M", 5⟩] none none) demoClient).1 ∧
      ((kabadiwalaAdd demoEnv (demoKabadiwala [⟨"M", 5⟩] none none)
        demoClient).2.committed.kabadiwala_records.map
          (fun h => (h.kabadiwala_name, h.total_amount))) = [("Ram", 50)] ∧
      ((kabadiwalaAdd demoEnv (demoKabadiwala [⟨"M", 20⟩] none none)
        { demoClient with
          committed := { demoStore with vendors := [⟨"V", "Shyam"⟩] } }).2.committed.kabadiwala_records.map
          (fun h => (h.kabadiwala_name, h.total_amount))) = [("Shyam", 200)] := by
  decide

/-- C14, amended.  A feriwala add-purchase that commits answers with the id of the
new header, the computed total, which is the `total_amount` stored in that header,
and the name of a vendor row with the request's vendor id.  A kabadiwala
add-purchase that commits answers with the id of the new header and a fixed
message, and nothing else. -/
theorem success_response (env : Env) (c : Client) :
    (∀ (req : FeriwalaReq) (r : Response),
      (feriwalaAdd env req c).1 = some r → r.status = 200 →
      ∃ id total vendor message, r = ⟨200, .feriwalaAdded id total vendor message⟩ ∧
        (∃ h ∈ (feriwalaAdd env req c).2.committed.feriwala_records, h.id = id) ∧
        (∀ h ∈ (feriwalaAdd env req c).2.committed.feriwala_records,
          h.id = id → h.total_amount = total) ∧
        (∃ v ∈ c.view.vendors, v.id = param req.vendor_id ∧ v.name = vendor)) ∧
    (∀ (req : KabadiwalaReq) (r : Response),
      (kabadiwalaAdd env req c).1 = some r → r.status = 200 →
      r = ⟨200, .kabadiwalaAdded (newId env c)
          "Kabadiwala purchase recorded successfully"⟩ ∧
        ∃ h ∈ (kabadiwalaAdd env req c).2.committed.kabadiwala_records,
          h.id = newId env c) := by
  constructor
  · intro req r hresp h200
    rcases feriwalaAdd_cases env req c with ⟨vn, others, _, hvn, _, hr, hc, _⟩ | ⟨hno, _⟩
    · rw [hr] at hresp
      simp only [Option.some.injEq] at hresp
      refine ⟨newId env c, feriwalaTotal env req c, vn, _, hresp.symm, ?_, ?_,
        vendorNames_mem _ _ _ _ hvn⟩
      · rw [hc]; exact feriwalaAfter_has_header env req c vn
      · rw [hc]; exact feriwalaAfter_total env req c vn
    · exact absurd h200 (hno r hresp)
  · intro req r hresp h200
    rcases kabadiwalaAdd_cases env req c with ⟨vn, others, _, _, _, hr, hc, _⟩ | ⟨hno, _⟩
    · rw [hr] at hresp
      simp only [Option.some.injEq] at hresp
      refine ⟨hresp.symm, ?_⟩
      rw [hc]; exact kabadiwalaAfter_has_header env req c vn
    · exact absurd h200 (hno r hresp)

/-- Witness for C14 amended: the feriwala purchase of 5 units at rate 10 answers
with id, total 50 and vendor Ram. -/
theorem success_response_witness :
    (∃ id total vendor message,
      (⟨200, .feriwalaAdded "uuid-0" 50 "Ram"
          "Feriwala purchase added successfully (Auto-rate applied)"⟩ : Response) =
        ⟨200, .feriwalaAdded id total vendor message⟩ ∧
      (∃ h ∈ (feriwalaAdd demoEnv (demoFeriwala [⟨"M", 5⟩]) demoClient).2.committed.feriwala_records,
        h.id = id) ∧
      (∀ h ∈ (feriwalaAdd demoEnv (demoFeriwala [⟨"M", 5⟩]) demoClient).2.committed.feriwala_records,
        h.id = id → h.total_amount = total) ∧
      (∃ v ∈ demoClient.view.vendors,
        v.id = param (demoFeriwala [⟨"M", 5⟩]).vendor_id ∧ v.name = vendor)) ∧
    ((⟨200, .kabadiwalaAdded "uuid-0" "Kabadiwala purchase recorded successfully"⟩ :
        Response) =
      ⟨200, .kabadiwalaAdded (newId demoEnv demoClient)
        "Kabadiwala purchase recorded successfully"⟩ ∧
      ∃ h ∈ (kabadiwalaAdd demoEnv (demoKabadiwala [⟨"M", 5⟩] none none)
          demoClient).2.committed.kabadiwala_records,
        h.id = newId demoEnv demoClient) :=
  have h := success_response demoEnv demoClient
  ⟨h.1 (demoFeriwala [⟨"M", 5⟩]) _ (by decide) (by decide),
    h.2 (demoKabadiwala [⟨"M", 5⟩] none none) _ (by decide) (by decide)⟩

/-- C15. Input validation: a request that lacks `company_id`, `godown_id` or
`vendor_id` (absent or empty), or whose line list is absent or empty, or, for
feriwala only, that lacks `account_id`, is answered with a 400 error and the
connection is released as it was: no BEGIN, no statement sent, committed store and
transaction state untouched, whatever the storage layer would do.  A kabadiwala
request that has the three ids and a non-empty line list passes validation whether
or not it has an `account_id`: the handler goes on to issue BEGIN. -/
theorem input_validation (env : Env) (c : Client) :
    (truthy none = false ∧ truthy (some "") = false ∧ hasLength none = false ∧
      hasLength (some []) = false) ∧
    (∀ req : FeriwalaReq,
      (truthy req.company_id = false ∨ truthy req.godown_id = false ∨
        truthy req.vendor_id = false ∨ hasLength req.scraps = false ∨
        truthy req.account_id = false) →
      ∃ msg, feriwalaAdd env req c = (some ⟨400, .error msg⟩, c.release)) ∧
    (∀ req : KabadiwalaReq,
      (truthy req.company_id = false ∨ truthy req.godown_id = false ∨
        truthy req.vendor_id = false ∨ hasLength req.scraps = false) →
      ∃ msg, kabadiwalaAdd env req c = (some ⟨400, .error msg⟩, c.release)) ∧
    (∀ req : KabadiwalaReq,
      truthy req.company_id = true → truthy req.godown_id = true →
      truthy req.vendor_id = true → hasLength req.scraps = true →
      ∃ evs, (kabadiwalaAdd env req c).2.trace = c.trace ++ Ev.BEGIN :: evs) := by
  refine ⟨⟨rfl, rfl, rfl, rfl⟩, ?_, ?_, ?_⟩
  · intro req h
    apply feriwalaAdd_invalid
    simp only [FeriwalaReq.valid]
    rcases h with h | h | h | h | h <;> simp [h]
  · intro req h
    apply kabadiwalaAdd_invalid
    simp only [KabadiwalaReq.valid]
    rcases h with h | h | h | h <;> simp [h]
  · intro req hc hg hv hl
    exact kabadiwalaAdd_begins env req c (by simp [KabadiwalaReq.valid, hc, hg, hv, hl])

/-- Witness for C15: a feriwala request without account id and a kabadiwala request
without lines are rejected before BEGIN; a kabadiwala request without account id
issues BEGIN (and commits). -/
theorem input_validation_witness :
    (∃ msg, feriwalaAdd demoEnv { demoFeriwala [⟨"M", 5⟩] with account_id := none }
        demoClient = (some ⟨400, .error msg⟩, demoClient.release)) ∧
      (∃ msg, kabadiwalaAdd demoEnv (demoKabadiwala [] none none) demoClient =
        (some ⟨400, .error msg⟩, demoClient.release)) ∧
      (∃ evs, (kabadiwalaAdd demoEnv (demoKabadiwala [⟨"M", 5⟩] none none)
        demoClient).2.trace = demoClient.trace ++ Ev.BEGIN :: evs) ∧
      (kabadiwalaAdd demoEnv (demoKabadiwala [⟨"M", 5⟩] none none) demoClient).2.trace =
        [Ev.BEGIN, Ev.COMMIT, Ev.release] :=
  have h := input_validation demoEnv demoClient
  ⟨h.2.1 { demoFeriwala [⟨"M", 5⟩] with account_id := none }
      (Or.inr (Or.inr (Or.inr (Or.inr rfl)))),
    h.2.2.1 (demoKabadiwala [] none none) (Or.inr (Or.inr (Or.inr rfl))),
    h.2.2.2 (demoKabadiwala [⟨"M", 5⟩] none none) rfl rfl rfl rfl,
    by decide⟩



/-- C16. Vendor lookup: on a request that passes validation, a 404 answer means
that no vendor row has the request's `vendor_id`; it is the "Vendor not found"
error, the committed store is as before and the transaction that was begun holds
no write (no header, line, payment or ledger row, no balance change).  Conversely,
when no statement throws and no vendor row has that id, the answer is that 404.
This holds for the feriwala and for the kabadiwala handler. -/
theorem vendor_lookup (env : Env) (c : Client) :
    (∀ req : FeriwalaReq, req.valid = true →
      (∀ r, (feriwalaAdd env req c).1 = some r → r.status = 404 →
        (∀ v ∈ c.view.vendors, v.id ≠ param req.vendor_id) ∧
        r = ⟨404, .error "Vendor not found"⟩ ∧
        (feriwalaAdd env req c).2.committed = c.committed ∧
        (feriwalaAdd env req c).2.tx = some c.view) ∧
      (NoFault env → (∀ v ∈ c.view.vendors, v.id ≠ param req.vendor_id) →
        (feriwalaAdd env req c).1 = some ⟨404, .error "Vendor not found"⟩)) ∧
    (∀ req : KabadiwalaReq, req.valid = true →
      (∀ r, (kabadiwalaAdd env req c).1 = some r → r.status = 404 →
        (∀ v ∈ c.view.vendors, v.id ≠ param req.vendor_id) ∧
        r = ⟨404, .error "Vendor not found"⟩ ∧
        (kabadiwalaAdd env req c).2.committed = c.committed ∧
        (kabadiwalaAdd env req c).2.tx = some c.view) ∧
      (NoFault env → (∀ v ∈ c.view.vendors, v.id ≠ param req.vendor_id) →
        (kabadiwalaAdd env req c).1 = some ⟨404, .error "Vendor not found"⟩)) := by
  constructor
  · intro req hvalid
    constructor
    · intro r hresp h404
      obtain ⟨c1, hrun, hfin⟩ := feriwalaAdd_not_thrown env req c r hresp
        (by rw [h404]; decide)
      rw [feriwalaTry_valid (noFault_clear env) req c hvalid] at hrun
      cases hvn : vendorNames c.view (param req.vendor_id) with
      | nil =>
        simp only [hvn, Outcome.ret.injEq, false_or, reduceCtorEq] at hrun
        refine ⟨(vendorNames_eq_nil_iff _ _).1 hvn, hrun.1.symm, ?_, ?_⟩
        · rw [hfin, ← hrun.2]; rfl
        · rw [hfin, ← hrun.2]; rfl
      | cons vn others =>
        cases hfu : firstUnrated c.view (param req.vendor_id) (req.scraps.getD []) with
        | some x =>
          simp only [hvn, hfu, Outcome.ret.injEq, false_or, reduceCtorEq] at hrun
          rw [← hrun.1] at h404
          simp at h404
        | none =>
          simp only [hvn, hfu, Outcome.ok.injEq, or_false, reduceCtorEq] at hrun
          rw [← hrun.1] at h404
          simp at h404
    · intro hf hno
      have hvn := (vendorNames_eq_nil_iff _ _).2 hno
      simp [feriwalaAdd, feriwalaTry_valid hf req c hvalid, hvn]
  · intro req hvalid
    constructor
    · intro r hresp h404
      obtain ⟨c1, hrun, hfin⟩ := kabadiwalaAdd_not_thrown env req c r hresp
        (by rw [h404]; decide)
      rw [kabadiwalaTry_valid (noFault_clear env) req c hvalid] at hrun
      cases hvn : vendorNames c.view (param req.vendor_id) with
      | nil =>
        simp only [hvn, Outcome.ret.injEq, false_or, reduceCtorEq] at hrun
        refine ⟨(vendorNames_eq_nil_iff _ _).1 hvn, hrun.1.symm, ?_, ?_⟩
        · rw [hfin, ← hrun.2]; rfl
        · rw [hfin, ← hrun.2]; rfl
      | cons vn others =>
        cases hfu : firstUnrated c.view (param req.vendor_id) (req.scraps.getD []) with
        | some x =>
          simp only [hvn, hfu, Outcome.ret.injEq, false_or, reduceCtorEq] at hrun
          rw [← hrun.1] at h404
          simp at h404
        | none =>
          simp only [hvn, hfu, Outcome.ok.injEq, or_false, reduceCtorEq] at hrun
          rw [← hrun.1] at h404
          simp at h404
    · intro hf hno
      have hvn := (vendorNames_eq_nil_iff _ _).2 hno
      simp [kabadiwalaAdd, kabadiwalaTry_valid hf req c hvalid, hvn]

/-- Witness for C16: requests for the unknown vendor id X. -/
theorem vendor_lookup_witness :
    (feriwalaAdd demoEnv { demoFeriwala [⟨"M", 5⟩] with vendor_id := some "X" }
        demoClient).1 = some ⟨404, .error "Vendor not found"⟩ ∧
      ((∀ v ∈ demoClient.view.vendors,
          v.id ≠ param ({ demoFeriwala [⟨"M", 5⟩] with vendor_id := some "X" } :
            FeriwalaReq).vendor_id) ∧
        (⟨404, .error "Vendor not found"⟩ : Response) = ⟨404, .error "Vendor not found"⟩ ∧
        (feriwalaAdd demoEnv { demoFeriwala [⟨"M", 5⟩] with vendor_id := some "X" }
          demoClient).2.committed = demoClient.committed ∧
        (feriwalaAdd demoEnv { demoFeriwala [⟨"M", 5⟩] with vendor_id := some "X" }
          demoClient).2.tx = some demoClient.view) ∧
      (kabadiwalaAdd demoEnv
        { demoKabadiwala [⟨"M", 5⟩] none none with vendor_id := some "X" }
        demoClient).1 = some ⟨404, .error "Vendor not found"⟩ :=
  have h := vendor_lookup demoEnv demoClient
  ⟨(h.1 { demoFeriwala [⟨"M", 5⟩] with vendor_id := some "X" } (by decide)).2
      (fun _ => rfl) (by decide),
    (h.1 { demoFeriwala [⟨"M", 5⟩] with vendor_id := some "X" } (by decide)).1 _
      (by decide) (by decide),
    (h.2 { demoKabadiwala [⟨"M", 5⟩] none none with vendor_id := some "X" }
      (by decide)).2 (fun _ => rfl) (by decide)⟩

/-- C17. Rate-not-found reporting: when no statement throws, on a request that
passes validation, for an existing vendor, whose lines are `pre ++ x :: post` with
a rate on file for every line of `pre` and none for `x` (the rate lookup returns no
row), the answer is the 400 error whose message ends with the `scrap_type_id` of
`x`.  The lines of `post` are never looked up or priced: the handler sends BEGIN,
the vendor lookup and the header insert, a lookup and an insert per line of `pre`,
the lookup for `x` (feriwala: and ROLLBACK), and nothing more, and it generates one
uuid for the header and one per line of `pre`. -/
theorem rate_not_found_reporting (env : Env) (c : Client) (hf : NoFault env)
    (pre post : List ScrapInput) (x : ScrapInput) :
    (∀ req : FeriwalaReq, req.valid = true →
      (∃ v ∈ c.view.vendors, v.id = param req.vendor_id) →
      req.scraps = some (pre ++ x :: post) →
      (∀ y ∈ pre, rateRows c.view (param req.vendor_id) y.scrap_type_id ≠ []) →
      rateRows c.view (param req.vendor_id) x.scrap_type_id = [] →
      feriwalaAdd env req c =
        (some ⟨400, .error
            ("Vendor does not have rate for this scrap_type_id: " ++ x.scrap_type_id)⟩,
          ⟨c.committed, none, c.stmts + 3 + 2 * pre.length + 2,
            c.uuids + 1 + pre.length,
            c.trace ++ [Ev.BEGIN, Ev.ROLLBACK, Ev.release]⟩)) ∧
    (∀ req : KabadiwalaReq, req.valid = true →
      (∃ v ∈ c.view.vendors, v.id = param req.vendor_id) →
      req.scraps = some (pre ++ x :: post) →
      (∀ y ∈ pre, rateRows c.view (param req.vendor_id) y.scrap_type_id ≠ []) →
      rateRows c.view (param req.vendor_id) x.scrap_type_id = [] →
      (kabadiwalaAdd env req c).1 =
        some ⟨400, .error
          ("Vendor does not have rate for scrap_type_id " ++ x.scrap_type_id)⟩ ∧
      (kabadiwalaAdd env req c).2.stmts = c.stmts + 3 + 2 * pre.length + 1 ∧
      (kabadiwalaAdd env req c).2.uuids = c.uuids + 1 + pre.length ∧
      (kabadiwalaAdd env req c).2.committed = c.committed) := by
  constructor
  · intro req hvalid hvendor hs hpre hx
    have hv := vendorNames_ne_nil _ _ hvendor
    have hfu := firstUnrated_append c.view (param req.vendor_id) pre post x hpre hx
    have hlen : (feriwalaNewLines env req c).length = pre.length := by
      simp only [feriwalaNewLines, hs, Option.getD_some]
      exact feriwalaLines_length_append env _ _ _ pre post x hpre hx _
    cases hvn : vendorNames c.view (param req.vendor_id) with
    | nil => exact absurd hvn hv
    | cons vn others =>
      simp only [feriwalaAdd, feriwalaTry_valid hf req c hvalid, hvn, hs,
        Option.getD_some, hfu, hlen, Client.release]
      simp
  · intro req hvalid hvendor hs hpre hx
    have hv := vendorNames_ne_nil _ _ hvendor
    have hfu := firstUnrated_append c.view (param req.vendor_id) pre post x hpre hx
    have hlen : (kabadiwalaNewLines env req c).length = pre.length := by
      simp only [kabadiwalaNewLines, hs, Option.getD_some]
      exact kabadiwalaLines_length_append env _ _ _ pre post x hpre hx _
    cases hvn : vendorNames c.view (param req.vendor_id) with
    | nil => exact absurd hvn hv
    | cons vn others =>
      simp only [kabadiwalaAdd, kabadiwalaTry_valid hf req c hvalid, hvn, hs,
        Option.getD_some, hfu, hlen, Client.release]
      simp

/-- Witness for C17: of the lines iron, copper, zinc the second is the first
without a rate; it is the one reported, and the third is not looked up. -/
theorem rate_not_found_reporting_witness :
    feriwalaAdd demoEnv (demoFeriwala [⟨"M", 5⟩, ⟨"M2", 1⟩, ⟨"M3", 1⟩]) demoClient =
        (some ⟨400, .error
            ("Vendor does not have rate for this scrap_type_id: " ++ "M2")⟩,
          ⟨demoClient.committed, none, demoClient.stmts + 3 + 2 * [(⟨"M", 5⟩ : ScrapInput)].length + 2,
            demoClient.uuids + 1 + [(⟨"M", 5⟩ : ScrapInput)].length,
            demoClient.trace ++ [Ev.BEGIN, Ev.ROLLBACK, Ev.release]⟩) ∧
      (kabadiwalaAdd demoEnv (demoKabadiwala [⟨"M", 5⟩, ⟨"M2", 1⟩, ⟨"M3", 1⟩] none none)
        demoClient).1 =
        some ⟨400, .error ("Vendor does not have rate for scrap_type_id " ++ "M2")⟩ ∧
      (kabadiwalaAdd demoEnv (demoKabadiwala [⟨"M", 5⟩, ⟨"M2", 1⟩, ⟨"M3", 1⟩] none none)
        demoClient).2.stmts = 6 :=
  have h := rate_not_found_reporting demoEnv demoClient (fun _ => rfl)
    [⟨"M", 5⟩] [⟨"M3", 1⟩] ⟨"M2", 1⟩
  ⟨h.1 (demoFeriwala [⟨"M", 5⟩, ⟨"M2", 1⟩, ⟨"M3", 1⟩]) (by decide) (by decide) rfl
      (by decide) (by decide),
    (h.2 (demoKabadiwala [⟨"M", 5⟩, ⟨"M2", 1⟩, ⟨"M3", 1⟩] none none) (by decide)
      (by decide) rfl (by decide) (by decide)).1,
    by decide⟩



/-! ## Runs that differ only in the messages of the errors -/

theorem alike_refl {α : Type} (x : M α) : Alike x x := by
  intro c
  cases h : x c <;> simp [Outcome.alike]

theorem alike_bind {α β : Type} {x y : M α} {f g : α → M β} (hx : Alike x y)
    (hf : ∀ a, Alike (f a) (g a)) : Alike (x >>= f) (y >>= g) := by
  intro c
  have h := hx c
  rw [bind_apply, bind_apply]
  cases hxc : x c with
  | ok a c1 =>
    cases hyc : y c with
    | ok b c2 =>
      rw [hxc, hyc] at h
      obtain ⟨hab, hcd⟩ := h
      subst hab; subst hcd
      exact hf a c1
    | ret r c2 => rw [hxc, hyc] at h; exact h.elim
    | thrown e c2 => rw [hxc, hyc] at h; exact h.elim
  | ret r c1 =>
    cases hyc : y c with
    | ok b c2 => rw [hxc, hyc] at h; exact h.elim
    | ret s c2 => rw [hxc, hyc] at h; exact h
    | thrown e c2 => rw [hxc, hyc] at h; exact h.elim
  | thrown e c1 =>
    cases hyc : y c with
    | ok b c2 => rw [hxc, hyc] at h; exact h.elim
    | ret s c2 => rw [hxc, hyc] at h; exact h.elim
    | thrown e2 c2 => rw [hxc, hyc] at h; exact h

theorem alike_query {α : Type} (env : Env) {g : Nat → Option String}
    (hg : SameFaults env g) (n : Nat) (f : String → Store → α × Store) :
    Alike (query env n f) (query (env.withFault g) n f) := by
  intro c
  have h := hg c.stmts
  cases h1 : env.fault c.stmts with
  | some e =>
    cases h2 : g c.stmts with
    | some e2 => simp [query, h1, h2, Env.withFault, Outcome.alike]
    | none => simp [h1, h2] at h
  | none =>
    cases h2 : g c.stmts with
    | some e2 => simp [h1, h2] at h
    | none => simp [query, h1, h2, Env.withFault, Outcome.alike]

theorem alike_BEGIN (env : Env) {g : Nat → Option String} (hg : SameFaults env g) :
    Alike (queryBEGIN env) (queryBEGIN (env.withFault g)) := by
  intro c
  have h := hg c.stmts
  cases h1 : env.fault c.stmts with
  | some e =>
    cases h2 : g c.stmts with
    | some e2 => simp [queryBEGIN, h1, h2, Env.withFault, Outcome.alike]
    | none => simp [h1, h2] at h
  | none =>
    cases h2 : g c.stmts with
    | some e2 => simp [h1, h2] at h
    | none => simp [queryBEGIN, h1, h2, Env.withFault, Outcome.alike]

theorem alike_COMMIT (env : Env) {g : Nat → Option String} (hg : SameFaults env g) :
    Alike (queryCOMMIT env) (queryCOMMIT (env.withFault g)) := by
  intro c
  have h := hg c.stmts
  cases h1 : env.fault c.stmts with
  | some e =>
    cases h2 : g c.stmts with
    | some e2 => simp [queryCOMMIT, h1, h2, Env.withFault, Outcome.alike]
    | none => simp [h1, h2] at h
  | none =>
    cases h2 : g c.stmts with
    | some e2 => simp [h1, h2] at h
    | none => simp [queryCOMMIT, h1, h2, Env.withFault, Outcome.alike]

theorem alike_ROLLBACK (env : Env) {g : Nat → Option String} (hg : SameFaults env g) :
    Alike (queryROLLBACK env) (queryROLLBACK (env.withFault g)) := by
  intro c
  have h := hg c.stmts
  cases h1 : env.fault c.stmts with
  | some e =>
    cases h2 : g c.stmts with
    | some e2 => simp [queryROLLBACK, h1, h2, Env.withFault, Outcome.alike]
    | none => simp [h1, h2] at h
  | none =>
    cases h2 : g c.stmts with
    | some e2 => simp [h1, h2] at h
    | none => simp [queryROLLBACK, h1, h2, Env.withFault, Outcome.alike]

theorem feriwalaScraps_alike (env : Env) {g : Nat → Option String}
    (hg : SameFaults env g) (v fid : String) (l : List ScrapInput) :
    ∀ t, Alike (feriwalaScraps env v fid l t)
      (feriwalaScraps (env.withFault g) v fid l t) := by
  induction l with
  | nil => intro t; exact alike_refl _
  | cons x rest ih =>
    intro t
    simp only [feriwalaScraps]
    refine alike_bind (alike_query env hg _ _) (fun rows => ?_)
    cases rows with
    | nil => exact alike_bind (alike_ROLLBACK env hg) (fun _ => alike_refl _)
    | cons row rows => exact alike_bind (alike_query env hg _ _) (fun _ => ih _)

theorem kabadiwalaScraps_alike (env : Env) {g : Nat → Option String}
    (hg : SameFaults env g) (v kid : String) (l : List ScrapInput) :
    ∀ t, Alike (kabadiwalaScraps env v kid l t)
      (kabadiwalaScraps (env.withFault g) v kid l t) := by
  induction l with
  | nil => intro t; exact alike_refl _
  | cons x rest ih =>
    intro t
    simp only [kabadiwalaScraps]
    refine alike_bind (alike_query env hg _ _) (fun rows => ?_)
    cases rows with
    | nil => exact alike_refl _
    | cons row rows => exact alike_bind (alike_query env hg _ _) (fun _ => ih _)

theorem feriwalaTry_alike (env : Env) {g : Nat → Option String}
    (hg : SameFaults env g) (req : FeriwalaReq) :
    Alike (feriwalaTry env req) (feriwalaTry (env.withFault g) req) := by
  simp only [feriwalaTry]
  repeat' first
    | exact alike_query env hg _ _
    | exact alike_BEGIN env hg
    | exact alike_COMMIT env hg
    | exact feriwalaScraps_alike env hg _ _ _ _
    | refine alike_bind ?_ (fun _ => ?_)
    | exact alike_refl _
    | split

theorem kabadiwalaTry_alike (env : Env) {g : Nat → Option String}
    (hg : SameFaults env g) (req : KabadiwalaReq) :
    Alike (kabadiwalaTry env req) (kabadiwalaTry (env.withFault g) req) := by
  simp only [kabadiwalaTry]
  repeat' first
    | exact alike_query env hg _ _
    | exact alike_BEGIN env hg
    | exact alike_COMMIT env hg
    | exact kabadiwalaScraps_alike env hg _ _ _ _
    | refine alike_bind ?_ (fun _ => ?_)
    | exact alike_refl _
    | split

/-- Two runs of the feriwala handler that differ only in the messages of the errors
thrown send the same response, or both send none, and leave the connection in the
same state. -/
theorem feriwalaAdd_alike (env : Env) {g : Nat → Option String}
    (hg : SameFaults env g) (req : FeriwalaReq) (c : Client) :
    feriwalaAdd (env.withFault g) req c = feriwalaAdd env req c := by
  have h := feriwalaTry_alike env hg req c
  simp only [feriwalaAdd]
  cases h1 : feriwalaTry env req c with
  | ok r c1 =>
    cases h2 : feriwalaTry (env.withFault g) req c with
    | ok r2 c2 =>
      rw [h1, h2] at h
      obtain ⟨hr, hc⟩ := h
      rw [hr, hc]
    | ret r2 c2 => rw [h1, h2] at h; exact h.elim
    | thrown e2 c2 => rw [h1, h2] at h; exact h.elim
  | ret r c1 =>
    cases h2 : feriwalaTry (env.withFault g) req c with
    | ok r2 c2 => rw [h1, h2] at h; exact h.elim
    | ret r2 c2 =>
      rw [h1, h2] at h
      obtain ⟨hr, hc⟩ := h
      rw [hr, hc]
    | thrown e2 c2 => rw [h1, h2] at h; exact h.elim
  | thrown e c1 =>
    cases h2 : feriwalaTry (env.withFault g) req c with
    | ok r2 c2 => rw [h1, h2] at h; exact h.elim
    | ret r2 c2 => rw [h1, h2] at h; exact h.elim
    | thrown e2 c2 =>
      rw [h1, h2] at h
      have hc : c1 = c2 := h
      subst hc
      have hk := hg c1.stmts
      cases h3 : env.fault c1.stmts with
      | some e3 =>
        cases h4 : g c1.stmts with
        | some e4 => simp [queryROLLBACK, h3, h4, Env.withFault]
        | none => simp [h3, h4] at hk
      | none =>
        cases h4 : g c1.stmts with
        | some e4 => simp [h3, h4] at hk
        | none => simp [queryROLLBACK, h3, h4, Env.withFault]



/-- C18 as stated fails for kabadiwala: two runs of the same request on the same
connection, in which the header insert throws and which differ only in the message
of the thrown error, get different 500 responses: each carries the message of its
error. -/
theorem kabadiwala_error_message_leaks :
    (kabadiwalaAdd (demoFault 2 "relation kabadiwala_records does not exist")
        (demoKabadiwala [⟨"M", 5⟩] none none) demoClient).1 =
      some ⟨500, .error "relation kabadiwala_records does not exist"⟩ ∧
    (kabadiwalaAdd (demoFault 2 "connection terminated unexpectedly")
        (demoKabadiwala [⟨"M", 5⟩] none none) demoClient).1 =
      some ⟨500, .error "connection terminated unexpectedly"⟩ ∧
    (kabadiwalaAdd (demoFault 2 "relation kabadiwala_records does not exist")
        (demoKabadiwala [⟨"M", 5⟩] none none) demoClient).1 ≠
      (kabadiwalaAdd (demoFault 2 "connection terminated unexpectedly")
        (demoKabadiwala [⟨"M", 5⟩] none none) demoClient).1 := by
  decide

/-- C18, amended.  When a statement of the `try` block of the feriwala handler
throws, the `catch` block issues ROLLBACK: if that goes through, the answer is 500
with the fixed message "Internal server error", whatever the thrown error; if the
ROLLBACK throws as well, no response is sent.  Every 500 answer of the feriwala
handler is the fixed one, two runs that differ only in the messages of the errors
thrown get identical responses (or both none), and any two runs in which the
ROLLBACK goes through get the same response.  When a statement of the `try` block
of the kabadiwala handler throws, the thrown message is the one the storage layer
gave: if the ROLLBACK goes through, the answer is 500 with that message, so that two
runs that differ only in that message get different responses; if the ROLLBACK
throws as well, no response is sent. -/
theorem storage_failure_response (env : Env) (c : Client) :
    (∀ (req : FeriwalaReq) (e : String) (c1 : Client),
      feriwalaTry env req c = .thrown e c1 →
      (env.fault c1.stmts = none →
        (feriwalaAdd env req c).1 = some ⟨500, .error "Internal server error"⟩) ∧
      (∀ e2, env.fault c1.stmts = some e2 → (feriwalaAdd env req c).1 = none)) ∧
    (∀ (req : FeriwalaReq) (r : Response),
      (feriwalaAdd env req c).1 = some r → r.status = 500 →
      r = ⟨500, .error "Internal server error"⟩) ∧
    (∀ (req : FeriwalaReq) (g : Nat → Option String), SameFaults env g →
      (feriwalaAdd (env.withFault g) req c).1 = (feriwalaAdd env req c).1) ∧
    (∀ (env2 : Env) (c2 : Client) (req req2 : FeriwalaReq) (e e2 : String)
        (c1 c3 : Client),
      feriwalaTry env req c = .thrown e c1 → env.fault c1.stmts = none →
      feriwalaTry env2 req2 c2 = .thrown e2 c3 → env2.fault c3.stmts = none →
      (feriwalaAdd env req c).1 = (feriwalaAdd env2 req2 c2).1) ∧
    (∀ (req : KabadiwalaReq) (e : String) (c1 : Client),
      kabadiwalaTry env req c = .thrown e c1 →
      (∃ k, env.fault k = some e) ∧
      (env.fault c1.stmts = none →
        (kabadiwalaAdd env req c).1 = some ⟨500, .error e⟩) ∧
      (∀ e2, env.fault c1.stmts = some e2 → (kabadiwalaAdd env req c).1 = none)) ∧
    (∀ (req : KabadiwalaReq) (g : Nat → Option String) (e e2 : String)
        (c1 c3 : Client), SameFaults env g →
      kabadiwalaTry env req c = .thrown e c1 → env.fault c1.stmts = none →
      kabadiwalaTry (env.withFault g) req c = .thrown e2 c3 → e ≠ e2 →
      (kabadiwalaAdd env req c).1 = some ⟨500, .error e⟩ ∧
      (kabadiwalaAdd (env.withFault g) req c).1 = some ⟨500, .error e2⟩ ∧
      (kabadiwalaAdd env req c).1 ≠ (kabadiwalaAdd (env.withFault g) req c).1) := by
  have hfixed : ∀ (env : Env) (c : Client) (req : FeriwalaReq) (e : String)
      (c1 : Client), feriwalaTry env req c = .thrown e c1 → env.fault c1.stmts = none →
      (feriwalaAdd env req c).1 = some ⟨500, .error "Internal server error"⟩ := by
    intro env c req e c1 htry hfa
    simp [feriwalaAdd, htry, queryROLLBACK, hfa]
  have hleak : ∀ (env : Env) (c : Client) (req : KabadiwalaReq) (e : String)
      (c1 : Client), kabadiwalaTry env req c = .thrown e c1 →
      env.fault c1.stmts = none →
      (kabadiwalaAdd env req c).1 = some ⟨500, .error e⟩ := by
    intro env c req e c1 htry hfa
    simp [kabadiwalaAdd, htry, queryROLLBACK, hfa]
  refine ⟨?_, ?_, ?_, ?_, ?_, ?_⟩
  · intro req e c1 htry
    refine ⟨hfixed env c req e c1 htry, ?_⟩
    intro e2 hfa
    simp [feriwalaAdd, htry, queryROLLBACK, hfa]
  · intro req r hresp h500
    cases htry : feriwalaTry env req c with
    | thrown e c1 =>
      simp only [feriwalaAdd, htry] at hresp
      cases hfa : env.fault c1.stmts with
      | some e2 => simp [queryROLLBACK, hfa] at hresp
      | none =>
        simp only [queryROLLBACK, hfa, Option.some.injEq] at hresp
        exact hresp.symm
    | ok r1 c1 =>
      rcases feriwalaAdd_cases env req c with ⟨_, _, _, _, _, hr, _, _⟩ | ⟨_, _⟩
      · rw [hr] at hresp
        simp only [Option.some.injEq] at hresp
        rw [← hresp] at h500
        simp at h500
      · have hclear : feriwalaTry env.clear req c = .ok r1 c1 := by
          rw [← sim_ok (feriwalaTry_sim env req) c (by simp [htry]), htry]
        cases hvalid : req.valid with
        | false =>
          obtain ⟨msg, hm⟩ := feriwalaTry_invalid env.clear req c hvalid
          rw [hm] at hclear
          simp at hclear
        | true =>
          rw [feriwalaTry_valid (noFault_clear env) req c hvalid] at hclear
          simp only [feriwalaAdd, htry, Option.some.injEq] at hresp
          subst hresp
          cases hvn : vendorNames c.view (param req.vendor_id) with
          | nil => simp [hvn] at hclear
          | cons vn others =>
            cases hfu : firstUnrated c.view (param req.vendor_id)
                (req.scraps.getD []) with
            | some x => simp [hvn, hfu] at hclear
            | none =>
              simp only [hvn, hfu, Outcome.ok.injEq] at hclear
              rw [← hclear.1] at h500
              simp at h500
    | ret r1 c1 =>
      have hclear : feriwalaTry env.clear req c = .ret r1 c1 := by
        rw [← sim_ok (feriwalaTry_sim env req) c (by simp [htry]), htry]
      simp only [feriwalaAdd, htry, Option.some.injEq] at hresp
      subst hresp
      cases hvalid : req.valid with
      | false =>
        obtain ⟨msg, hm⟩ := feriwalaTry_invalid env.clear req c hvalid
        rw [hm] at hclear
        simp only [Outcome.ret.injEq] at hclear
        rw [← hclear.1] at h500
        simp at h500
      | true =>
        rw [feriwalaTry_valid (noFault_clear env) req c hvalid] at hclear
        cases hvn : vendorNames c.view (param req.vendor_id) with
        | nil =>
          simp only [hvn, Outcome.ret.injEq] at hclear
          rw [← hclear.1] at h500
          simp at h500
        | cons vn others =>
          cases hfu : firstUnrated c.view (param req.vendor_id)
              (req.scraps.getD []) with
          | some x =>
            simp only [hvn, hfu, Outcome.ret.injEq] at hclear
            rw [← hclear.1] at h500
            simp at h500
          | none => simp [hvn, hfu] at hclear
  · intro req g hg
    rw [feriwalaAdd_alike env hg req c]
  · intro env2 c2 req req2 e e2 c1 c3 h1 h2 h3 h4
    rw [hfixed env c req e c1 h1 h2, hfixed env2 c2 req2 e2 c3 h3 h4]
  · intro req e c1 htry
    refine ⟨kabadiwalaTry_rethrows env req c e c1 htry, hleak env c req e c1 htry, ?_⟩
    intro e2 hfa
    simp [kabadiwalaAdd, htry, queryROLLBACK, hfa]
  · intro req g e e2 c1 c3 hg h1 hfa h2 hne
    have h := kabadiwalaTry_alike env hg req c
    rw [h1, h2] at h
    have hc : c1 = c3 := h
    subst hc
    have hk := hg c1.stmts
    have hfa2 : (env.withFault g).fault c1.stmts = none := by
      cases h4 : g c1.stmts with
      | some e4 => simp [hfa, h4] at hk
      | none => exact h4
    rw [hleak env c req e c1 h1 hfa, hleak (env.withFault g) c req e2 c1 h2 hfa2]
    refine ⟨rfl, rfl, ?_⟩
    intro heq
    simp only [Option.some.injEq, Response.mk.injEq, Body.error.injEq, true_and] at heq
    exact hne heq

/-- Witness for C18 amended: the header insert throws.  When the ROLLBACK goes
through, feriwala answers with the fixed message and kabadiwala with the message
of the error; when every later statement throws too (the connection is lost),
neither handler sends a response. -/
theorem storage_failure_response_witness :
    ((feriwalaAdd (demoFault 2 "connection terminated unexpectedly")
        (demoFeriwala [⟨"M", 5⟩]) demoClient).1 =
      some ⟨500, .error "Internal server error"⟩ ∧
    (feriwalaAdd (demoFaultFrom 2 "connection terminated unexpectedly")
        (demoFeriwala [⟨"M", 5⟩]) demoClient).1 = none ∧
    (feriwalaAdd ((demoFault 2 "connection terminated unexpectedly").withFault
        (demoFault 2 "relation feriwala_records does not exist").fault)
        (demoFeriwala [⟨"M", 5⟩]) demoClient).1 =
      (feriwalaAdd (demoFault 2 "connection terminated unexpectedly")
        (demoFeriwala [⟨"M", 5⟩]) demoClient).1) ∧
    ((∃ k, (demoFault 2 "connection terminated unexpectedly").fault k =
        some "connection terminated unexpectedly") ∧
      (kabadiwalaAdd (demoFault 2 "connection terminated unexpectedly")
        (demoKabadiwala [⟨"M", 5⟩] none none) demoClient).1 =
      some ⟨500, .error "connection terminated unexpectedly"⟩ ∧
      (kabadiwalaAdd (demoFaultFrom 2 "connection terminated unexpectedly")
        (demoKabadiwala [⟨"M", 5⟩] none none) demoClient).1 = none ∧
      (kabadiwalaAdd (demoFault 2 "connection terminated unexpectedly")
        (demoKabadiwala [⟨"M", 5⟩] none none) demoClient).1 ≠
      (kabadiwalaAdd ((demoFault 2 "connection terminated unexpectedly").withFault
        (demoFault 2 "relation kabadiwala_records does not exist").fault)
        (demoKabadiwala [⟨"M", 5⟩] none none) demoClient).1) :=
  have h := storage_failure_response (demoFault 2 "connection terminated unexpectedly")
    demoClient
  have h2 := storage_failure_response
    (demoFaultFrom 2 "connection terminated unexpectedly") demoClient
  have hg : SameFaults (demoFault 2 "connection terminated unexpectedly")
      (demoFault 2 "relation feriwala_records does not exist").fault := by
    intro k
    simp only [demoFault]
    split <;> rfl
  have hg2 : SameFaults (demoFault 2 "connection terminated unexpectedly")
      (demoFault 2 "relation kabadiwala_records does not exist").fault := by
    intro k
    simp only [demoFault]
    split <;> rfl
  ⟨⟨(h.1 (demoFeriwala [⟨"M", 5⟩]) "connection terminated unexpectedly"
        ⟨demoStore, some demoStore, 3, 0, [Ev.BEGIN]⟩ rfl).1 (by decide),
      (h2.1 (demoFeriwala [⟨"M", 5⟩]) "connection terminated unexpectedly"
        ⟨demoStore, some demoStore, 3, 0, [Ev.BEGIN]⟩ rfl).2
        "connection terminated unexpectedly" (by decide),
      h.2.2.1 (demoFeriwala [⟨"M", 5⟩]) _ hg⟩,
    ⟨(h.2.2.2.2.1 (demoKabadiwala [⟨"M", 5⟩] none none)
        "connection terminated unexpectedly"
        ⟨demoStore, some demoStore, 3, 0, [Ev.BEGIN]⟩ rfl).1,
      (h.2.2.2.2.1 (demoKabadiwala [⟨"M", 5⟩] none none)
        "connection terminated unexpectedly"
        ⟨demoStore, some demoStore, 3, 0, [Ev.BEGIN]⟩ rfl).2.1 (by decide),
      (h2.2.2.2.2.1 (demoKabadiwala [⟨"M", 5⟩] none none)
        "connection terminated unexpectedly"
        ⟨demoStore, some demoStore, 3, 0, [Ev.BEGIN]⟩ rfl).2.2
        "connection terminated unexpectedly" (by decide),
      (h.2.2.2.2.2 (demoKabadiwala [⟨"M", 5⟩] none none) _
        "connection terminated unexpectedly"
        "relation kabadiwala_records does not exist"
        ⟨demoStore, some demoStore, 3, 0, [Ev.BEGIN]⟩
        ⟨demoStore, some demoStore, 3, 0, [Ev.BEGIN]⟩ hg2 rfl (by decide) rfl
        (by decide)).2.2⟩⟩

/-- C20. The ledger is append-only: for every invocation of the feriwala or the
kabadiwala add-purchase on a connection with no transaction open, whatever the
storage layer does, the committed ledger afterwards is the ledger before, entry by
entry and in the same order, followed by at most one new entry; a new entry is a
debit, in the company and godown of the request, against the account of the
request. -/
theorem ledger_append_only (env : Env) (c : Client) (htx : c.tx = none) :
    (∀ req : FeriwalaReq, ∃ entries,
      (feriwalaAdd env req c).2.committed.account_transactions =
        c.committed.account_transactions ++ entries ∧
      entries.length ≤ 1 ∧
      ∀ e ∈ entries, e.type = "debit" ∧ e.company_id = param req.company_id ∧
        e.godown_id = param req.godown_id ∧ e.account_id = param req.account_id) ∧
    (∀ req : KabadiwalaReq, ∃ entries,
      (kabadiwalaAdd env req c).2.committed.account_transactions =
        c.committed.account_transactions ++ entries ∧
      entries.length ≤ 1 ∧
      ∀ e ∈ entries, e.type = "debit" ∧ e.company_id = param req.company_id ∧
        e.godown_id = param req.godown_id ∧ e.account_id = param req.account_id) := by
  have hview := view_of_tx_none c htx
  constructor
  · intro req
    rcases feriwalaAdd_cases env req c with ⟨vn, others, _, _, _, _, hc, _⟩ | ⟨_, h⟩
    · refine ⟨[feriwalaEntry env req c vn], ?_, by simp, ?_⟩
      · rw [hc, ← hview]; rfl
      · intro e he
        simp only [List.mem_singleton] at he
        rw [he]
        exact ⟨rfl, rfl, rfl, rfl⟩
    · exact ⟨[], by simp [h], by simp, by simp⟩
  · intro req
    rcases kabadiwalaAdd_cases env req c with ⟨vn, others, _, _, _, _, hc, _⟩ | ⟨_, h⟩
    · by_cases hp : kabadiwalaPosts req = true
      · refine ⟨[kabadiwalaEntry env req c vn], ?_, by simp, ?_⟩
        · rw [hc, ← hview]; simp [kabadiwalaAfter, hp]
        · intro e he
          simp only [List.mem_singleton] at he
          rw [he]
          exact ⟨rfl, rfl, rfl, rfl⟩
      · refine ⟨[], ?_, by simp, by simp⟩
        rw [hc, ← hview]; simp [kabadiwalaAfter, hp]
    · exact ⟨[], by simp [h], by simp, by simp⟩

/-- Witness for C20: on a store that already has one ledger entry, a feriwala
purchase keeps it and appends one debit. -/
theorem ledger_append_only_witness :
    (∃ entries,
      (feriwalaAdd demoEnv (demoFeriwala [⟨"M", 5⟩])
        (feriwalaAdd demoEnv (demoFeriwala [⟨"M", 7⟩]) demoClient).2).2.committed.account_transactions =
        (feriwalaAdd demoEnv (demoFeriwala [⟨"M", 7⟩])
          demoClient).2.committed.account_transactions ++ entries ∧
      entries.length ≤ 1 ∧
      ∀ e ∈ entries, e.type = "debit" ∧
        e.company_id = param (demoFeriwala [⟨"M", 5⟩]).company_id ∧
        e.godown_id = param (demoFeriwala [⟨"M", 5⟩]).godown_id ∧
        e.account_id = param (demoFeriwala [⟨"M", 5⟩]).account_id) ∧
    ((feriwalaAdd demoEnv (demoFeriwala [⟨"M", 5⟩])
        (feriwalaAdd demoEnv (demoFeriwala [⟨"M", 7⟩]) demoClient).2).2.committed.account_transactions.map
      (fun e => (e.type, e.account_id, e.amount))) =
      [("debit", "A", 70), ("debit", "A", 50)] :=
  ⟨(ledger_append_only demoEnv (feriwalaAdd demoEnv (demoFeriwala [⟨"M", 7⟩]) demoClient).2
      (by decide)).1 (demoFeriwala [⟨"M", 5⟩]),
    by decide⟩



/-! ## The payment classification, case by case -/

theorem payment_status_values (paid total : Int) :
    payment_status paid total = "paid" ∨ payment_status paid total = "partial" ∨
      payment_status paid total = "pending" := by
  unfold payment_status
  split_ifs <;> simp

theorem payment_status_pending_iff (paid total : Int) :
    payment_status paid total = "pending" ↔ paid ≤ 0 ∧ paid < total := by
  unfold payment_status
  split_ifs <;> simp <;> omega

theorem payment_status_partial_iff (paid total : Int) :
    payment_status paid total = "partial" ↔ 0 < paid ∧ paid < total := by
  unfold payment_status
  split_ifs <;> simp <;> omega

/-- The run of the kabadiwala handler on a request that passes validation, for an
existing vendor and with a rate for every line, when no statement throws. -/
theorem kabadiwalaAdd_commits {env : Env} (hf : NoFault env) (req : KabadiwalaReq)
    (c : Client) (hvalid : req.valid = true)
    (hvendor : ∃ v ∈ c.view.vendors, v.id = param req.vendor_id)
    (hrates : ∀ x ∈ req.scraps.getD [],
      rateRows c.view (param req.vendor_id) x.scrap_type_id ≠ []) :
    ∃ vn others, vendorNames c.view (param req.vendor_id) = vn :: others ∧
      (kabadiwalaAdd env req c).1 =
        some ⟨200, .kabadiwalaAdded (newId env c)
          "Kabadiwala purchase recorded successfully"⟩ ∧
      (kabadiwalaAdd env req c).2.committed = kabadiwalaAfter env req c vn ∧
      (kabadiwalaAdd env req c).2.tx = none := by
  have hv := vendorNames_ne_nil _ _ hvendor
  have hfu := (firstUnrated_eq_none_iff _ _ _).2 hrates
  cases hvn : vendorNames c.view (param req.vendor_id) with
  | nil => exact absurd hvn hv
  | cons vn others =>
    refine ⟨vn, others, rfl, ?_, ?_, ?_⟩ <;>
      simp only [kabadiwalaAdd, kabadiwalaTry_valid hf req c hvalid, hvn, hfu] <;> rfl

/-- The run of the feriwala handler on a request that passes validation, for an
existing vendor and with a rate for every line, when no statement throws. -/
theorem feriwalaAdd_commits {env : Env} (hf : NoFault env) (req : FeriwalaReq)
    (c : Client) (hvalid : req.valid = true)
    (hvendor : ∃ v ∈ c.view.vendors, v.id = param req.vendor_id)
    (hrates : ∀ x ∈ req.scraps.getD [],
      rateRows c.view (param req.vendor_id) x.scrap_type_id ≠ []) :
    ∃ vn others, vendorNames c.view (param req.vendor_id) = vn :: others ∧
      (feriwalaAdd env req c).1 =
        some ⟨200, .feriwalaAdded (newId env c) (feriwalaTotal env req c) vn
          "Feriwala purchase added successfully (Auto-rate applied)"⟩ ∧
      (feriwalaAdd env req c).2.committed = feriwalaAfter env req c vn ∧
      (feriwalaAdd env req c).2.tx = none := by
  have hv := vendorNames_ne_nil _ _ hvendor
  have hfu := (firstUnrated_eq_none_iff _ _ _).2 hrates
  cases hvn : vendorNames c.view (param req.vendor_id) with
  | nil => exact absurd hvn hv
  | cons vn others =>
    refine ⟨vn, others, rfl, ?_, ?_, ?_⟩ <;>
      simp only [feriwalaAdd, feriwalaTry_valid hf req c hvalid, hvn, hfu] <;> rfl



/-- C21. Payment without funding account: when no statement throws, a kabadiwala
request that passes validation, for an existing vendor, with a rate on file for
every line (the rate lookup returns a row), with `payment_amount` P > 0 and no
`account_id` (absent or empty) commits: the answer is the 200 success response, the
transaction is closed, exactly one payment record is added, for the new header and
of amount P, the header exists and its `payment_status` is partial or paid, and the
ledger and all account balances are exactly as before. -/
theorem payment_without_account (env : Env) (req : KabadiwalaReq) (c : Client)
    (P : Int) (hf : NoFault env) (hvalid : req.valid = true)
    (hvendor : ∃ v ∈ c.view.vendors, v.id = param req.vendor_id)
    (hrates : ∀ x ∈ req.scraps.getD [],
      rateRows c.view (param req.vendor_id) x.scrap_type_id ≠ [])
    (hpay : req.payment_amount = some P) (hpos : 0 < P)
    (hacc : truthy req.account_id = false) :
    (kabadiwalaAdd env req c).1 =
        some ⟨200, .kabadiwalaAdded (newId env c)
          "Kabadiwala purchase recorded successfully"⟩ ∧
      (kabadiwalaAdd env req c).2.tx = none ∧
      (∃ p, (kabadiwalaAdd env req c).2.committed.kabadiwala_payments =
          c.view.kabadiwala_payments ++ [p] ∧
        p.kabadiwala_id = newId env c ∧ p.amount = P) ∧
      (∃ h ∈ (kabadiwalaAdd env req c).2.committed.kabadiwala_records,
        h.id = newId env c) ∧
      (∀ h ∈ (kabadiwalaAdd env req c).2.committed.kabadiwala_records,
        h.id = newId env c →
          h.payment_status = "partial" ∨ h.payment_status = "paid") ∧
      (kabadiwalaAdd env req c).2.committed.account_transactions =
        c.view.account_transactions ∧
      (kabadiwalaAdd env req c).2.committed.accounts = c.view.accounts := by
  obtain ⟨vn, others, _, hr, hc, htx⟩ :=
    kabadiwalaAdd_commits hf req c hvalid hvendor hrates
  have hpaid : kabadiwalaPaid req = P := by simp [kabadiwalaPaid, hpay]
  have hposts : kabadiwalaPosts req = false := by simp [kabadiwalaPosts, hacc]
  refine ⟨hr, htx, ⟨kabadiwalaPaymentRow env req c, ?_, rfl, hpaid⟩, ?_, ?_, ?_, ?_⟩
  · rw [hc]; simp [kabadiwalaAfter, hpaid, hpos]
  · rw [hc]; exact kabadiwalaAfter_has_header env req c vn
  · intro h hh hid
    rw [hc] at hh
    have hst := (kabadiwalaAfter_total env req c vn h hh hid).2
    rw [hpaid] at hst
    rcases payment_status_values P (kabadiwalaTotal env req c) with h1 | h1 | h1
    · exact Or.inr (hst.trans h1)
    · exact Or.inl (hst.trans h1)
    · have := (payment_status_pending_iff _ _).1 h1
      omega
  · rw [hc]; simp [kabadiwalaAfter, hposts]
  · rw [hc]; simp [kabadiwalaAfter, hposts]

/-- Witness for C21: a purchase of total 50 paid 30 without account is partial,
has one payment of 30, and leaves ledger and balance as they were. -/
theorem payment_without_account_witness :
    (kabadiwalaAdd demoEnv (demoKabadiwala [⟨"M", 5⟩] (some 30) none) demoClient).1 =
        some ⟨200, .kabadiwalaAdded "uuid-0" "Kabadiwala purchase recorded successfully"⟩ ∧
      ((kabadiwalaAdd demoEnv (demoKabadiwala [⟨"M", 5⟩] (some 30) none)
        demoClient).2.committed.kabadiwala_payments.map
          (fun p => (p.kabadiwala_id, p.amount))) = [("uuid-0", 30)] ∧
      ((kabadiwalaAdd demoEnv (demoKabadiwala [⟨"M", 5⟩] (some 30) none)
        demoClient).2.committed.kabadiwala_records.map
          (fun h => (h.id, h.payment_status))) = [("uuid-0", "partial")] ∧
      (kabadiwalaAdd demoEnv (demoKabadiwala [⟨"M", 5⟩] (some 30) none)
        demoClient).2.committed.account_transactions =
        demoClient.view.account_transactions ∧
      (kabadiwalaAdd demoEnv (demoKabadiwala [⟨"M", 5⟩] (some 30) none)
        demoClient).2.committed.accounts = demoClient.view.accounts :=
  have h := payment_without_account demoEnv (demoKabadiwala [⟨"M", 5⟩] (some 30) none)
    demoClient 30 (fun _ => rfl) (by decide) (by decide) (by decide) rfl (by decide)
    (by decide)
  ⟨h.1, by decide, by decide, h.2.2.2.2.2.1, h.2.2.2.2.2.2⟩

/-- C22. Unchecked signs: when no statement throws, every add-purchase request that
passes validation, for an existing vendor and with a rate on file for every line,
commits, whatever the signs of the weights and of the rates: no weight and no rate,
zero or negative, makes the handler reject it.  Every line is stored with
amount = rate × weight, the stored total of the new header is the sum of those
amounts over all lines, and the feriwala handler subtracts that total from the
balance of the funding account, so that a negative total raises the balance by its
absolute value. -/
theorem unchecked_signs (env : Env) (c : Client) (hf : NoFault env) :
    (∀ req : FeriwalaReq, req.valid = true →
      (∃ v ∈ c.view.vendors, v.id = param req.vendor_id) →
      (∀ x ∈ req.scraps.getD [],
        rateRows c.view (param req.vendor_id) x.scrap_type_id ≠ []) →
      (∃ vendor, (feriwalaAdd env req c).1 =
        some ⟨200, .feriwalaAdded (newId env c)
          (requestTotal c.view (param req.vendor_id) (req.scraps.getD [])) vendor
          "Feriwala purchase added successfully (Auto-rate applied)"⟩) ∧
      (∃ lines, (feriwalaAdd env req c).2.committed.feriwala_scraps =
          c.view.feriwala_scraps ++ lines ∧
        List.Forall₂
          (fun (x : FeriwalaScrap) inp =>
            x.feriwala_id = newId env c ∧
              PricedFrom c.view (param req.vendor_id) x.weight x.rate x.material inp)
          lines (req.scraps.getD []) ∧
        (∀ x ∈ lines, x.amount = x.rate * x.weight) ∧
        (lines.map (fun x => x.amount)).sum =
          requestTotal c.view (param req.vendor_id) (req.scraps.getD [])) ∧
      (∀ h ∈ (feriwalaAdd env req c).2.committed.feriwala_records,
        h.id = newId env c → h.total_amount =
          requestTotal c.view (param req.vendor_id) (req.scraps.getD [])) ∧
      (feriwalaAdd env req c).2.committed.accounts =
        c.view.accounts.map (fun a =>
          if a.id == param req.account_id then
            { a with balance := a.balance -
                requestTotal c.view (param req.vendor_id) (req.scraps.getD []) }
          else a) ∧
      (requestTotal c.view (param req.vendor_id) (req.scraps.getD []) < 0 →
        ∀ a ∈ c.view.accounts, a.id = param req.account_id →
          { a with balance := a.balance +
              |requestTotal c.view (param req.vendor_id) (req.scraps.getD [])| } ∈
            (feriwalaAdd env req c).2.committed.accounts)) ∧
    (∀ req : KabadiwalaReq, req.valid = true →
      (∃ v ∈ c.view.vendors, v.id = param req.vendor_id) →
      (∀ x ∈ req.scraps.getD [],
        rateRows c.view (param req.vendor_id) x.scrap_type_id ≠ []) →
      (kabadiwalaAdd env req c).1 =
        some ⟨200, .kabadiwalaAdded (newId env c)
          "Kabadiwala purchase recorded successfully"⟩ ∧
      (∃ lines, (kabadiwalaAdd env req c).2.committed.kabadiwala_scraps =
          c.view.kabadiwala_scraps ++ lines ∧
        List.Forall₂
          (fun (x : KabadiwalaScrap) inp =>
            x.kabadiwala_id = newId env c ∧ x.scrap_type_id = inp.scrap_type_id ∧
              PricedFrom c.view (param req.vendor_id) x.weight x.rate x.material inp)
          lines (req.scraps.getD []) ∧
        (∀ x ∈ lines, x.amount = x.rate * x.weight) ∧
        (lines.map (fun x => x.amount)).sum =
          requestTotal c.view (param req.vendor_id) (req.scraps.getD [])) ∧
      (∀ h ∈ (kabadiwalaAdd env req c).2.committed.kabadiwala_records,
        h.id = newId env c → h.total_amount =
          requestTotal c.view (param req.vendor_id) (req.scraps.getD []))) := by
  constructor
  · intro req hvalid hvendor hrates
    obtain ⟨vn, others, _, hr, hc, _⟩ :=
      feriwalaAdd_commits hf req c hvalid hvendor hrates
    have hfu := (firstUnrated_eq_none_iff _ _ _).2 hrates
    have htotal : feriwalaTotal env req c =
        requestTotal c.view (param req.vendor_id) (req.scraps.getD []) :=
      feriwalaLines_total env _ _ _ _ hfu _
    have hacc : (feriwalaAdd env req c).2.committed.accounts =
        c.view.accounts.map (fun a =>
          if a.id == param req.account_id then
            { a with balance := a.balance -
                requestTotal c.view (param req.vendor_id) (req.scraps.getD []) }
          else a) := by
      rw [hc, ← htotal]; rfl
    refine ⟨⟨vn, by rw [hr, htotal]⟩, ⟨feriwalaNewLines env req c, by rw [hc]; rfl,
      feriwalaLines_forall₂ env _ _ _ _ hfu _, ?_, htotal⟩, ?_, hacc, ?_⟩
    · intro x hx
      exact (feriwalaLines_spec env _ _ _ _ _ x hx).2.1
    · intro h hh hid
      rw [hc] at hh
      rw [feriwalaAfter_total env req c vn h hh hid, htotal]
    · intro hneg a ha haid
      rw [hacc, List.mem_map]
      refine ⟨a, ha, ?_⟩
      simp only [haid, beq_self_eq_true, if_true, abs_of_neg hneg, sub_eq_add_neg]
  · intro req hvalid hvendor hrates
    obtain ⟨vn, others, _, hr, hc, _⟩ :=
      kabadiwalaAdd_commits hf req c hvalid hvendor hrates
    have hfu := (firstUnrated_eq_none_iff _ _ _).2 hrates
    have htotal : kabadiwalaTotal env req c =
        requestTotal c.view (param req.vendor_id) (req.scraps.getD []) :=
      kabadiwalaLines_total env _ _ _ _ hfu _
    refine ⟨hr, ⟨kabadiwalaNewLines env req c, by rw [hc]; rfl,
      kabadiwalaLines_forall₂ env _ _ _ _ hfu _, ?_, htotal⟩, ?_⟩
    · intro x hx
      exact (kabadiwalaLines_spec env _ _ _ _ _ x hx).2.1
    · intro h hh hid
      rw [hc] at hh
      rw [(kabadiwalaAfter_total env req c vn h hh hid).1, htotal]

/-- Witness for C22: a feriwala purchase with lines of weight 2 and -5 at rate 10
commits with amounts 20 and -50 and total -30, and the balance of account A rises
from 1000 to 1030; a kabadiwala purchase of weight 4 at a rate on file of -2
commits with amount and total -8. -/
theorem unchecked_signs_witness :
    ((feriwalaAdd demoEnv (demoFeriwala [⟨"M", 2⟩, ⟨"M", -5⟩]) demoClient).1 =
        some ⟨200, .feriwalaAdded "uuid-0" (-30) "Ram"
          "Feriwala purchase added successfully (Auto-rate applied)"⟩ ∧
      ((feriwalaAdd demoEnv (demoFeriwala [⟨"M", 2⟩, ⟨"M", -5⟩])
        demoClient).2.committed.feriwala_scraps.map
          (fun x => (x.weight, x.rate, x.amount))) = [(2, 10, 20), (-5, 10, -50)] ∧
      (⟨"A", 1000 + |(-30 : Int)|⟩ : Account) ∈
        (feriwalaAdd demoEnv (demoFeriwala [⟨"M", 2⟩, ⟨"M", -5⟩])
          demoClient).2.committed.accounts ∧
      (feriwalaAdd demoEnv (demoFeriwala [⟨"M", 2⟩, ⟨"M", -5⟩])
        demoClient).2.committed.accounts = [⟨"A", 1030⟩]) ∧
    ((kabadiwalaAdd demoEnv (demoKabadiwala [⟨"M", 4⟩] none none)
        { demoClient with
          committed := { demoStore with vendor_rates := [⟨"V", "M", -2⟩] } }).1 =
        some ⟨200, .kabadiwalaAdded "uuid-0" "Kabadiwala purchase recorded successfully"⟩ ∧
      ((kabadiwalaAdd demoEnv (demoKabadiwala [⟨"M", 4⟩] none none)
        { demoClient with
          committed := { demoStore with vendor_rates := [⟨"V", "M", -2⟩] } }).2.committed.kabadiwala_records.map
          (fun h => h.total_amount)) = [-8] ∧
      ((kabadiwalaAdd demoEnv (demoKabadiwala [⟨"M", 4⟩] none none)
        { demoClient with
          committed := { demoStore with vendor_rates := [⟨"V", "M", -2⟩] } }).2.committed.kabadiwala_scraps.map
          (fun x => (x.weight, x.rate, x.amount))) = [(4, -2, -8)]) :=
  have h := (unchecked_signs demoEnv demoClient (fun _ => rfl)).1
    (demoFeriwala [⟨"M", 2⟩, ⟨"M", -5⟩]) (by decide) (by decide) (by decide)
  have h2 := (unchecked_signs demoEnv
    { demoClient with committed := { demoStore with vendor_rates := [⟨"V", "M", -2⟩] } }
    (fun _ => rfl)).2
    (demoKabadiwala [⟨"M", 4⟩] none none) (by decide) (by decide) (by decide)
  ⟨⟨by decide, by decide,
      h.2.2.2.2 (by decide) ⟨"A", 1000⟩ (by decide) (by decide), by decide⟩,
    ⟨h2.1, by decide, by decide⟩⟩



/-- C23. Status versus payment trail: for every kabadiwala add-purchase that
commits, whatever the storage layer does, the new header exists and its stored
`payment_status` is one of pending, partial, paid; if it is pending, the payment
records, the ledger and all account balances are exactly as before; if it is
partial, exactly one payment record was added, for the new header, with
0 < amount < `total_amount` of the header. -/
theorem status_matches_payment_trail (env : Env) (c : Client) (req : KabadiwalaReq)
    (r : Response) (hresp : (kabadiwalaAdd env req c).1 = some r)
    (h200 : r.status = 200) :
    (∃ h ∈ (kabadiwalaAdd env req c).2.committed.kabadiwala_records,
      h.id = newId env c) ∧
    ∀ h ∈ (kabadiwalaAdd env req c).2.committed.kabadiwala_records,
      h.id = newId env c →
      (h.payment_status = "pending" ∨ h.payment_status = "partial" ∨
        h.payment_status = "paid") ∧
      (h.payment_status = "pending" →
        (kabadiwalaAdd env req c).2.committed.kabadiwala_payments =
          c.view.kabadiwala_payments ∧
        (kabadiwalaAdd env req c).2.committed.account_transactions =
          c.view.account_transactions ∧
        (kabadiwalaAdd env req c).2.committed.accounts = c.view.accounts) ∧
      (h.payment_status = "partial" →
        ∃ p, (kabadiwalaAdd env req c).2.committed.kabadiwala_payments =
            c.view.kabadiwala_payments ++ [p] ∧
          p.kabadiwala_id = newId env c ∧ 0 < p.amount ∧
          p.amount < h.total_amount) := by
  rcases kabadiwalaAdd_cases env req c with ⟨vn, others, _, _, _, _, hc, _⟩ | ⟨hno, _⟩
  · refine ⟨by rw [hc]; exact kabadiwalaAfter_has_header env req c vn, ?_⟩
    intro h hh hid
    rw [hc] at hh
    obtain ⟨htot, hst⟩ := kabadiwalaAfter_total env req c vn h hh hid
    refine ⟨?_, ?_, ?_⟩
    · rw [hst]
      rcases payment_status_values (kabadiwalaPaid req) (kabadiwalaTotal env req c)
        with h1 | h1 | h1
      · exact Or.inr (Or.inr h1)
      · exact Or.inr (Or.inl h1)
      · exact Or.inl h1
    · intro hpend
      rw [hst] at hpend
      have hle := ((payment_status_pending_iff _ _).1 hpend).1
      have hnp : ¬ kabadiwalaPaid req > 0 := by omega
      have hposts : kabadiwalaPosts req = false := by
        simp [kabadiwalaPosts, hle]
      rw [hc]
      simp [kabadiwalaAfter, hnp, hposts]
    · intro hpart
      rw [hst] at hpart
      obtain ⟨h1, h2⟩ := (payment_status_partial_iff _ _).1 hpart
      refine ⟨kabadiwalaPaymentRow env req c, ?_, rfl, h1, by rw [htot]; exact h2⟩
      rw [hc]
      simp [kabadiwalaAfter, h1]
  · exact absurd h200 (hno r hresp)

/-- Witness for C23: a purchase of total 50 paid 30 from account A is stored as
partial with one payment of 30. -/
theorem status_matches_payment_trail_witness :
    (∃ h ∈ (kabadiwalaAdd demoEnv (demoKabadiwala [⟨"M", 5⟩] (some 30) (some "A"))
        demoClient).2.committed.kabadiwala_records, h.id = newId demoEnv demoClient) ∧
    ((kabadiwalaAdd demoEnv (demoKabadiwala [⟨"M", 5⟩] (some 30) (some "A"))
        demoClient).2.committed.kabadiwala_records.map
          (fun h => (h.id, h.total_amount, h.payment_status))) =
      [("uuid-0", 50, "partial")] ∧
    ((kabadiwalaAdd demoEnv (demoKabadiwala [⟨"M", 5⟩] (some 30) (some "A"))
        demoClient).2.committed.kabadiwala_payments.map
          (fun p => (p.kabadiwala_id, p.amount))) = [("uuid-0", 30)] :=
  ⟨(status_matches_payment_trail demoEnv demoClient
      (demoKabadiwala [⟨"M", 5⟩] (some 30) (some "A")) _ rfl (by decide)).1,
    by decide, by decide⟩

end Fleet
